import Mathlib

/-!
# ocl4dnn: tiled image GEMM scheduling and the inner-product layer

A shallow embedding of

* `modules/dnn/src/ocl4dnn/src/math_functions.cpp`
  (`gemmCallback`, `ocl4dnnGEMMCopyBufferToImage`, `ocl4dnnFastImageGEMM`,
  `ocl4dnnGEMMCommon`, `ocl4dnnGEMV`, `ocl4dnnAXPY`, `ocl4dnnSet`), and
* `modules/dnn/src/ocl4dnn/src/ocl4dnn_inner_product.cpp`
  (`OCL4DNNInnerProduct::Forward`).

Conventions of the embedding.

* `int` / `int32_t` values are mathematical integers (`Int`); signed overflow is
  undefined behaviour in C++ and is not modelled.  Conversions to and from the
  unsigned types (`size_t`, `uint`) are explicit (`toSizeT`, `toUInt`, `toInt32`).
* OpenCL objects are handles.  A `cl_mem` is `NULL`, a handle supplied by the
  caller, or a handle returned by `clCreateImage`; a `cl_event` is a number
  handed out by the runtime.  The runtime's two handle counters are threaded
  through the code as `CLState`.
* Every OpenCL call the code makes is recorded, in program order, as a `CLOp`.
  Native failures (`OCL_CHECK`) abort the process and are not part of the model:
  every OpenCL call succeeds.
* The tile loop of `ocl4dnnFastImageGEMM` need not terminate for arbitrary
  arguments (a tile edge of 0 never advances), so its loops carry fuel.
* The unused `ctx_id` parameter is dropped everywhere.
-/

namespace ocl4dnn

/-! ## Types -/

/-- Modelled from the spec: the transpose flag of an operand (no / yes).  The
enum is declared in `math_functions.hpp`, which is not among the sources; the
code compares against `CblasNoTrans` only and passes `CblasTrans`. -/
inductive CBLAS_TRANSPOSE where
  | CblasNoTrans
  | CblasTrans
  deriving DecidableEq, Repr

/-- The `gemm_type_t` enum of `math_functions.cpp`. -/
inductive gemm_type_t where
  | GEMM_TYPE_NONE
  | GEMM_TYPE_FAST_IMAGE_32_1
  | GEMM_TYPE_FAST_IMAGE_32_2
  | GEMM_TYPE_FAST_IMAGE_B_IMAGE
  | GEMM_TYPE_FAST_BUFFER
  | GEMM_TYPE_MAX
  deriving DecidableEq, Repr

/-- A memory-object handle: `NULL`, a handle owned by the caller, or a handle
returned by `clCreateImage` during the modelled code. -/
inductive cl_mem where
  | NULL
  | supplied (id : Nat)
  | created (id : Nat)
  deriving DecidableEq, Repr

/-- An event handle (completion token).  A null event is `none : Option cl_event`. -/
abbrev cl_event := Nat

/-- The two fields of `struct gemm_callback_arg`. -/
structure gemm_callback_arg where
  evs : List cl_event
  imgs : List cl_mem
  deriving DecidableEq, Repr

/-- A kernel argument as bound by `ocl::Kernel::set` / `clSetKernelArg`. -/
inductive KArg (Dtype : Type) where
  | mem (m : cl_mem)
  | int (v : Int)
  | uint (v : Nat)
  | scalar (v : Dtype)
  | localMem (bytes : Nat)
  deriving DecidableEq, Repr

/-- Channel data type of an image format. -/
inductive ChannelType where
  | CL_FLOAT
  | CL_UNSIGNED_INT8
  deriving DecidableEq, Repr

/-- Channel order of an image format. -/
inductive ChannelOrder where
  | CL_R
  | CL_RGBA
  deriving DecidableEq, Repr

/-- The OpenCL calls made by the modelled code. -/
inductive CLOp (Dtype : Type) where
  | clCreateImage (result : cl_mem) (readOnly : Bool) (dataType : ChannelType)
      (order : ChannelOrder) (image_width image_height : Nat)
  | clEnqueueCopyBufferToImage (buffer image : cl_mem) (src_offset : Nat)
      (region_w region_h : Nat) (num_events : Int) (wait_list : Option (List cl_event))
      (event : Option cl_event)
  | clEnqueueNDRangeKernel (kernel : String) (args : List (KArg Dtype))
      (global localSize : List Nat) (num_events : Int) (wait_list : Option (List cl_event))
      (event : Option cl_event)
  | clSetEventCallback (event : cl_event) (user_data : gemm_callback_arg)
  | clReleaseMemObject (m : cl_mem)
  | clReleaseEvent (e : cl_event)
  deriving DecidableEq, Repr

/-- The handle counters of the OpenCL runtime. -/
structure CLState where
  nextImage : Nat
  nextEvent : Nat
  deriving DecidableEq, Repr

/-- How a modelled call ends: normally, by a fatal check (`CHECK_EQ`, `LOG(FATAL)`),
or with the loop fuel used up. -/
inductive Outcome (α : Type) where
  | ok (val : α)
  | fatal (msg : String)
  | outOfFuel
  deriving DecidableEq, Repr

/-! ## Integer conversions -/

/-- Conversion of an `int` to `size_t` (64 bit). -/
def toSizeT (x : Int) : Nat := (x % (2 ^ 64 : Int)).toNat

/-- Conversion of an `int` to `uint` / `cl_uint` (32 bit). -/
def toUInt (x : Int) : Nat := (x % (2 ^ 32 : Int)).toNat

/-- Conversion of a `size_t` to `int` (32 bit, two's complement). -/
def toInt32 (n : Nat) : Int :=
  if n % 2 ^ 32 < 2 ^ 31 then ((n % 2 ^ 32 : Nat) : Int) else ((n % 2 ^ 32 : Nat) : Int) - 2 ^ 32

/-! ## gemmCallback -/

/-- The completion callback `gemmCallback`: releases every event of `arg->evs`, then
every image of `arg->imgs`. -/
def gemmCallback (Dtype : Type) (arg : gemm_callback_arg) : List (CLOp Dtype) :=
  arg.evs.map CLOp.clReleaseEvent ++ arg.imgs.map CLOp.clReleaseMemObject

/-! ## ocl4dnnGEMMCopyBufferToImage -/

/-- What a staging call leaves behind: the value of `*image`, the OpenCL calls made,
the event written through `event` (if any), and the runtime counters. -/
structure StageResult (Dtype : Type) where
  image : cl_mem
  ops : List (CLOp Dtype)
  event : Option cl_event
  st : CLState

/-- An enqueue writes a fresh event through a non-null `event` pointer. -/
def freshEvent (wantEvent : Bool) (st : CLState) : Option cl_event × CLState :=
  if wantEvent then (some st.nextEvent, { st with nextEvent := st.nextEvent + 1 })
  else (none, st)

/-- The staging step `ocl4dnnGEMMCopyBufferToImage`.  `image` is the value of `*image`
on entry, `wantEvent` says whether the `event` pointer is non-null, `sizeofDtype`
is `sizeof(Dtype)`.  `desc` is zeroed by `memset` and `desc.buffer` is never
assigned, so it is `NULL` at every test.  `src_offset` is the `size_t` product
`sizeof(Dtype) * offset` narrowed to `int`; the copy receives it as a `size_t`. -/
def ocl4dnnGEMMCopyBufferToImage {Dtype : Type} (sizeofDtype : Int) (st : CLState)
    (image buffer : cl_mem) (offset : Int) (is_matrix_a transpose padding : Bool)
    (padded_height padded_width height width ld : Int) (wait_list_size : Int)
    (wait_list : Option (List cl_event)) (wantEvent : Bool) : StageResult Dtype :=
  let desc_buffer : cl_mem := cl_mem.NULL
  let src_offset : Int := toInt32 (toSizeT sizeofDtype * toSizeT offset)
  if !is_matrix_a && transpose then
    let image_width := toSizeT width
    let image_height := toSizeT height
    let created : cl_mem × List (CLOp Dtype) × CLState :=
      if image = cl_mem.NULL then
        (cl_mem.created st.nextImage,
         [CLOp.clCreateImage (cl_mem.created st.nextImage) false ChannelType.CL_FLOAT
            ChannelOrder.CL_R image_width image_height],
         { st with nextImage := st.nextImage + 1 })
      else (image, [], st)
    let ev := freshEvent wantEvent created.2.2
    if ld = width then
      { image := created.1
        ops := created.2.1 ++
          [CLOp.clEnqueueCopyBufferToImage buffer created.1 (toSizeT src_offset) image_width
            image_height
            wait_list_size wait_list ev.1]
        event := ev.1
        st := ev.2 }
    else
      { image := created.1
        ops := created.2.1 ++
          [CLOp.clEnqueueNDRangeKernel "gemm_buffer_copy_image_transpose_float"
            [KArg.mem buffer, KArg.mem created.1, KArg.int offset, KArg.int width,
             KArg.int height, KArg.int ld]
            [toSizeT width, toSizeT height] [] wait_list_size wait_list ev.1]
        event := ev.1
        st := ev.2 }
  else
    let created : cl_mem × List (CLOp Dtype) × CLState :=
      if image = cl_mem.NULL then
        (cl_mem.created st.nextImage,
         [CLOp.clCreateImage (cl_mem.created st.nextImage) (desc_buffer != cl_mem.NULL)
            ChannelType.CL_UNSIGNED_INT8 ChannelOrder.CL_RGBA
            (if !padding then toSizeT width else toSizeT padded_width)
            (if !padding then toSizeT height else toSizeT padded_height)],
         { st with nextImage := st.nextImage + 1 })
      else (image, [], st)
    if !padding && desc_buffer != cl_mem.NULL then
      { image := created.1, ops := created.2.1, event := none, st := created.2.2 }
    else
      let ev := freshEvent wantEvent created.2.2
      if !padding && desc_buffer == cl_mem.NULL then
        { image := created.1
          ops := created.2.1 ++
            [CLOp.clEnqueueCopyBufferToImage buffer created.1 (toSizeT src_offset) (toSizeT width)
              (toSizeT height) wait_list_size wait_list ev.1]
          event := ev.1
          st := ev.2 }
      else
        { image := created.1
          ops := created.2.1 ++
            [CLOp.clEnqueueNDRangeKernel "gemm_buffer_copy_image_no_transpose_float"
              [KArg.mem buffer, KArg.mem created.1, KArg.int offset, KArg.int width,
               KArg.int height, KArg.int ld]
              [toSizeT (if padding then padded_width else width),
               toSizeT (if padding then padded_height else height)] [] wait_list_size
              wait_list ev.1]
          event := ev.1
          st := ev.2 }

/-! ## ocl4dnnFastImageGEMM -/

/-- The arguments of `ocl4dnnFastImageGEMM`. -/
structure GemmArgs (Dtype : Type) where
  TransA : CBLAS_TRANSPOSE
  TransB : CBLAS_TRANSPOSE
  M : Int
  N : Int
  K : Int
  alpha : Dtype
  A : cl_mem
  offA : Int
  B : cl_mem
  offB : Int
  beta : Dtype
  C : cl_mem
  offC : Int
  is_image_a : Bool
  is_image_b : Bool
  gemm_type : gemm_type_t
  max_image_size : Nat

/-- The function-scope `int` variables written by the tile loop. -/
structure LoopVars where
  A_start_x : Int
  A_start_y : Int
  B_start_x : Int
  B_start_y : Int
  C_start_x : Int
  C_start_y : Int
  blockA_width : Int
  blockA_height : Int
  blockB_width : Int
  blockB_height : Int
  blockC_width : Int
  blockC_height : Int
  deriving DecidableEq, Repr

/-- The host variables `ImA`, `ImB` and the runtime counters. -/
structure Res where
  ImA : cl_mem
  ImB : cl_mem
  st : CLState
  deriving DecidableEq, Repr

/-- The integer locals of one pass of the K loop, as they stand at the compute launch. -/
structure TileGeom where
  v : LoopVars
  k : Int
  isFirstColBlock : Int
  block_Ksize : Int
  padded_k : Int
  imageA_w : Int
  imageA_h : Int
  imageB_w : Int
  imageB_h : Int
  blockA_offset : Int
  blockB_offset : Int
  blockC_offset : Int
  deriving DecidableEq, Repr

/-- The arguments of one call of the staging step made by the tile loop (`image` is the
value of `*image` on entry), and the value of `*image` on return. -/
structure StageCall where
  image : cl_mem
  buffer : cl_mem
  offset : Int
  is_matrix_a : Bool
  transpose : Bool
  padding : Bool
  padded_height : Int
  padded_width : Int
  height : Int
  width : Int
  ld : Int
  result : cl_mem
  deriving DecidableEq, Repr

/-- Everything one pass of the K loop does. -/
structure TileRecord (Dtype : Type) where
  geom : TileGeom
  calls : List StageCall
  stagingOps : List (CLOp Dtype)
  ev : List cl_event
  ImA : cl_mem
  ImB : cl_mem
  global : List Nat
  localSize : List Nat
  args : List (KArg Dtype)
  wait_list : Option (List cl_event)
  launch : CLOp Dtype
  launchEvent : cl_event
  callback_arg : gemm_callback_arg

/-- The OpenCL calls of one pass of the K loop, in program order. -/
def TileRecord.ops {Dtype : Type} (t : TileRecord Dtype) : List (CLOp Dtype) :=
  t.stagingOps ++ [t.launch, CLOp.clSetEventCallback t.launchEvent t.callback_arg]

/-- What a call of `ocl4dnnFastImageGEMM` did: the passes of the K loop in order, the
releases after the loop, and the final host variables. -/
structure GemmRun (Dtype : Type) where
  tiles : List (TileRecord Dtype)
  finalOps : List (CLOp Dtype)
  res : Res

/-- The OpenCL calls of a whole call, in program order. -/
def GemmRun.ops {Dtype : Type} (r : GemmRun Dtype) : List (CLOp Dtype) :=
  r.tiles.flatMap TileRecord.ops ++ r.finalOps

section gemm
variable {Dtype : Type}

/-- Line 243. -/
def widthA (a : GemmArgs Dtype) : Int :=
  if a.TransA = CBLAS_TRANSPOSE.CblasNoTrans then a.K else a.M

/-- Line 244. -/
def heightA (a : GemmArgs Dtype) : Int :=
  if a.TransA = CBLAS_TRANSPOSE.CblasNoTrans then a.M else a.K

/-- Line 245. -/
def widthB (a : GemmArgs Dtype) : Int :=
  if a.TransB = CBLAS_TRANSPOSE.CblasNoTrans then a.N else a.K

/-- Line 246. -/
def heightB (a : GemmArgs Dtype) : Int :=
  if a.TransB = CBLAS_TRANSPOSE.CblasNoTrans then a.K else a.N

/-- Line 248. -/
def ldA (a : GemmArgs Dtype) : Int := widthA a

/-- Line 249. -/
def ldB (a : GemmArgs Dtype) : Int := widthB a

/-- Line 250. -/
def ldC (a : GemmArgs Dtype) : Int := a.N

/-- Lines 254 to 256: the tile edge. -/
def blocksize (a : GemmArgs Dtype) : Int :=
  if a.gemm_type = gemm_type_t.GEMM_TYPE_FAST_IMAGE_B_IMAGE then toInt32 a.max_image_size
  else 1024

/-- Line 264. -/
def use_buffer_indicator : Int := 8

/-- The test `K % use_buffer_indicator != 0` (C++ remainder, truncating). -/
def kNotMultiple (a : GemmArgs Dtype) : Bool :=
  decide (Int.tmod a.K use_buffer_indicator ≠ 0)

/-- Lines 276 to 310: the kernel program name. -/
def kernel_name [DecidableEq Dtype] [Zero Dtype] [One Dtype] (a : GemmArgs Dtype) : String :=
  "gemm_"
  ++ (if a.gemm_type = gemm_type_t.GEMM_TYPE_FAST_IMAGE_32_1 ∨
         a.gemm_type = gemm_type_t.GEMM_TYPE_FAST_IMAGE_B_IMAGE then "32_1_" else "32_2_")
  ++ (if a.TransA = CBLAS_TRANSPOSE.CblasNoTrans then "N" else "T")
  ++ (if a.TransB = CBLAS_TRANSPOSE.CblasNoTrans then "N_"
      else "T_" ++ (if a.is_image_b || kNotMultiple a then "SCALAR_" else "BUFFER_"))
  ++ (if a.alpha = 1 then "1_" else "0_")
  ++ (if a.beta = 0 then "0" else "1")
  ++ "_float"

/-- Lines 326 to 329: the A and B block extents, clipped to what remains. -/
def blockSizes (a : GemmArgs Dtype) (v : LoopVars) : LoopVars :=
  { v with
    blockA_width := min (widthA a - v.A_start_x) (blocksize a)
    blockA_height := min (heightA a - v.A_start_y) (blocksize a)
    blockB_width := min (widthB a - v.B_start_x) (blocksize a)
    blockB_height := min (heightB a - v.B_start_y) (blocksize a) }

/-- Line 332: `block_Ksize + ((block_Ksize & 7) ? (8 - (block_Ksize & 7)) : 0)`. -/
def paddedK (block_Ksize : Int) : Int :=
  block_Ksize + (if Int.land block_Ksize 7 ≠ 0 then 8 - Int.land block_Ksize 7 else 0)

/-- Lines 326 to 340: the integer locals of a pass of the K loop entered with loop
variables `v0`, K cursor `k` and flag `isFirstColBlock`. -/
def tileGeom (a : GemmArgs Dtype) (v0 : LoopVars) (k isFirstColBlock : Int) : TileGeom :=
  let v := blockSizes a v0
  let block_Ksize := min (a.K - k) (blocksize a)
  let padded_k := paddedK block_Ksize
  { v := v
    k := k
    isFirstColBlock := isFirstColBlock
    block_Ksize := block_Ksize
    padded_k := padded_k
    imageA_w := if a.TransA = CBLAS_TRANSPOSE.CblasNoTrans then padded_k else v.blockA_width
    imageA_h := if a.TransA = CBLAS_TRANSPOSE.CblasNoTrans then v.blockA_height else padded_k
    imageB_w := if a.TransB = CBLAS_TRANSPOSE.CblasNoTrans then v.blockB_width else padded_k
    imageB_h := if a.TransB = CBLAS_TRANSPOSE.CblasNoTrans then padded_k else v.blockB_height
    blockA_offset := a.offA + v.A_start_y * ldA a + v.A_start_x
    blockB_offset := a.offB + v.B_start_y * ldB a + v.B_start_x
    blockC_offset := a.offC + v.C_start_y * ldC a + v.C_start_x }

/-- The staging calls of one pass so far: host variables, OpenCL calls, the filled
prefix `ev[0 .. ev_idx-1]` of the event array, and the calls' arguments. -/
structure Staged (Dtype : Type) where
  res : Res
  ops : List (CLOp Dtype)
  ev : List cl_event
  calls : List StageCall

/-- A staging call for operand A made with `&ImA` and `&ev[ev_idx]`, followed by
`if (ev[ev_idx] != NULL) ev_idx++`. -/
def stageA (sizeofDtype : Int) (a : GemmArgs Dtype) (g : TileGeom) (padding : Bool)
    (s : Staged Dtype) : Staged Dtype :=
  let r : StageResult Dtype :=
    ocl4dnnGEMMCopyBufferToImage sizeofDtype s.res.st s.res.ImA a.A g.blockA_offset true
      (decide (a.TransA ≠ CBLAS_TRANSPOSE.CblasNoTrans)) padding g.imageA_h g.imageA_w
      g.v.blockA_height g.v.blockA_width (ldA a) 0 none true
  { res := { s.res with ImA := r.image, st := r.st }
    ops := s.ops ++ r.ops
    ev := match r.event with
      | some e => s.ev ++ [e]
      | none => s.ev
    calls := s.calls ++
      [{ image := s.res.ImA, buffer := a.A, offset := g.blockA_offset, is_matrix_a := true
         transpose := decide (a.TransA ≠ CBLAS_TRANSPOSE.CblasNoTrans), padding := padding
         padded_height := g.imageA_h, padded_width := g.imageA_w
         height := g.v.blockA_height, width := g.v.blockA_width, ld := ldA a
         result := r.image }] }

/-- A staging call for operand B made with `&ImB` and `&ev[ev_idx]`, followed by
`if (ev[ev_idx] != NULL) ev_idx++`. -/
def stageB (sizeofDtype : Int) (a : GemmArgs Dtype) (g : TileGeom) (transpose padding : Bool)
    (s : Staged Dtype) : Staged Dtype :=
  let r : StageResult Dtype :=
    ocl4dnnGEMMCopyBufferToImage sizeofDtype s.res.st s.res.ImB a.B g.blockB_offset false
      transpose padding g.imageB_h g.imageB_w g.v.blockB_height g.v.blockB_width (ldB a) 0
      none true
  { res := { s.res with ImB := r.image, st := r.st }
    ops := s.ops ++ r.ops
    ev := match r.event with
      | some e => s.ev ++ [e]
      | none => s.ev
    calls := s.calls ++
      [{ image := s.res.ImB, buffer := a.B, offset := g.blockB_offset, is_matrix_a := false
         transpose := transpose, padding := padding
         padded_height := g.imageB_h, padded_width := g.imageB_w
         height := g.v.blockB_height, width := g.v.blockB_width, ld := ldB a
         result := r.image }] }

/-- Lines 341 to 403: the staging of the two operands. -/
def stageOperands (sizeofDtype : Int) (a : GemmArgs Dtype) (g : TileGeom) (r : Res) :
    Staged Dtype :=
  let s0 : Staged Dtype := { res := r, ops := [], ev := [], calls := [] }
  if a.TransB = CBLAS_TRANSPOSE.CblasNoTrans then
    let both := !a.is_image_a && !a.is_image_b
    let padding_B := both && decide (a.M * a.K < a.N * a.K)
    let padding_A := both && !decide (a.M * a.K < a.N * a.K)
    let s1 := if !a.is_image_a then stageA sizeofDtype a g padding_A s0 else s0
    if !a.is_image_b then stageB sizeofDtype a g false padding_B s1 else s1
  else
    let s1 := if !a.is_image_a then stageA sizeofDtype a g (!a.is_image_b) s0 else s0
    if !a.is_image_b && kNotMultiple a then stageB sizeofDtype a g true false s1 else s1

/-- Lines 409 to 416: the global work size. `~7` is the `int` -8, converted to `size_t`. -/
def globalSize (a : GemmArgs Dtype) (g : TileGeom) : List Nat :=
  [ (if a.gemm_type = gemm_type_t.GEMM_TYPE_FAST_IMAGE_32_1 ∨
        a.gemm_type = gemm_type_t.GEMM_TYPE_FAST_IMAGE_B_IMAGE then
      Nat.land (toSizeT (g.v.blockC_width + 7)) (toSizeT (-8))
    else
      Nat.xor (toSizeT (Int.tdiv g.v.blockC_width 2 + 7)) (toSizeT (-8))),
    toSizeT (g.v.blockC_height + 31) / 32 ]

/-- Lines 422 to 442: the kernel arguments in binding order. -/
def kernelArgs (a : GemmArgs Dtype) (g : TileGeom) (ImA ImB : cl_mem) : List (KArg Dtype) :=
  [KArg.mem ImA]
  ++ (if a.TransB = CBLAS_TRANSPOSE.CblasNoTrans || a.is_image_b || kNotMultiple a then
        [KArg.mem ImB]
      else [KArg.mem a.B, KArg.int g.blockB_offset, KArg.int (ldB a)])
  ++ [KArg.mem a.C, KArg.int g.blockC_offset, KArg.int g.v.blockC_height,
      KArg.int g.v.blockC_width, KArg.int (ldC a), KArg.scalar a.alpha, KArg.scalar a.beta,
      KArg.int g.padded_k]
  ++ (if a.TransB ≠ CBLAS_TRANSPOSE.CblasNoTrans then [KArg.int g.block_Ksize] else [])
  ++ [KArg.int g.isFirstColBlock]

/-- Lines 321 to 450 and 462 to 464: one pass of the K loop apart from the cursor
updates: staging, argument binding, the compute launch and the callback
registration. -/
def tileBody [DecidableEq Dtype] [Zero Dtype] [One Dtype] (sizeofDtype : Int)
    (a : GemmArgs Dtype) (g : TileGeom) (r : Res) : TileRecord Dtype × Res :=
  let s := stageOperands sizeofDtype a g r
  let ImA := if a.is_image_a then a.A else s.res.ImA
  let ImB := if a.is_image_b then a.B else s.res.ImB
  let global := globalSize a g
  let localSize : List Nat := [8, 1]
  let args := kernelArgs a g ImA ImB
  let wait_list : Option (List cl_event) := if s.ev.length ≠ 0 then some s.ev else none
  let launchEvent : cl_event := s.res.st.nextEvent
  let st := { s.res.st with nextEvent := s.res.st.nextEvent + 1 }
  let arg : gemm_callback_arg := { evs := s.ev ++ [launchEvent], imgs := [] }
  ({ geom := g
     calls := s.calls
     stagingOps := s.ops
     ev := s.ev
     ImA := ImA
     ImB := ImB
     global := global
     localSize := localSize
     args := args
     wait_list := wait_list
     launch := CLOp.clEnqueueNDRangeKernel (kernel_name a) args global localSize s.ev.length
       wait_list (some launchEvent)
     launchEvent := launchEvent
     callback_arg := arg },
   { ImA := ImA, ImB := ImB, st := st })

/-- Lines 451 to 459: the A and B cursors advance along K. -/
def advanceK (a : GemmArgs Dtype) (v : LoopVars) : LoopVars :=
  let v1 :=
    if a.TransA = CBLAS_TRANSPOSE.CblasNoTrans then
      { v with A_start_x := v.A_start_x + v.blockA_width }
    else { v with A_start_y := v.A_start_y + v.blockA_height }
  if a.TransB = CBLAS_TRANSPOSE.CblasNoTrans then
    { v1 with B_start_y := v1.B_start_y + v1.blockB_height }
  else { v1 with B_start_x := v1.B_start_x + v1.blockB_width }

/-- The records of the passes already made, put in front of those of the rest of a loop. -/
def prependTiles (ts : List (TileRecord Dtype)) :
    Outcome (List (TileRecord Dtype) × LoopVars × Res) →
    Outcome (List (TileRecord Dtype) × LoopVars × Res)
  | Outcome.ok (ts2, v, r) => Outcome.ok (ts ++ ts2, v, r)
  | Outcome.fatal msg => Outcome.fatal msg
  | Outcome.outOfFuel => Outcome.outOfFuel

/-- Lines 319 to 465: the K loop `for (int k = 0; k < K; k += blocksize)`, entered at
cursor `k`. -/
def kLoop [DecidableEq Dtype] [Zero Dtype] [One Dtype] (sizeofDtype : Int)
    (a : GemmArgs Dtype) :
    Nat → Int → Int → LoopVars → Res → Outcome (List (TileRecord Dtype) × LoopVars × Res)
  | 0, _, _, _, _ => Outcome.outOfFuel
  | fuel + 1, k, isFirstColBlock, v, r =>
    if k < a.K then
      let g := tileGeom a v k isFirstColBlock
      let tr := tileBody sizeofDtype a g r
      prependTiles [tr.1] (kLoop sizeofDtype a fuel (k + blocksize a) 0 (advanceK a g.v) tr.2)
    else Outcome.ok ([], v, r)

/-- Lines 315 and 316: the output block extents. -/
def blockCSizes (a : GemmArgs Dtype) (v : LoopVars) : LoopVars :=
  { v with
    blockC_width := min (a.N - v.C_start_x) (blocksize a)
    blockC_height := min (a.M - v.C_start_y) (blocksize a) }

/-- Lines 467 to 490: the cursor updates at the end of a pass of the outer loop. -/
def advanceC (a : GemmArgs Dtype) (v : LoopVars) : LoopVars :=
  let v1 := { v with C_start_x := v.C_start_x + v.blockC_width }
  let v2 :=
    if a.TransA = CBLAS_TRANSPOSE.CblasNoTrans then { v1 with A_start_x := 0 }
    else { v1 with A_start_y := 0 }
  let v3 :=
    if a.TransB = CBLAS_TRANSPOSE.CblasNoTrans then
      { v2 with B_start_x := v2.B_start_x + v2.blockB_width, B_start_y := 0 }
    else { v2 with B_start_y := v2.B_start_y + v2.blockB_height, B_start_x := 0 }
  if v3.C_start_x ≥ a.N then
    let v4 :=
      { v3 with
        C_start_x := 0, B_start_x := 0, B_start_y := 0
        C_start_y := v3.C_start_y + v3.blockC_height }
    if a.TransA = CBLAS_TRANSPOSE.CblasNoTrans then
      { v4 with A_start_y := v4.A_start_y + v4.blockA_height }
    else { v4 with A_start_x := v4.A_start_x + v4.blockA_width }
  else v3

/-- Lines 313 to 491: the outer loop `while (C_start_y < M)`.  `kFuel` is the fuel
given to each run of the K loop. -/
def tileLoop [DecidableEq Dtype] [Zero Dtype] [One Dtype] (sizeofDtype : Int)
    (a : GemmArgs Dtype) (kFuel : Nat) :
    Nat → LoopVars → Res → Outcome (List (TileRecord Dtype) × LoopVars × Res)
  | 0, _, _ => Outcome.outOfFuel
  | fuel + 1, v, r =>
    if v.C_start_y < a.M then
      match kLoop sizeofDtype a kFuel 0 1 (blockCSizes a v) r with
      | Outcome.ok (ts, v1, r1) =>
        prependTiles ts (tileLoop sizeofDtype a kFuel fuel (advanceC a v1) r1)
      | Outcome.fatal msg => Outcome.fatal msg
      | Outcome.outOfFuel => Outcome.outOfFuel
    else Outcome.ok ([], v, r)

/-- Lines 252 to 262: the initial values of the loop variables. -/
def initVars (a : GemmArgs Dtype) : LoopVars :=
  { A_start_x := 0, A_start_y := 0, B_start_x := 0, B_start_y := 0, C_start_x := 0
    C_start_y := 0
    blockA_width := blocksize a, blockA_height := blocksize a
    blockB_width := blocksize a, blockB_height := blocksize a
    blockC_width := blocksize a, blockC_height := blocksize a }

/-- Lines 493 to 496: the releases after the loop. -/
def finalReleases (a : GemmArgs Dtype) (r : Res) : List (CLOp Dtype) :=
  (if r.ImA ≠ cl_mem.NULL ∧ a.is_image_a = false then [CLOp.clReleaseMemObject r.ImA] else [])
  ++ (if r.ImB ≠ cl_mem.NULL ∧ a.is_image_b = false then [CLOp.clReleaseMemObject r.ImB]
      else [])

/-- The function `ocl4dnnFastImageGEMM`, run from runtime state `st` with `fuel` for its
loops.  The three `CHECK_EQ` tests are fatal when they fail (the macro is not
among the sources; the spec calls a failed invariant check fatal). -/
def ocl4dnnFastImageGEMM [DecidableEq Dtype] [Zero Dtype] [One Dtype] (sizeofDtype : Int)
    (fuel : Nat) (st : CLState) (a : GemmArgs Dtype) : Outcome (GemmRun Dtype) :=
  if ¬ (a.gemm_type = gemm_type_t.GEMM_TYPE_FAST_IMAGE_32_1 ∨
        a.gemm_type = gemm_type_t.GEMM_TYPE_FAST_IMAGE_32_2 ∨
        a.gemm_type = gemm_type_t.GEMM_TYPE_FAST_IMAGE_B_IMAGE) then
    Outcome.fatal "Invalid fast image gemm type."
  else if a.is_image_a = true ∧ a.offA ≠ 0 then
    Outcome.fatal "Invalid input image offset."
  else if a.is_image_b = true ∧ a.offB ≠ 0 then
    Outcome.fatal "Invalid input image offset."
  else
    match tileLoop sizeofDtype a fuel fuel (initVars a)
        { ImA := cl_mem.NULL, ImB := cl_mem.NULL, st := st } with
    | Outcome.ok (ts, _, r) =>
      Outcome.ok { tiles := ts, finalOps := finalReleases a r, res := r }
    | Outcome.fatal msg => Outcome.fatal msg
    | Outcome.outOfFuel => Outcome.outOfFuel

/-- The function `ocl4dnnGEMMCommon`. -/
def ocl4dnnGEMMCommon [DecidableEq Dtype] [Zero Dtype] [One Dtype] (sizeofDtype : Int)
    (fuel : Nat) (st : CLState) (TransB : CBLAS_TRANSPOSE) (M N K : Int)
    (A B B_image C : cl_mem) (max_image_size : Nat) : Outcome (Option (GemmRun Dtype)) :=
  let gemm_type := gemm_type_t.GEMM_TYPE_FAST_IMAGE_32_1
  if gemm_type = gemm_type_t.GEMM_TYPE_FAST_IMAGE_32_1 ∨
     gemm_type = gemm_type_t.GEMM_TYPE_FAST_IMAGE_32_2 then
    match ocl4dnnFastImageGEMM sizeofDtype fuel st
        { TransA := CBLAS_TRANSPOSE.CblasNoTrans, TransB := TransB, M := M, N := N, K := K
          alpha := (1 : Dtype), A := A, offA := 0, B := B, offB := 0, beta := (0 : Dtype)
          C := C, offC := 0, is_image_a := false, is_image_b := false
          gemm_type := gemm_type, max_image_size := max_image_size } with
    | Outcome.ok run => Outcome.ok (some run)
    | Outcome.fatal msg => Outcome.fatal msg
    | Outcome.outOfFuel => Outcome.outOfFuel
  else if gemm_type = gemm_type_t.GEMM_TYPE_FAST_IMAGE_B_IMAGE then
    match ocl4dnnFastImageGEMM sizeofDtype fuel st
        { TransA := CBLAS_TRANSPOSE.CblasNoTrans, TransB := TransB, M := M, N := N, K := K
          alpha := (1 : Dtype), A := A, offA := 0, B := B_image, offB := 0
          beta := (0 : Dtype), C := C, offC := 0, is_image_a := false, is_image_b := true
          gemm_type := gemm_type_t.GEMM_TYPE_FAST_IMAGE_B_IMAGE
          max_image_size := max_image_size } with
    | Outcome.ok run => Outcome.ok (some run)
    | Outcome.fatal msg => Outcome.fatal msg
    | Outcome.outOfFuel => Outcome.outOfFuel
  else Outcome.ok none

end gemm

/-! ## The vector primitives -/

section vector
variable {Dtype : Type}

/-- The function `ocl4dnnGEMV`.  `CL_KERNEL_SELECT` is a macro of `common.hpp`, which is
not among the sources, and is taken as a parameter; `deviceIsCPU` is the test
`ocl::Device::getDefault().type() == CL_DEVICE_TYPE_CPU`, `dtypeIsFloat` is
`std::is_same<Dtype, float>::value`.  `LOG(FATAL)` is fatal (the macro is not
among the sources; the spec calls the CPU case a hard failure). -/
def ocl4dnnGEMV (CL_KERNEL_SELECT : String → String) (deviceIsCPU dtypeIsFloat : Bool)
    (TransA : CBLAS_TRANSPOSE) (M N : Int) (alpha : Dtype) (A : cl_mem) (offA : Int)
    (x : cl_mem) (offx : Int) (beta : Dtype) (y : cl_mem) (offy : Int) :
    Outcome (List (CLOp Dtype)) :=
  if deviceIsCPU then Outcome.fatal "Not Support CPU device"
  else if dtypeIsFloat && decide (TransA = CBLAS_TRANSPOSE.CblasNoTrans) then
    let row_size : Nat := toUInt M
    let col_size : Nat := toUInt N
    let localsize : Nat := 128
    let globalsize : Nat := row_size / 4 * localsize
    let k : CLOp Dtype :=
      CLOp.clEnqueueNDRangeKernel (CL_KERNEL_SELECT "matvec_mul4")
        [KArg.mem A, KArg.int offA, KArg.uint col_size, KArg.uint (col_size % 4), KArg.mem x,
         KArg.int offx, KArg.scalar alpha, KArg.scalar beta, KArg.mem y, KArg.int offy,
         KArg.localMem (localsize * 16)]
        [globalsize] [localsize] 0 none none
    if row_size % 4 ≠ 0 then
      let localsize1 : Nat := 128
      let globalsize1 : Nat := row_size % 4 * localsize1
      let row_offset : Nat := row_size - row_size % 4
      Outcome.ok [k,
        CLOp.clEnqueueNDRangeKernel (CL_KERNEL_SELECT "matvec_mul1")
          [KArg.mem A, KArg.int offA, KArg.uint col_size, KArg.uint row_offset,
           KArg.uint (col_size % 4), KArg.mem x, KArg.int offx, KArg.scalar alpha,
           KArg.scalar beta, KArg.mem y, KArg.int offy, KArg.localMem (localsize1 * 4)]
          [globalsize1] [localsize1] 0 none none]
    else Outcome.ok [k]
  else Outcome.ok []

/-- The function `ocl4dnnAXPY`; parameters as for `ocl4dnnGEMV`.  `ocl::Kernel::run`
enqueues the kernel. -/
def ocl4dnnAXPY (CL_KERNEL_SELECT : String → String) (deviceIsCPU : Bool) (N : Int)
    (alpha : Dtype) (X : cl_mem) (offX : Int) (Y : cl_mem) (offY : Int) :
    Outcome (List (CLOp Dtype)) :=
  if deviceIsCPU then Outcome.fatal "Not Support CPU device"
  else
    Outcome.ok
      [CLOp.clEnqueueNDRangeKernel (CL_KERNEL_SELECT "axpy")
        [KArg.int N, KArg.scalar alpha, KArg.mem X, KArg.int offX, KArg.mem Y, KArg.int offY]
        [128 * 128] [128] 0 none none]

/-- The function `ocl4dnnSet`.  It takes `deviceIsCPU` like its two siblings so that
the three can be compared; the source never reads the device type here. -/
def ocl4dnnSet (CL_KERNEL_SELECT : String → String) (_deviceIsCPU : Bool) (N : Int)
    (alpha : Dtype) (Y : cl_mem) (offY : Int) : Outcome (List (CLOp Dtype)) :=
  Outcome.ok
    [CLOp.clEnqueueNDRangeKernel (CL_KERNEL_SELECT "fill")
      [KArg.int N, KArg.scalar alpha, KArg.mem Y, KArg.int offY]
      [128 * 128] [128] 0 none none]

end vector

/-! ## OCL4DNNInnerProduct::Forward -/

/-- A call from `Forward` to one of the functions of `math_functions.cpp`, with its
arguments. -/
inductive Call (Dtype : Type) where
  | ocl4dnnGEMV (TransA : CBLAS_TRANSPOSE) (M N : Int) (alpha : Dtype) (A : cl_mem)
      (offA : Int) (x : cl_mem) (offx : Int) (beta : Dtype) (y : cl_mem) (offy : Int)
  | ocl4dnnAXPY (N : Int) (alpha : Dtype) (X : cl_mem) (offX : Int) (Y : cl_mem) (offY : Int)
  | ocl4dnnGEMMCopyBufferToImage (image buffer : cl_mem) (offset : Int)
      (is_matrix_a transpose padding : Bool) (padded_height padded_width height width ld : Int)
      (wait_list_size : Int)
  | ocl4dnnGEMMCommon (TransB : CBLAS_TRANSPOSE) (M N K : Int) (A B B_image C : cl_mem)
      (max_image_size : Nat)
  deriving DecidableEq, Repr

/-- The call is one to the matrix-vector multiply. -/
def Call.isGEMV {Dtype : Type} : Call Dtype → Bool
  | Call.ocl4dnnGEMV _ _ _ _ _ _ _ _ _ _ _ => true
  | _ => false

/-- The call is one to the scaled vector add. -/
def Call.isAXPY {Dtype : Type} : Call Dtype → Bool
  | Call.ocl4dnnAXPY _ _ _ _ _ _ => true
  | _ => false

/-! ## Resource accounting -/

/-- The image returned by an OpenCL call, if it is a `clCreateImage`. -/
def CLOp.createdImage {Dtype : Type} : CLOp Dtype → Option cl_mem
  | CLOp.clCreateImage m _ _ _ _ _ => some m
  | _ => none

/-- The memory object released by an OpenCL call, if it is a `clReleaseMemObject`. -/
def CLOp.releasedMem {Dtype : Type} : CLOp Dtype → Option cl_mem
  | CLOp.clReleaseMemObject m => some m
  | _ => none

/-- The event (completion token) returned by an OpenCL call, if it is an enqueue. -/
def CLOp.producedEvent {Dtype : Type} : CLOp Dtype → Option cl_event
  | CLOp.clEnqueueCopyBufferToImage _ _ _ _ _ _ _ e => e
  | CLOp.clEnqueueNDRangeKernel _ _ _ _ _ _ e => e
  | _ => none

/-- The event released by an OpenCL call, if it is a `clReleaseEvent`. -/
def CLOp.releasedEvent {Dtype : Type} : CLOp Dtype → Option cl_event
  | CLOp.clReleaseEvent e => some e
  | _ => none

/-- The OpenCL calls made by the callback an OpenCL call registers, if it registers one. -/
def CLOp.callback {Dtype : Type} : CLOp Dtype → List (CLOp Dtype)
  | CLOp.clSetEventCallback _ arg => gemmCallback Dtype arg
  | _ => []

/-- The images returned by the `clCreateImage` calls of a list of OpenCL calls. -/
def createdImages {Dtype : Type} (ops : List (CLOp Dtype)) : List cl_mem :=
  ops.filterMap CLOp.createdImage

/-- The memory objects released by a list of OpenCL calls. -/
def releasedMems {Dtype : Type} (ops : List (CLOp Dtype)) : List cl_mem :=
  ops.filterMap CLOp.releasedMem

/-- The events (completion tokens) returned by the enqueue calls of a list of OpenCL
calls. -/
def producedEvents {Dtype : Type} (ops : List (CLOp Dtype)) : List cl_event :=
  ops.filterMap CLOp.producedEvent

/-- The events released by a list of OpenCL calls. -/
def releasedEvents {Dtype : Type} (ops : List (CLOp Dtype)) : List cl_event :=
  ops.filterMap CLOp.releasedEvent

/-- The OpenCL calls made when every callback registered by `ops` runs once. -/
def callbackOps {Dtype : Type} (ops : List (CLOp Dtype)) : List (CLOp Dtype) :=
  ops.flatMap CLOp.callback

/-- The OpenCL calls of a call of `ocl4dnnFastImageGEMM` that has returned and whose
completion callbacks have each run once. -/
def GemmRun.completed {Dtype : Type} (r : GemmRun Dtype) : List (CLOp Dtype) :=
  r.ops ++ callbackOps r.ops

/-- Lines 354 and 379: the tile loop stages operand A exactly when A is not supplied
as a texture. -/
def stagesA {Dtype : Type} (a : GemmArgs Dtype) : Bool := !a.is_image_a

/-- Lines 365 and 393: the tile loop stages operand B exactly when B is not supplied as
a texture and either B is not transposed or `K % 8 != 0`. -/
def stagesB {Dtype : Type} (a : GemmArgs Dtype) : Bool :=
  !a.is_image_b && (decide (a.TransB = CBLAS_TRANSPOSE.CblasNoTrans) || kNotMultiple a)

/-- The handle was returned by `clCreateImage`. -/
def cl_mem.isCreated : cl_mem → Bool
  | cl_mem.created _ => true
  | _ => false

/-! ## The tile grid in closed form -/

/-- The number of tiles of edge `b` along an axis of extent `D`: the ceiling of `D / b`. -/
def numTiles (D b : Int) : Nat := ((D + b - 1) / b).toNat

/-- The first `n` tile starts `s, s + b, s + 2 b, ...` along an axis. -/
def tileStarts : Nat → Int → Int → List Int
  | 0, _, _ => []
  | n + 1, s, b => s :: tileStarts n (s + b) b

section grid
variable {Dtype : Type}

/-- The loop variables at the compute launch of the pass whose output tile starts at
row `y` and column `x` and whose K block starts at `k`, written out: the A and B
cursors placed by the transpose flags, every block extent clipped. -/
def cursorAt (a : GemmArgs Dtype) (y x k : Int) : LoopVars :=
  blockSizes a
    { A_start_x := if a.TransA = CBLAS_TRANSPOSE.CblasNoTrans then k else y
      A_start_y := if a.TransA = CBLAS_TRANSPOSE.CblasNoTrans then y else k
      B_start_x := if a.TransB = CBLAS_TRANSPOSE.CblasNoTrans then x else k
      B_start_y := if a.TransB = CBLAS_TRANSPOSE.CblasNoTrans then k else x
      C_start_x := x
      C_start_y := y
      blockA_width := 0
      blockA_height := 0
      blockB_width := 0
      blockB_height := 0
      blockC_width := min (a.N - x) (blocksize a)
      blockC_height := min (a.M - y) (blocksize a) }

/-- The integer locals of the pass at `(y, x, k)`; the first-block flag is 1 at `k = 0`. -/
def geomAt (a : GemmArgs Dtype) (y x k : Int) : TileGeom :=
  tileGeom a (cursorAt a y x k) k (if k = 0 then 1 else 0)

/-- The passes of one output tile: its K blocks in ascending order. -/
def tileGeoms (a : GemmArgs Dtype) (y x : Int) : List TileGeom :=
  (tileStarts (numTiles a.K (blocksize a)) 0 (blocksize a)).map (geomAt a y x)

/-- The passes of the whole grid: output tiles row by row, each with its K blocks. -/
def gridGeoms (a : GemmArgs Dtype) : List TileGeom :=
  (tileStarts (numTiles a.M (blocksize a)) 0 (blocksize a)).flatMap fun y =>
    (tileStarts (numTiles a.N (blocksize a)) 0 (blocksize a)).flatMap fun x =>
      tileGeoms a y x

/-- The loop body run over a given list of passes, threading the host variables. -/
def runTiles [DecidableEq Dtype] [Zero Dtype] [One Dtype] (sizeofDtype : Int)
    (a : GemmArgs Dtype) : List TileGeom → Res → List (TileRecord Dtype) × Res
  | [], r => ([], r)
  | g :: gs, r =>
    ((tileBody sizeofDtype a g r).1 :: (runTiles sizeofDtype a gs (tileBody sizeofDtype a g r).2).1,
     (runTiles sizeofDtype a gs (tileBody sizeofDtype a g r).2).2)

/-- The cursors at the head of the outer loop for the output tile at row `y`, column `x`. -/
def HeadAt (a : GemmArgs Dtype) (v : LoopVars) (y x : Int) : Prop :=
  v.C_start_y = y ∧ v.C_start_x = x ∧
  v.A_start_x = (if a.TransA = CBLAS_TRANSPOSE.CblasNoTrans then 0 else y) ∧
  v.A_start_y = (if a.TransA = CBLAS_TRANSPOSE.CblasNoTrans then y else 0) ∧
  v.B_start_x = (if a.TransB = CBLAS_TRANSPOSE.CblasNoTrans then x else 0) ∧
  v.B_start_y = (if a.TransB = CBLAS_TRANSPOSE.CblasNoTrans then 0 else x)

/-- The output tile of a pass contains the output element in row `i`, column `j`. -/
def TileGeom.covers (g : TileGeom) (i j : Int) : Bool :=
  decide (g.v.C_start_y ≤ i ∧ i < g.v.C_start_y + g.v.blockC_height ∧
    g.v.C_start_x ≤ j ∧ j < g.v.C_start_x + g.v.blockC_width)

/-- The three `CHECK_EQ` tests at the head of `ocl4dnnFastImageGEMM` pass. -/
def Accepted (a : GemmArgs Dtype) : Prop :=
  (a.gemm_type = gemm_type_t.GEMM_TYPE_FAST_IMAGE_32_1 ∨
    a.gemm_type = gemm_type_t.GEMM_TYPE_FAST_IMAGE_32_2 ∨
    a.gemm_type = gemm_type_t.GEMM_TYPE_FAST_IMAGE_B_IMAGE) ∧
  (a.is_image_a = true → a.offA = 0) ∧ (a.is_image_b = true → a.offB = 0)

end grid

/-! ## Sample calls -/

/-- A sample call on `Int` data: the operands are three buffers supplied by the caller,
no operand is a texture, alpha is 1 and beta is 0. -/
def sampleArgs (TransA TransB : CBLAS_TRANSPOSE) (M N K : Int) (gemm_type : gemm_type_t)
    (max_image_size : Nat) : GemmArgs Int :=
  { TransA := TransA, TransB := TransB, M := M, N := N, K := K, alpha := 1
    A := cl_mem.supplied 0, offA := 0, B := cl_mem.supplied 1, offB := 0, beta := 0
    C := cl_mem.supplied 2, offC := 0, is_image_a := false, is_image_b := false
    gemm_type := gemm_type, max_image_size := max_image_size }

/-- A sample call whose operands A and B are both textures supplied by the caller. -/
def sampleImageArgs (TransA TransB : CBLAS_TRANSPOSE) (M N K : Int) (gemm_type : gemm_type_t)
    (max_image_size : Nat) : GemmArgs Int :=
  { sampleArgs TransA TransB M N K gemm_type max_image_size with
    is_image_a := true, is_image_b := true }

/-- The passes of a call that returned; none otherwise. -/
def tilesOf {Dtype : Type} : Outcome (GemmRun Dtype) → List (TileRecord Dtype)
  | Outcome.ok run => run.tiles
  | _ => []

/-- The OpenCL calls of a call that returned and whose callbacks have each run once;
none otherwise. -/
def completedOf {Dtype : Type} : Outcome (GemmRun Dtype) → List (CLOp Dtype)
  | Outcome.ok run => run.completed
  | _ => []

/-- The kernels a vector primitive enqueued: those of a call that returned, none for a
call that failed. -/
def enqueuedBy {Dtype : Type} : Outcome (List (CLOp Dtype)) → List (CLOp Dtype)
  | Outcome.ok ops => ops
  | _ => []

/-! ## What the staging step enqueues -/

/-- The two ways the staging step moves a buffer region into a texture: a direct region
copy (`clEnqueueCopyBufferToImage`) or a layout-conversion kernel, given by name. -/
inductive StagingKind where
  | directCopy
  | conversionKernel (name : String)
  deriving DecidableEq, Repr

/-- The way an OpenCL call moves data, if it is an enqueue. -/
def CLOp.stagingKind {Dtype : Type} : CLOp Dtype → Option StagingKind
  | CLOp.clEnqueueCopyBufferToImage _ _ _ _ _ _ _ _ => some StagingKind.directCopy
  | CLOp.clEnqueueNDRangeKernel name _ _ _ _ _ _ => some (StagingKind.conversionKernel name)
  | _ => none

/-- The enqueues of a list of OpenCL calls, in order, each by its kind. -/
def stagingKinds {Dtype : Type} (ops : List (CLOp Dtype)) : List StagingKind :=
  ops.filterMap CLOp.stagingKind

/-- The name of the kernel program an OpenCL call launches, if it launches one. -/
def CLOp.launchedKernel {Dtype : Type} : CLOp Dtype → Option String
  | CLOp.clEnqueueNDRangeKernel name _ _ _ _ _ _ => some name
  | _ => none

/-- The launches of the kernel program `name` among a list of OpenCL calls, in order. -/
def launchesOf {Dtype : Type} (name : String) (ops : List (CLOp Dtype)) : List (CLOp Dtype) :=
  ops.filter fun op => decide (op.launchedKernel = some name)

/-- The source buffer and the destination texture of an OpenCL call that moves a buffer
region into a texture: a direct region copy, or a launch of one of the two
layout-conversion kernels (whose first two arguments they are). -/
def CLOp.stagedOperand {Dtype : Type} : CLOp Dtype → Option (cl_mem × cl_mem)
  | CLOp.clEnqueueCopyBufferToImage buffer image _ _ _ _ _ _ => some (buffer, image)
  | CLOp.clEnqueueNDRangeKernel name (KArg.mem buffer :: KArg.mem image :: _) _ _ _ _ _ =>
    if name = "gemm_buffer_copy_image_transpose_float" ∨
        name = "gemm_buffer_copy_image_no_transpose_float" then some (buffer, image)
    else none
  | _ => none

/-- The (buffer, texture) pairs of the staging enqueues of a list of OpenCL calls, in
order. -/
def stagedOperands {Dtype : Type} (ops : List (CLOp Dtype)) : List (cl_mem × cl_mem) :=
  ops.filterMap CLOp.stagedOperand

/-! ## Arithmetic of the tile grid -/

theorem numTiles_spec (D b : Int) (hD : 1 ≤ D) (hb : 1 ≤ b) :
    1 ≤ numTiles D b ∧ ((numTiles D b : Int) - 1) * b < D ∧ D ≤ (numTiles D b : Int) * b := by
  have hb0 : 0 < b := by omega
  have h1 : (D + b - 1) / b * b ≤ D + b - 1 := Int.ediv_mul_le _ (by omega)
  have h2 : D + b - 1 < ((D + b - 1) / b + 1) * b := Int.lt_ediv_add_one_mul_self _ hb0
  have h3 : 1 ≤ (D + b - 1) / b := by
    rw [Int.le_ediv_iff_mul_le hb0]; omega
  have h4 : ((numTiles D b : Nat) : Int) = (D + b - 1) / b := by
    unfold numTiles; exact Int.toNat_of_nonneg (by omega)
  have h5 : ((D + b - 1) / b + 1) * b = (D + b - 1) / b * b + b := by ring
  have h6 : ((D + b - 1) / b - 1) * b = (D + b - 1) / b * b - b := by ring
  refine ⟨?_, ?_, ?_⟩
  · omega
  · rw [h4, h6]; omega
  · rw [h4]; omega

theorem numTiles_eq_ceil (D b : Int) (hD : 1 ≤ D) (hb : 1 ≤ b) :
    (numTiles D b : Int) = ⌈(D : ℚ) / (b : ℚ)⌉ := by
  obtain ⟨_, h2, h3⟩ := numTiles_spec D b hD hb
  have hbq : (0 : ℚ) < (b : ℚ) := by exact_mod_cast (by omega : (0 : Int) < b)
  symm
  rw [Int.ceil_eq_iff]
  constructor
  · rw [lt_div_iff₀ hbq]
    exact_mod_cast h2
  · rw [div_le_iff₀ hbq]
    exact_mod_cast h3

theorem numTiles_le (D b : Int) (hD : 1 ≤ D) (hb : 1 ≤ b) : (numTiles D b : Int) ≤ D := by
  obtain ⟨h1, h2, _⟩ := numTiles_spec D b hD hb
  have h0 : (0 : Int) ≤ (numTiles D b : Int) - 1 := by omega
  nlinarith

theorem fuel_enough (M N K b : Int) (fuel : Nat) (hM : 1 ≤ M) (hN : 1 ≤ N) (hK : 1 ≤ K)
    (hb : 1 ≤ b) (hfuel : M * N + K < (fuel : Int)) :
    numTiles M b * numTiles N b < fuel ∧ numTiles K b < fuel := by
  have h1 := numTiles_le M b hM hb
  have h2 := numTiles_le N b hN hb
  have h3 := numTiles_le K b hK hb
  have h4 : ((numTiles M b : Int)) * (numTiles N b : Int) ≤ M * N :=
    mul_le_mul h1 h2 (by positivity) (by omega)
  have h5 : 0 ≤ M * N := by positivity
  constructor
  · have : ((numTiles M b * numTiles N b : Nat) : Int) < (fuel : Int) := by
      push_cast; omega
    exact_mod_cast this
  · have : ((numTiles K b : Nat) : Int) < (fuel : Int) := by omega
    exact_mod_cast this

theorem mem_tileStarts (n : Nat) (s0 b s : Int) (h : s ∈ tileStarts n s0 b) :
    ∃ i : Nat, i < n ∧ s = s0 + (i : Int) * b := by
  induction n generalizing s0 with
  | zero => simp [tileStarts] at h
  | succ n ih =>
    simp only [tileStarts, List.mem_cons] at h
    rcases h with h | h
    · exact ⟨0, by omega, by simp [h]⟩
    · obtain ⟨i, hi, hs⟩ := ih (s0 + b) h
      exact ⟨i + 1, by omega, by rw [hs]; push_cast; ring⟩

theorem tileStarts_length (n : Nat) (s0 b : Int) : (tileStarts n s0 b).length = n := by
  induction n generalizing s0 with
  | zero => rfl
  | succ n ih => simp [tileStarts, ih]

/-- A tile start along an axis of extent `D` lies inside the axis; its clipped extent is
the tile edge, except for the last tile, whose extent is the remainder. -/
theorem tileStart_extent (D b s : Int) (hD : 1 ≤ D) (hb : 1 ≤ b)
    (h : s ∈ tileStarts (numTiles D b) 0 b) :
    0 ≤ s ∧ s < D ∧ 1 ≤ min (D - s) b ∧ min (D - s) b ≤ b ∧ s + min (D - s) b ≤ D ∧
    ∃ i : Nat, i < numTiles D b ∧ s = (i : Int) * b ∧
      min (D - s) b = if i + 1 = numTiles D b then D - b * ((numTiles D b : Int) - 1) else b := by
  obtain ⟨h1, h2, h3⟩ := numTiles_spec D b hD hb
  obtain ⟨i, hi, hs⟩ := mem_tileStarts _ _ _ _ h
  simp only [zero_add] at hs
  have hi0 : (0 : Int) ≤ (i : Int) * b := by positivity
  have hle : (i : Int) * b ≤ ((numTiles D b : Int) - 1) * b :=
    Int.mul_le_mul_of_nonneg_right (by omega) (by omega)
  refine ⟨by omega, by omega, by omega, by omega, by omega, i, hi, hs, ?_⟩
  split
  · next hlast =>
    have e : (i : Int) = (numTiles D b : Int) - 1 := by omega
    have e2 : ((numTiles D b : Int) - 1) * b = (numTiles D b : Int) * b - b := by ring
    have e3 : b * ((numTiles D b : Int) - 1) = (numTiles D b : Int) * b - b := by ring
    rw [hs, e, e3, e2]; omega
  · next hnl =>
    have hle2 : ((i : Int) + 1) * b ≤ ((numTiles D b : Int) - 1) * b :=
      Int.mul_le_mul_of_nonneg_right (by omega) (by omega)
    have e : ((i : Int) + 1) * b = (i : Int) * b + b := by ring
    omega

/-! ## The tile loop in closed form -/

section loopsA
variable {Dtype : Type}

theorem tileGeom_congr (a : GemmArgs Dtype) (v v1 : LoopVars) (k f : Int)
    (h : blockSizes a v = blockSizes a v1) : tileGeom a v k f = tileGeom a v1 k f := by
  unfold tileGeom
  simp only [h]

theorem blockSizes_cursorAt (a : GemmArgs Dtype) (y x k : Int) :
    blockSizes a (cursorAt a y x k) = cursorAt a y x k := by
  simp [cursorAt, blockSizes]

theorem tileGeom_v (a : GemmArgs Dtype) (v : LoopVars) (k f : Int) :
    (tileGeom a v k f).v = blockSizes a v := rfl

theorem blockSizes_advanceK (a : GemmArgs Dtype) (y x k : Int) (hk : k + blocksize a < a.K) :
    blockSizes a (advanceK a (cursorAt a y x k)) = cursorAt a y x (k + blocksize a) := by
  cases hA : a.TransA <;> cases hB : a.TransB <;>
    simp [cursorAt, blockSizes, advanceK, widthA, heightA, widthB, heightB, hA, hB] <;>
    omega

theorem prependTiles_prependTiles (ts1 ts2 : List (TileRecord Dtype))
    (o : Outcome (List (TileRecord Dtype) × LoopVars × Res)) :
    prependTiles ts1 (prependTiles ts2 o) = prependTiles (ts1 ++ ts2) o := by
  cases o with
  | ok val => obtain ⟨ts, v, r⟩ := val; simp [prependTiles, List.append_assoc]
  | fatal msg => rfl
  | outOfFuel => rfl

theorem head_blocks (a : GemmArgs Dtype) (v : LoopVars) (y x : Int) (h : HeadAt a v y x) :
    blockSizes a (blockCSizes a v) = cursorAt a y x 0 := by
  obtain ⟨h1, h2, h3, h4, h5, h6⟩ := h
  cases hA : a.TransA <;> cases hB : a.TransB <;>
    simp_all [cursorAt, blockSizes, blockCSizes]

theorem head_next_col (a : GemmArgs Dtype) (y x kl : Int) (hx : x + blocksize a < a.N) :
    HeadAt a (advanceC a (advanceK a (cursorAt a y x kl))) y (x + blocksize a) := by
  unfold HeadAt
  cases hA : a.TransA <;> cases hB : a.TransB <;>
    simp [cursorAt, blockSizes, advanceK, advanceC, widthA, heightA, widthB, heightB, hA, hB] <;>
    (try split) <;> simp <;> omega

theorem head_next_row (a : GemmArgs Dtype) (y x kl : Int) (hx : x < a.N)
    (hx2 : a.N ≤ x + blocksize a) :
    HeadAt a (advanceC a (advanceK a (cursorAt a y x kl))) (y + min (a.M - y) (blocksize a)) 0 := by
  unfold HeadAt
  cases hA : a.TransA <;> cases hB : a.TransB <;>
    simp [cursorAt, blockSizes, advanceK, advanceC, widthA, heightA, widthB, heightB, hA, hB] <;>
    (try split) <;> simp <;> omega

theorem headAt_initVars (a : GemmArgs Dtype) : HeadAt a (initVars a) 0 0 := by
  unfold HeadAt initVars
  simp

end loopsA
section loops
variable {Dtype : Type} [DecidableEq Dtype] [Zero Dtype] [One Dtype]

theorem runTiles_append (sz : Int) (a : GemmArgs Dtype) (gs1 gs2 : List TileGeom) (r : Res) :
    runTiles sz a (gs1 ++ gs2) r =
      ((runTiles sz a gs1 r).1 ++ (runTiles sz a gs2 (runTiles sz a gs1 r).2).1,
       (runTiles sz a gs2 (runTiles sz a gs1 r).2).2) := by
  induction gs1 generalizing r with
  | nil => simp [runTiles]
  | cons g gs ih => simp [runTiles, ih]

/-- The K loop entered at cursor `k` with `n ≥ 1` blocks left runs the body over those
blocks and leaves the loop variables of the last block, advanced. -/
theorem kLoop_run (sz : Int) (a : GemmArgs Dtype) (y x : Int) (hb : 1 ≤ blocksize a) :
    ∀ (n : Nat) (k : Int) (fuel : Nat) (v : LoopVars) (r : Res),
      n + 1 < fuel → 0 ≤ k → k + (n : Int) * blocksize a < a.K →
      a.K ≤ k + ((n : Int) + 1) * blocksize a →
      blockSizes a v = cursorAt a y x k →
      kLoop sz a fuel k (if k = 0 then 1 else 0) v r =
        Outcome.ok
          ((runTiles sz a ((tileStarts (n + 1) k (blocksize a)).map (geomAt a y x)) r).1,
           advanceK a (cursorAt a y x (k + (n : Int) * blocksize a)),
           (runTiles sz a ((tileStarts (n + 1) k (blocksize a)).map (geomAt a y x)) r).2) := by
  intro n
  induction n with
  | zero =>
    intro k fuel v r hf hk0 hlt hle hv
    obtain ⟨f1, rfl⟩ : ∃ f1, fuel = f1 + 2 := ⟨fuel - 2, by omega⟩
    have hg : tileGeom a v k (if k = 0 then 1 else 0) = geomAt a y x k := by
      unfold geomAt
      exact tileGeom_congr a v _ k _ (by rw [hv, blockSizes_cursorAt])
    have hkK : k < a.K := by simpa using hlt
    have hexit : ¬ (k + blocksize a < a.K) := by
      have : ((0 : Nat) : Int) = 0 := rfl
      simp at hle; omega
    simp only [kLoop, hkK, if_true, hg, hexit, if_false, prependTiles, tileStarts, List.map,
      runTiles, List.append_nil]
    simp [geomAt, tileGeom_v, blockSizes_cursorAt, prependTiles]
  | succ n ih =>
    intro k fuel v r hf hk0 hlt hle hv
    obtain ⟨f1, rfl⟩ : ∃ f1, fuel = f1 + 1 := ⟨fuel - 1, by omega⟩
    have hg : tileGeom a v k (if k = 0 then 1 else 0) = geomAt a y x k := by
      unfold geomAt
      exact tileGeom_congr a v _ k _ (by rw [hv, blockSizes_cursorAt])
    have hcast : ((n + 1 : Nat) : Int) * blocksize a = (n : Int) * blocksize a + blocksize a := by
      push_cast; ring
    have hcast2 : ((n : Int) + 1) * blocksize a = (n : Int) * blocksize a + blocksize a := by ring
    have hcast3 : (((n + 1 : Nat) : Int) + 1) * blocksize a
        = (n : Int) * blocksize a + blocksize a + blocksize a := by push_cast; ring
    have hnn : 0 ≤ (n : Int) * blocksize a := by positivity
    have hkK : k < a.K := by omega
    have hnext : k + blocksize a < a.K := by omega
    have hk1 : ¬ (k + blocksize a = 0) := by omega
    have hih := ih (k + blocksize a) f1 (advanceK a (geomAt a y x k).v) (tileBody sz a (geomAt a y x k) r).2
      (by omega) (by omega) (by omega) (by omega)
      (by simp only [geomAt, tileGeom_v, blockSizes_cursorAt]; exact blockSizes_advanceK a y x k hnext)
    simp only [hk1, if_false] at hih
    rw [kLoop]
    simp only [hkK, if_true, hg, hih, prependTiles]
    have e1 : k + blocksize a + (n : Int) * blocksize a = k + ((n + 1 : Nat) : Int) * blocksize a := by
      omega
    simp only [tileStarts, List.map, runTiles, e1, List.singleton_append]


/-- One pass of the outer loop runs the K loop over all K blocks of its output tile. -/
theorem kLoop_tile (sz : Int) (a : GemmArgs Dtype) (y x : Int) (hb : 1 ≤ blocksize a)
    (hK : 1 ≤ a.K) (kFuel : Nat) (hf : numTiles a.K (blocksize a) < kFuel)
    (v : LoopVars) (r : Res) (hv : HeadAt a v y x) :
    kLoop sz a kFuel 0 1 (blockCSizes a v) r =
      Outcome.ok
        ((runTiles sz a (tileGeoms a y x) r).1,
         advanceK a (cursorAt a y x (((numTiles a.K (blocksize a) : Nat) : Int) * blocksize a
           - blocksize a)),
         (runTiles sz a (tileGeoms a y x) r).2) := by
  obtain ⟨h1, h2, h3⟩ := numTiles_spec a.K (blocksize a) hK hb
  obtain ⟨n, hn⟩ : ∃ n, numTiles a.K (blocksize a) = n + 1 :=
    ⟨numTiles a.K (blocksize a) - 1, by omega⟩
  have hc : ((n + 1 : Nat) : Int) * blocksize a = (n : Int) * blocksize a + blocksize a := by
    push_cast; ring
  have hc2 : (((n + 1 : Nat) : Int) - 1) * blocksize a = (n : Int) * blocksize a := by
    push_cast; ring
  have hc3 : ((n : Int) + 1) * blocksize a = (n : Int) * blocksize a + blocksize a := by ring
  rw [hn] at h2 h3 hf
  have := kLoop_run sz a y x hb n 0 kFuel (blockCSizes a v) r (by omega) (by omega) (by omega)
    (by omega) (head_blocks a v y x hv)
  simp only [if_true] at this
  rw [this]
  unfold tileGeoms
  rw [hn, hc]
  have e : (0 : Int) + (n : Int) * blocksize a = (n : Int) * blocksize a + blocksize a - blocksize a := by
    omega
  rw [e]

/-- The outer loop, entered at column `x` of the tile row at `y` with `m + 1` output tiles
left in the row, runs those tiles and goes on from the head of the next row. -/
theorem tileLoop_row (sz : Int) (a : GemmArgs Dtype) (y : Int) (hb : 1 ≤ blocksize a)
    (hK : 1 ≤ a.K) (hy : y < a.M) (kFuel : Nat) (hf : numTiles a.K (blocksize a) < kFuel) :
    ∀ (m : Nat) (x : Int) (fuel : Nat) (v : LoopVars) (r : Res),
      x + (m : Int) * blocksize a < a.N → a.N ≤ x + ((m : Int) + 1) * blocksize a →
      HeadAt a v y x →
      ∃ v1, HeadAt a v1 (y + min (a.M - y) (blocksize a)) 0 ∧
        tileLoop sz a kFuel (fuel + (m + 1)) v r =
          prependTiles
            (runTiles sz a ((tileStarts (m + 1) x (blocksize a)).flatMap (tileGeoms a y)) r).1
            (tileLoop sz a kFuel fuel v1
              (runTiles sz a ((tileStarts (m + 1) x (blocksize a)).flatMap (tileGeoms a y)) r).2) := by
  intro m
  induction m with
  | zero =>
    intro x fuel v r hlt hle hv
    have hyv : v.C_start_y < a.M := by rw [hv.1]; exact hy
    refine ⟨_, head_next_row a y x
      (((numTiles a.K (blocksize a) : Nat) : Int) * blocksize a - blocksize a)
      (by simpa using hlt) (by simpa using hle), ?_⟩
    rw [show fuel + (0 + 1) = fuel + 1 from rfl, tileLoop]
    simp only [hyv, if_true, kLoop_tile sz a y x hb hK kFuel hf v r hv]
    simp [tileStarts, List.flatMap]
  | succ m ih =>
    intro x fuel v r hlt hle hv
    have hyv : v.C_start_y < a.M := by rw [hv.1]; exact hy
    have hc : ((m + 1 : Nat) : Int) * blocksize a = (m : Int) * blocksize a + blocksize a := by
      push_cast; ring
    have hc2 : (((m + 1 : Nat) : Int) + 1) * blocksize a
        = (m : Int) * blocksize a + blocksize a + blocksize a := by push_cast; ring
    have hc3 : ((m : Int) + 1) * blocksize a = (m : Int) * blocksize a + blocksize a := by ring
    have hnn : 0 ≤ (m : Int) * blocksize a := by positivity
    have hnext := head_next_col a y x
      (((numTiles a.K (blocksize a) : Nat) : Int) * blocksize a - blocksize a) (by omega)
    obtain ⟨v1, hv1, hrun⟩ := ih (x + blocksize a) fuel _
      (runTiles sz a (tileGeoms a y x) r).2 (by omega) (by omega) hnext
    refine ⟨v1, hv1, ?_⟩
    rw [show fuel + (m + 1 + 1) = (fuel + (m + 1)) + 1 from rfl, tileLoop]
    simp only [hyv, if_true, kLoop_tile sz a y x hb hK kFuel hf v r hv, hrun,
      prependTiles_prependTiles]
    have e : tileStarts (m + 1 + 1) x (blocksize a)
        = x :: tileStarts (m + 1) (x + blocksize a) (blocksize a) := rfl
    rw [e, List.flatMap_cons, runTiles_append]

/-- The outer loop, entered at the head of the tile row at `y` with `m + 1` tile rows left,
runs all their passes and stops. -/
theorem tileLoop_rows (sz : Int) (a : GemmArgs Dtype) (hb : 1 ≤ blocksize a)
    (hK : 1 ≤ a.K) (hN : 1 ≤ a.N) (kFuel : Nat) (hf : numTiles a.K (blocksize a) < kFuel) :
    ∀ (m : Nat) (y : Int) (fuel : Nat) (v : LoopVars) (r : Res),
      y + (m : Int) * blocksize a < a.M → a.M ≤ y + ((m : Int) + 1) * blocksize a →
      HeadAt a v y 0 → (m + 1) * numTiles a.N (blocksize a) < fuel →
      ∃ vEnd,
        tileLoop sz a kFuel fuel v r =
          Outcome.ok
            ((runTiles sz a ((tileStarts (m + 1) y (blocksize a)).flatMap fun y1 =>
                (tileStarts (numTiles a.N (blocksize a)) 0 (blocksize a)).flatMap
                  (tileGeoms a y1)) r).1,
             vEnd,
             (runTiles sz a ((tileStarts (m + 1) y (blocksize a)).flatMap fun y1 =>
                (tileStarts (numTiles a.N (blocksize a)) 0 (blocksize a)).flatMap
                  (tileGeoms a y1)) r).2) := by
  obtain ⟨h1, h2, h3⟩ := numTiles_spec a.N (blocksize a) hN hb
  obtain ⟨n, hn⟩ : ∃ n, numTiles a.N (blocksize a) = n + 1 :=
    ⟨numTiles a.N (blocksize a) - 1, by omega⟩
  rw [hn] at h2 h3
  rw [hn]
  have hc : (((n + 1 : Nat) : Int) - 1) * blocksize a = (n : Int) * blocksize a := by
    push_cast; ring
  have hc2 : ((n + 1 : Nat) : Int) * blocksize a = ((n : Int) + 1) * blocksize a := by
    push_cast; ring
  intro m
  induction m with
  | zero =>
    intro y fuel v r hlt hle hv hfuel
    obtain ⟨f1, rfl⟩ : ∃ f1, fuel = (f1 + 1) + (n + 1) := ⟨fuel - (n + 1) - 1, by omega⟩
    obtain ⟨v1, hv1, hrun⟩ := tileLoop_row sz a y hb hK (by simpa using hlt) kFuel hf n 0 (f1 + 1) v r
      (by omega) (by omega) hv
    have hexit : ¬ (v1.C_start_y < a.M) := by
      rw [hv1.1]
      simp at hle
      omega
    refine ⟨v1, ?_⟩
    rw [hrun, tileLoop]
    simp [hexit, prependTiles, tileStarts, List.flatMap]
  | succ m ih =>
    intro y fuel v r hlt hle hv hfuel
    have hm : (m + 1 + 1) * (n + 1) = (m + 1) * (n + 1) + (n + 1) := by ring
    obtain ⟨f1, rfl⟩ : ∃ f1, fuel = f1 + (n + 1) := ⟨fuel - (n + 1), by omega⟩
    have e1 : ((m + 1 : Nat) : Int) * blocksize a = (m : Int) * blocksize a + blocksize a := by
      push_cast; ring
    have e2 : (((m + 1 : Nat) : Int) + 1) * blocksize a
        = (m : Int) * blocksize a + blocksize a + blocksize a := by push_cast; ring
    have e3 : ((m : Int) + 1) * blocksize a = (m : Int) * blocksize a + blocksize a := by ring
    have hnn : 0 ≤ (m : Int) * blocksize a := by positivity
    obtain ⟨v1, hv1, hrun⟩ := tileLoop_row sz a y hb hK (by omega) kFuel hf n 0 f1 v r
      (by omega) (by omega) hv
    have hmin : y + min (a.M - y) (blocksize a) = y + blocksize a := by omega
    rw [hmin] at hv1
    obtain ⟨vEnd, hrest⟩ := ih (y + blocksize a) f1 v1
      (runTiles sz a ((tileStarts (n + 1) 0 (blocksize a)).flatMap (tileGeoms a y)) r).2
      (by omega) (by omega) hv1 (by omega)
    refine ⟨vEnd, ?_⟩
    rw [hrun, hrest]
    have e : tileStarts (m + 1 + 1) y (blocksize a)
        = y :: tileStarts (m + 1) (y + blocksize a) (blocksize a) := rfl
    rw [e, List.flatMap_cons, runTiles_append]
    simp [prependTiles]

/-- The closed form of a call: an accepted call on a non-empty problem with a positive
tile edge and enough fuel returns, having run the loop body over the tile grid. -/
theorem gemm_run (sz : Int) (fuel : Nat) (st : CLState) (a : GemmArgs Dtype)
    (hacc : Accepted a) (hM : 1 ≤ a.M) (hN : 1 ≤ a.N) (hK : 1 ≤ a.K) (hb : 1 ≤ blocksize a)
    (hfuel : numTiles a.M (blocksize a) * numTiles a.N (blocksize a) < fuel)
    (hfk : numTiles a.K (blocksize a) < fuel) :
    ocl4dnnFastImageGEMM sz fuel st a =
      Outcome.ok
        { tiles := (runTiles sz a (gridGeoms a)
            { ImA := cl_mem.NULL, ImB := cl_mem.NULL, st := st }).1
          finalOps := finalReleases a (runTiles sz a (gridGeoms a)
            { ImA := cl_mem.NULL, ImB := cl_mem.NULL, st := st }).2
          res := (runTiles sz a (gridGeoms a)
            { ImA := cl_mem.NULL, ImB := cl_mem.NULL, st := st }).2 } := by
  obtain ⟨h1, h2, h3⟩ := numTiles_spec a.M (blocksize a) hM hb
  obtain ⟨m, hm⟩ : ∃ m, numTiles a.M (blocksize a) = m + 1 :=
    ⟨numTiles a.M (blocksize a) - 1, by omega⟩
  rw [hm] at h2 h3 hfuel
  have hc : (((m + 1 : Nat) : Int) - 1) * blocksize a = (m : Int) * blocksize a := by
    push_cast; ring
  have hc2 : ((m + 1 : Nat) : Int) * blocksize a = ((m : Int) + 1) * blocksize a := by
    push_cast; ring
  obtain ⟨vEnd, hrun⟩ := tileLoop_rows sz a hb hK hN fuel hfk m 0 fuel (initVars a)
    { ImA := cl_mem.NULL, ImB := cl_mem.NULL, st := st } (by omega) (by omega)
    (headAt_initVars a) hfuel
  obtain ⟨hg, ha, hbb⟩ := hacc
  have hna : ¬ (a.is_image_a = true ∧ a.offA ≠ 0) := fun h => h.2 (ha h.1)
  have hnb : ¬ (a.is_image_b = true ∧ a.offB ≠ 0) := fun h => h.2 (hbb h.1)
  unfold ocl4dnnFastImageGEMM
  rw [if_neg (not_not.mpr hg), if_neg hna, if_neg hnb, hrun]
  simp only [gridGeoms, hm]

end loops
/-! ## The passes of a call -/

theorem gridGeoms_length {Dtype : Type} (a : GemmArgs Dtype) :
    (gridGeoms a).length =
      numTiles a.M (blocksize a) * numTiles a.N (blocksize a) * numTiles a.K (blocksize a) := by
  have hk : ∀ y x, (tileGeoms a y x).length = numTiles a.K (blocksize a) := by
    intro y x; simp [tileGeoms, tileStarts_length]
  have hrow : ∀ (l : List Int) (y : Int),
      (l.flatMap (tileGeoms a y)).length = l.length * numTiles a.K (blocksize a) := by
    intro l y
    induction l with
    | nil => simp
    | cons x l ih => simp [List.flatMap_cons, ih, hk, Nat.succ_mul, Nat.add_comm]
  have hgrid : ∀ (l : List Int) (c : Nat) (f : Int → List TileGeom),
      (∀ y, (f y).length = c) → (l.flatMap f).length = l.length * c := by
    intro l c f hf
    induction l with
    | nil => simp
    | cons y l ih => simp [List.flatMap_cons, ih, hf, Nat.succ_mul, Nat.add_comm]
  unfold gridGeoms
  rw [hgrid _ (numTiles a.N (blocksize a) * numTiles a.K (blocksize a)) _
    (fun y => by rw [hrow, tileStarts_length]), tileStarts_length, Nat.mul_assoc]

theorem mem_gridGeoms {Dtype : Type} (a : GemmArgs Dtype) (g : TileGeom) (h : g ∈ gridGeoms a) :
    ∃ y ∈ tileStarts (numTiles a.M (blocksize a)) 0 (blocksize a),
    ∃ x ∈ tileStarts (numTiles a.N (blocksize a)) 0 (blocksize a),
    ∃ k ∈ tileStarts (numTiles a.K (blocksize a)) 0 (blocksize a), g = geomAt a y x k := by
  simp only [gridGeoms, tileGeoms, List.mem_flatMap, List.mem_map] at h
  obtain ⟨y, hy, x, hx, k, hk, rfl⟩ := h
  exact ⟨y, hy, x, hx, k, hk, rfl⟩

section claimsA
variable {Dtype : Type} [DecidableEq Dtype] [Zero Dtype] [One Dtype]

theorem tileBody_geom (sz : Int) (a : GemmArgs Dtype) (g : TileGeom) (r : Res) :
    (tileBody sz a g r).1.geom = g := rfl

theorem runTiles_geoms (sz : Int) (a : GemmArgs Dtype) (gs : List TileGeom) (r : Res) :
    (runTiles sz a gs r).1.map (fun t => t.geom) = gs := by
  induction gs generalizing r with
  | nil => rfl
  | cons g gs ih => simp [runTiles, ih, tileBody_geom]

theorem runTiles_length (sz : Int) (a : GemmArgs Dtype) (gs : List TileGeom) (r : Res) :
    (runTiles sz a gs r).1.length = gs.length := by
  have := congrArg List.length (runTiles_geoms sz a gs r)
  simpa using this

theorem mem_runTiles (sz : Int) (a : GemmArgs Dtype) (gs : List TileGeom) (r : Res)
    (t : TileRecord Dtype) (h : t ∈ (runTiles sz a gs r).1) :
    ∃ g ∈ gs, ∃ r1, t = (tileBody sz a g r1).1 := by
  induction gs generalizing r with
  | nil => simp [runTiles] at h
  | cons g gs ih =>
    simp only [runTiles, List.mem_cons] at h
    rcases h with h | h
    · exact ⟨g, by simp, r, h⟩
    · obtain ⟨g1, hg1, r1, ht⟩ := ih _ h
      exact ⟨g1, by simp [hg1], r1, ht⟩

/-- An accepted call on a non-empty problem with a positive tile edge returns when its
fuel exceeds `M * N + K`; its passes are the loop body run over the tile grid. -/
theorem gemm_returns (sz : Int) (fuel : Nat) (st : CLState) (a : GemmArgs Dtype)
    (hacc : Accepted a) (hM : 1 ≤ a.M) (hN : 1 ≤ a.N) (hK : 1 ≤ a.K) (hb : 1 ≤ blocksize a)
    (hfuel : a.M * a.N + a.K < (fuel : Int)) :
    ∃ run, ocl4dnnFastImageGEMM sz fuel st a = Outcome.ok run ∧
      run.tiles = (runTiles sz a (gridGeoms a)
        { ImA := cl_mem.NULL, ImB := cl_mem.NULL, st := st }).1 ∧
      run.res = (runTiles sz a (gridGeoms a)
        { ImA := cl_mem.NULL, ImB := cl_mem.NULL, st := st }).2 ∧
      run.finalOps = finalReleases a run.res := by
  obtain ⟨h1, h2⟩ := fuel_enough a.M a.N a.K (blocksize a) fuel hM hN hK hb hfuel
  exact ⟨_, gemm_run sz fuel st a hacc hM hN hK hb h1 h2, rfl, rfl, rfl⟩

/-- Every pass of a returned call is the loop body at a point of the tile grid. -/
theorem gemm_tile_at (sz : Int) (fuel : Nat) (st : CLState) (a : GemmArgs Dtype)
    (hacc : Accepted a) (hM : 1 ≤ a.M) (hN : 1 ≤ a.N) (hK : 1 ≤ a.K) (hb : 1 ≤ blocksize a)
    (hfuel : a.M * a.N + a.K < (fuel : Int)) :
    ∃ run, ocl4dnnFastImageGEMM sz fuel st a = Outcome.ok run ∧
      run.tiles.map (fun t => t.geom) = gridGeoms a ∧
      ∀ t ∈ run.tiles,
        ∃ y ∈ tileStarts (numTiles a.M (blocksize a)) 0 (blocksize a),
        ∃ x ∈ tileStarts (numTiles a.N (blocksize a)) 0 (blocksize a),
        ∃ k ∈ tileStarts (numTiles a.K (blocksize a)) 0 (blocksize a),
        ∃ r1, t = (tileBody sz a (geomAt a y x k) r1).1 := by
  obtain ⟨run, hrun, ht, _, _⟩ := gemm_returns sz fuel st a hacc hM hN hK hb hfuel
  refine ⟨run, hrun, by rw [ht, runTiles_geoms], ?_⟩
  intro t htm
  rw [ht] at htm
  obtain ⟨g, hg, r1, rfl⟩ := mem_runTiles sz a _ _ t htm
  obtain ⟨y, hy, x, hx, k, hk, rfl⟩ := mem_gridGeoms a g hg
  exact ⟨y, hy, x, hx, k, hk, r1, rfl⟩

end claimsA

/-! ## The handles along a call -/

section res
variable {Dtype : Type}

/-- What one staging call made by the tile loop does to the handles. -/
theorem stage_effect (sz : Int) (st : CLState) (im buf : cl_mem) (off : Int)
    (ima tr pad : Bool) (ph pw h w ld : Int) :
    (@ocl4dnnGEMMCopyBufferToImage Dtype sz st im buf off ima tr pad ph pw h w ld 0 none
        true).image = (if im = cl_mem.NULL then cl_mem.created st.nextImage else im) ∧
    (@ocl4dnnGEMMCopyBufferToImage Dtype sz st im buf off ima tr pad ph pw h w ld 0 none
        true).event = some st.nextEvent ∧
    (@ocl4dnnGEMMCopyBufferToImage Dtype sz st im buf off ima tr pad ph pw h w ld 0 none
        true).st.nextEvent = st.nextEvent + 1 ∧
    (@ocl4dnnGEMMCopyBufferToImage Dtype sz st im buf off ima tr pad ph pw h w ld 0 none
        true).st.nextImage = (if im = cl_mem.NULL then st.nextImage + 1 else st.nextImage) ∧
    createdImages (@ocl4dnnGEMMCopyBufferToImage Dtype sz st im buf off ima tr pad ph pw h w
        ld 0 none true).ops = (if im = cl_mem.NULL then [cl_mem.created st.nextImage] else []) ∧
    producedEvents (@ocl4dnnGEMMCopyBufferToImage Dtype sz st im buf off ima tr pad ph pw h w
        ld 0 none true).ops = [st.nextEvent] ∧
    releasedMems (@ocl4dnnGEMMCopyBufferToImage Dtype sz st im buf off ima tr pad ph pw h w
        ld 0 none true).ops = [] ∧
    releasedEvents (@ocl4dnnGEMMCopyBufferToImage Dtype sz st im buf off ima tr pad ph pw h w
        ld 0 none true).ops = [] ∧
    callbackOps (@ocl4dnnGEMMCopyBufferToImage Dtype sz st im buf off ima tr pad ph pw h w
        ld 0 none true).ops = [] := by
  by_cases him : im = cl_mem.NULL <;> by_cases hld : ld = w <;>
    cases ima <;> cases tr <;> cases pad <;>
    simp [ocl4dnnGEMMCopyBufferToImage, freshEvent, him, hld, createdImages, producedEvents,
      releasedMems, releasedEvents, callbackOps, CLOp.createdImage, CLOp.producedEvent,
      CLOp.releasedMem, CLOp.releasedEvent, CLOp.callback]

theorem createdImages_append (l1 l2 : List (CLOp Dtype)) :
    createdImages (l1 ++ l2) = createdImages l1 ++ createdImages l2 := by
  simp [createdImages]

theorem releasedMems_append (l1 l2 : List (CLOp Dtype)) :
    releasedMems (l1 ++ l2) = releasedMems l1 ++ releasedMems l2 := by
  simp [releasedMems]

theorem producedEvents_append (l1 l2 : List (CLOp Dtype)) :
    producedEvents (l1 ++ l2) = producedEvents l1 ++ producedEvents l2 := by
  simp [producedEvents]

theorem releasedEvents_append (l1 l2 : List (CLOp Dtype)) :
    releasedEvents (l1 ++ l2) = releasedEvents l1 ++ releasedEvents l2 := by
  simp [releasedEvents]

theorem callbackOps_append (l1 l2 : List (CLOp Dtype)) :
    callbackOps (l1 ++ l2) = callbackOps l1 ++ callbackOps l2 := by
  simp [callbackOps]

/-- The handles after staging operand A, and the calls made. -/
theorem stageA_effect (sz : Int) (a : GemmArgs Dtype) (g : TileGeom) (pad : Bool)
    (s : Staged Dtype) :
    (stageA sz a g pad s).res.ImA =
      (if s.res.ImA = cl_mem.NULL then cl_mem.created s.res.st.nextImage else s.res.ImA) ∧
    (stageA sz a g pad s).res.ImB = s.res.ImB ∧
    (stageA sz a g pad s).res.st.nextEvent = s.res.st.nextEvent + 1 ∧
    (stageA sz a g pad s).res.st.nextImage =
      (if s.res.ImA = cl_mem.NULL then s.res.st.nextImage + 1 else s.res.st.nextImage) ∧
    (stageA sz a g pad s).ev = s.ev ++ [s.res.st.nextEvent] ∧
    createdImages (stageA sz a g pad s).ops = createdImages s.ops ++
      (if s.res.ImA = cl_mem.NULL then [cl_mem.created s.res.st.nextImage] else []) ∧
    producedEvents (stageA sz a g pad s).ops = producedEvents s.ops ++ [s.res.st.nextEvent] ∧
    releasedMems (stageA sz a g pad s).ops = releasedMems s.ops ∧
    releasedEvents (stageA sz a g pad s).ops = releasedEvents s.ops ∧
    callbackOps (stageA sz a g pad s).ops = callbackOps s.ops := by
  obtain ⟨h1, h2, h3, h4, h5, h6, h7, h8, h9⟩ :=
    @stage_effect Dtype sz s.res.st s.res.ImA a.A g.blockA_offset true
      (decide (a.TransA ≠ CBLAS_TRANSPOSE.CblasNoTrans)) pad g.imageA_h g.imageA_w
      g.v.blockA_height g.v.blockA_width (ldA a)
  simp only [stageA, createdImages_append, producedEvents_append, releasedMems_append,
    releasedEvents_append, callbackOps_append, h1, h2, h3, h4, h5, h6, h7, h8, h9,
    List.append_nil]
  simp

/-- The handles after staging operand B, and the calls made. -/
theorem stageB_effect (sz : Int) (a : GemmArgs Dtype) (g : TileGeom) (tr pad : Bool)
    (s : Staged Dtype) :
    (stageB sz a g tr pad s).res.ImB =
      (if s.res.ImB = cl_mem.NULL then cl_mem.created s.res.st.nextImage else s.res.ImB) ∧
    (stageB sz a g tr pad s).res.ImA = s.res.ImA ∧
    (stageB sz a g tr pad s).res.st.nextEvent = s.res.st.nextEvent + 1 ∧
    (stageB sz a g tr pad s).res.st.nextImage =
      (if s.res.ImB = cl_mem.NULL then s.res.st.nextImage + 1 else s.res.st.nextImage) ∧
    (stageB sz a g tr pad s).ev = s.ev ++ [s.res.st.nextEvent] ∧
    createdImages (stageB sz a g tr pad s).ops = createdImages s.ops ++
      (if s.res.ImB = cl_mem.NULL then [cl_mem.created s.res.st.nextImage] else []) ∧
    producedEvents (stageB sz a g tr pad s).ops = producedEvents s.ops ++ [s.res.st.nextEvent] ∧
    releasedMems (stageB sz a g tr pad s).ops = releasedMems s.ops ∧
    releasedEvents (stageB sz a g tr pad s).ops = releasedEvents s.ops ∧
    callbackOps (stageB sz a g tr pad s).ops = callbackOps s.ops := by
  obtain ⟨h1, h2, h3, h4, h5, h6, h7, h8, h9⟩ :=
    @stage_effect Dtype sz s.res.st s.res.ImB a.B g.blockB_offset false tr pad g.imageB_h
      g.imageB_w g.v.blockB_height g.v.blockB_width (ldB a)
  simp only [stageB, createdImages_append, producedEvents_append, releasedMems_append,
    releasedEvents_append, callbackOps_append, h1, h2, h3, h4, h5, h6, h7, h8, h9,
    List.append_nil]
  simp

/-- The handles after the staging of one pass, and the calls made. -/
theorem stageOperands_effect (sz : Int) (a : GemmArgs Dtype) (g : TileGeom) (r : Res) :
    (stageOperands sz a g r).res.ImA =
      (if stagesA a = true ∧ r.ImA = cl_mem.NULL then cl_mem.created r.st.nextImage
       else r.ImA) ∧
    (stageOperands sz a g r).res.ImB =
      (if stagesB a = true ∧ r.ImB = cl_mem.NULL then
        cl_mem.created (r.st.nextImage +
          (if stagesA a = true ∧ r.ImA = cl_mem.NULL then 1 else 0))
       else r.ImB) ∧
    (stageOperands sz a g r).res.st.nextEvent =
      r.st.nextEvent + ((if stagesA a = true then 1 else 0) +
        (if stagesB a = true then 1 else 0)) ∧
    (stageOperands sz a g r).res.st.nextImage =
      r.st.nextImage + (if stagesA a = true ∧ r.ImA = cl_mem.NULL then 1 else 0) +
        (if stagesB a = true ∧ r.ImB = cl_mem.NULL then 1 else 0) ∧
    (stageOperands sz a g r).ev =
      List.range' r.st.nextEvent ((if stagesA a = true then 1 else 0) +
        (if stagesB a = true then 1 else 0)) ∧
    createdImages (stageOperands sz a g r).ops =
      (if stagesA a = true ∧ r.ImA = cl_mem.NULL then [cl_mem.created r.st.nextImage]
       else []) ++
      (if stagesB a = true ∧ r.ImB = cl_mem.NULL then
        [cl_mem.created (r.st.nextImage +
          (if stagesA a = true ∧ r.ImA = cl_mem.NULL then 1 else 0))]
       else []) ∧
    producedEvents (stageOperands sz a g r).ops = (stageOperands sz a g r).ev ∧
    releasedMems (stageOperands sz a g r).ops = [] ∧
    releasedEvents (stageOperands sz a g r).ops = [] ∧
    callbackOps (stageOperands sz a g r).ops = [] := by
  have e0 : createdImages ([] : List (CLOp Dtype)) = [] := rfl
  have e1 : producedEvents ([] : List (CLOp Dtype)) = [] := rfl
  have e2 : releasedMems ([] : List (CLOp Dtype)) = [] := rfl
  have e3 : releasedEvents ([] : List (CLOp Dtype)) = [] := rfl
  have e4 : callbackOps ([] : List (CLOp Dtype)) = [] := rfl
  cases hB : a.TransB <;> cases hia : a.is_image_a <;> cases hib : a.is_image_b <;>
    cases hkm : kNotMultiple a <;>
    by_cases hA0 : r.ImA = cl_mem.NULL <;> by_cases hB0 : r.ImB = cl_mem.NULL <;>
    simp [stageOperands, stagesA, stagesB, hB, hia, hib, hkm, hA0, hB0, stageA_effect,
      stageB_effect, e0, e1, e2, e3, e4, List.range']

end res

section res2
variable {Dtype : Type} [DecidableEq Dtype] [Zero Dtype] [One Dtype]

/-- The handles after one pass of the K loop, and the calls made. -/
theorem tileBody_effect (sz : Int) (a : GemmArgs Dtype) (g : TileGeom) (r : Res) :
    (tileBody sz a g r).1.ev =
      List.range' r.st.nextEvent ((if stagesA a = true then 1 else 0) +
        (if stagesB a = true then 1 else 0)) ∧
    (tileBody sz a g r).1.launchEvent =
      r.st.nextEvent + ((if stagesA a = true then 1 else 0) +
        (if stagesB a = true then 1 else 0)) ∧
    (tileBody sz a g r).1.callback_arg.evs =
      (tileBody sz a g r).1.ev ++ [(tileBody sz a g r).1.launchEvent] ∧
    (tileBody sz a g r).1.callback_arg.imgs = [] ∧
    producedEvents (tileBody sz a g r).1.ops =
      (tileBody sz a g r).1.ev ++ [(tileBody sz a g r).1.launchEvent] ∧
    producedEvents (tileBody sz a g r).1.ops =
      List.range' r.st.nextEvent
        ((tileBody sz a g r).2.st.nextEvent - r.st.nextEvent) ∧
    r.st.nextEvent < (tileBody sz a g r).2.st.nextEvent ∧
    releasedMems (tileBody sz a g r).1.ops = [] ∧
    releasedEvents (tileBody sz a g r).1.ops = [] ∧
    callbackOps (tileBody sz a g r).1.ops = gemmCallback Dtype (tileBody sz a g r).1.callback_arg ∧
    createdImages (tileBody sz a g r).1.ops =
      (if stagesA a = true ∧ r.ImA = cl_mem.NULL then [cl_mem.created r.st.nextImage]
       else []) ++
      (if stagesB a = true ∧ r.ImB = cl_mem.NULL then
        [cl_mem.created (r.st.nextImage +
          (if stagesA a = true ∧ r.ImA = cl_mem.NULL then 1 else 0))]
       else []) ∧
    (tileBody sz a g r).2.ImA =
      (if a.is_image_a = true then a.A
       else if r.ImA = cl_mem.NULL then cl_mem.created r.st.nextImage else r.ImA) ∧
    (tileBody sz a g r).2.ImB =
      (if a.is_image_b = true then a.B
       else if stagesB a = true ∧ r.ImB = cl_mem.NULL then
        cl_mem.created (r.st.nextImage +
          (if stagesA a = true ∧ r.ImA = cl_mem.NULL then 1 else 0))
       else r.ImB) ∧
    (tileBody sz a g r).1.ImA = (tileBody sz a g r).2.ImA ∧
    (tileBody sz a g r).1.ImB = (tileBody sz a g r).2.ImB := by
  obtain ⟨h1, h2, h3, h4, h5, h6, h7, h8, h9, h10⟩ := stageOperands_effect sz a g r
  have hops : (tileBody sz a g r).1.ops = (stageOperands sz a g r).ops ++
      [(tileBody sz a g r).1.launch,
       CLOp.clSetEventCallback (tileBody sz a g r).1.launchEvent
         (tileBody sz a g r).1.callback_arg] := rfl
  have hev : (tileBody sz a g r).1.ev = (stageOperands sz a g r).ev := rfl
  have hle : (tileBody sz a g r).1.launchEvent = (stageOperands sz a g r).res.st.nextEvent := rfl
  have hst : (tileBody sz a g r).2.st.nextEvent
      = (stageOperands sz a g r).res.st.nextEvent + 1 := rfl
  have hl : (tileBody sz a g r).1.launch =
      CLOp.clEnqueueNDRangeKernel (kernel_name a) (tileBody sz a g r).1.args
        (tileBody sz a g r).1.global (tileBody sz a g r).1.localSize
        (tileBody sz a g r).1.ev.length (tileBody sz a g r).1.wait_list
        (some (tileBody sz a g r).1.launchEvent) := rfl
  have hA : (tileBody sz a g r).2.ImA =
      (if a.is_image_a = true then a.A else (stageOperands sz a g r).res.ImA) := rfl
  have hB : (tileBody sz a g r).2.ImB =
      (if a.is_image_b = true then a.B else (stageOperands sz a g r).res.ImB) := rfl
  refine ⟨by rw [hev, h5], by rw [hle, h3], rfl, rfl, ?_, ?_, ?_, ?_, ?_, ?_, ?_, ?_, ?_, rfl, rfl⟩
  · rw [hops, producedEvents_append, h7, hl, hev]
    simp [producedEvents, CLOp.producedEvent]
  · rw [hops, producedEvents_append, h7, hl, h5, hst, h3]
    simp only [producedEvents, List.filterMap_cons, CLOp.producedEvent, List.filterMap_nil]
    rw [hle, h3]
    have e : r.st.nextEvent + ((if stagesA a = true then 1 else 0) +
        (if stagesB a = true then 1 else 0)) + 1 - r.st.nextEvent =
        ((if stagesA a = true then 1 else 0) + (if stagesB a = true then 1 else 0)) + 1 := by
      omega
    rw [e, List.range'_concat]
    simp
  · rw [hst, h3]; omega
  · rw [hops, releasedMems_append, h8, hl]
    simp [releasedMems, CLOp.releasedMem]
  · rw [hops, releasedEvents_append, h9, hl]
    simp [releasedEvents, CLOp.releasedEvent]
  · rw [hops, callbackOps_append, h10, hl]
    simp [callbackOps, CLOp.callback]
  · rw [hops, createdImages_append, h6, hl]
    simp [createdImages, CLOp.createdImage]
  · rw [hA, h1]
    cases hia : a.is_image_a <;> simp [stagesA, hia]
  · rw [hB, h2]

end res2

theorem gemmCallback_effect {Dtype : Type} (arg : gemm_callback_arg) :
    releasedEvents (gemmCallback Dtype arg) = arg.evs ∧
    releasedMems (gemmCallback Dtype arg) = arg.imgs ∧
    producedEvents (gemmCallback Dtype arg) = [] ∧
    createdImages (gemmCallback Dtype arg) = [] := by
  have h1 : ∀ l : List cl_event, List.filterMap CLOp.releasedEvent
      (l.map (CLOp.clReleaseEvent : cl_event → CLOp Dtype)) = l := by
    intro l; induction l with
    | nil => rfl
    | cons e l ih => simp [CLOp.releasedEvent, ih]
  have h2 : ∀ l : List cl_mem, List.filterMap CLOp.releasedEvent
      (l.map (CLOp.clReleaseMemObject : cl_mem → CLOp Dtype)) = [] := by
    intro l; induction l with
    | nil => rfl
    | cons e l ih => simp [CLOp.releasedEvent, ih]
  have h3 : ∀ l : List cl_mem, List.filterMap CLOp.releasedMem
      (l.map (CLOp.clReleaseMemObject : cl_mem → CLOp Dtype)) = l := by
    intro l; induction l with
    | nil => rfl
    | cons e l ih => simp [CLOp.releasedMem, ih]
  have h4 : ∀ l : List cl_event, List.filterMap CLOp.releasedMem
      (l.map (CLOp.clReleaseEvent : cl_event → CLOp Dtype)) = [] := by
    intro l; induction l with
    | nil => rfl
    | cons e l ih => simp [CLOp.releasedMem, ih]
  have h5 : ∀ l : List cl_event, List.filterMap CLOp.producedEvent
      (l.map (CLOp.clReleaseEvent : cl_event → CLOp Dtype)) = [] := by
    intro l; induction l with
    | nil => rfl
    | cons e l ih => simp [CLOp.producedEvent, ih]
  have h6 : ∀ l : List cl_mem, List.filterMap CLOp.producedEvent
      (l.map (CLOp.clReleaseMemObject : cl_mem → CLOp Dtype)) = [] := by
    intro l; induction l with
    | nil => rfl
    | cons e l ih => simp [CLOp.producedEvent, ih]
  have h7 : ∀ l : List cl_event, List.filterMap CLOp.createdImage
      (l.map (CLOp.clReleaseEvent : cl_event → CLOp Dtype)) = [] := by
    intro l; induction l with
    | nil => rfl
    | cons e l ih => simp [CLOp.createdImage, ih]
  have h8 : ∀ l : List cl_mem, List.filterMap CLOp.createdImage
      (l.map (CLOp.clReleaseMemObject : cl_mem → CLOp Dtype)) = [] := by
    intro l; induction l with
    | nil => rfl
    | cons e l ih => simp [CLOp.createdImage, ih]
  simp only [gemmCallback, releasedEvents, releasedMems, producedEvents, createdImages,
    List.filterMap_append, h1, h2, h3, h4, h5, h6, h7, h8, List.append_nil, List.nil_append,
    and_self]

section res3
variable {Dtype : Type} [DecidableEq Dtype] [Zero Dtype] [One Dtype]

/-- Whatever the K loop returns is the loop body run over some list of passes. -/
theorem kLoop_runTiles (sz : Int) (a : GemmArgs Dtype) :
    ∀ (fuel : Nat) (k f : Int) (v : LoopVars) (r : Res) (ts : List (TileRecord Dtype))
      (v1 : LoopVars) (r1 : Res),
      kLoop sz a fuel k f v r = Outcome.ok (ts, v1, r1) →
      ∃ gs, runTiles sz a gs r = (ts, r1) := by
  intro fuel
  induction fuel with
  | zero => intro k f v r ts v1 r1 h; simp [kLoop] at h
  | succ fuel ih =>
    intro k f v r ts v1 r1 h
    rw [kLoop] at h
    by_cases hk : k < a.K
    · simp only [hk, if_true] at h
      cases hrec : kLoop sz a fuel (k + blocksize a) 0 (advanceK a (tileGeom a v k f).v)
          (tileBody sz a (tileGeom a v k f) r).2 with
      | ok val =>
        obtain ⟨ts2, v2, r2⟩ := val
        rw [hrec] at h
        simp only [prependTiles, Outcome.ok.injEq, Prod.mk.injEq] at h
        obtain ⟨h1, h2, h3⟩ := h
        obtain ⟨gs, hgs⟩ := ih _ _ _ _ _ _ _ hrec
        refine ⟨tileGeom a v k f :: gs, ?_⟩
        simp [runTiles, hgs, ← h1, ← h3]
      | fatal msg => rw [hrec] at h; simp [prependTiles] at h
      | outOfFuel => rw [hrec] at h; simp [prependTiles] at h
    · simp only [hk, if_false, Outcome.ok.injEq, Prod.mk.injEq] at h
      obtain ⟨h1, _, h3⟩ := h
      exact ⟨[], by simp [runTiles, ← h1, ← h3]⟩

/-- Whatever the outer loop returns is the loop body run over some list of passes. -/
theorem tileLoop_runTiles (sz : Int) (a : GemmArgs Dtype) (kFuel : Nat) :
    ∀ (fuel : Nat) (v : LoopVars) (r : Res) (ts : List (TileRecord Dtype))
      (v1 : LoopVars) (r1 : Res),
      tileLoop sz a kFuel fuel v r = Outcome.ok (ts, v1, r1) →
      ∃ gs, runTiles sz a gs r = (ts, r1) := by
  intro fuel
  induction fuel with
  | zero => intro v r ts v1 r1 h; simp [tileLoop] at h
  | succ fuel ih =>
    intro v r ts v1 r1 h
    rw [tileLoop] at h
    by_cases hy : v.C_start_y < a.M
    · simp only [hy, if_true] at h
      cases hk : kLoop sz a kFuel 0 1 (blockCSizes a v) r with
      | ok val =>
        obtain ⟨tsk, vk, rk⟩ := val
        rw [hk] at h
        simp only at h
        cases hrec : tileLoop sz a kFuel fuel (advanceC a vk) rk with
        | ok val2 =>
          obtain ⟨ts2, v2, r2⟩ := val2
          rw [hrec] at h
          simp only [prependTiles, Outcome.ok.injEq, Prod.mk.injEq] at h
          obtain ⟨h1, h2, h3⟩ := h
          obtain ⟨gs1, hgs1⟩ := kLoop_runTiles sz a _ _ _ _ _ _ _ _ hk
          obtain ⟨gs2, hgs2⟩ := ih _ _ _ _ _ hrec
          refine ⟨gs1 ++ gs2, ?_⟩
          rw [runTiles_append, hgs1]
          simp [hgs2, ← h1, ← h3]
        | fatal msg => rw [hrec] at h; simp [prependTiles] at h
        | outOfFuel => rw [hrec] at h; simp [prependTiles] at h
      | fatal msg => rw [hk] at h; simp at h
      | outOfFuel => rw [hk] at h; simp at h
    · simp only [hy, if_false, Outcome.ok.injEq, Prod.mk.injEq] at h
      obtain ⟨h1, _, h3⟩ := h
      exact ⟨[], by simp [runTiles, ← h1, ← h3]⟩

/-- Whatever a call returns is the loop body run over some list of passes from null
`ImA` and `ImB`, followed by the releases after the loop. -/
theorem gemm_runTiles (sz : Int) (fuel : Nat) (st : CLState) (a : GemmArgs Dtype)
    (run : GemmRun Dtype) (h : ocl4dnnFastImageGEMM sz fuel st a = Outcome.ok run) :
    ∃ gs, runTiles sz a gs { ImA := cl_mem.NULL, ImB := cl_mem.NULL, st := st }
        = (run.tiles, run.res) ∧
      run.finalOps = finalReleases a run.res := by
  unfold ocl4dnnFastImageGEMM at h
  split at h
  · simp at h
  · split at h
    · simp at h
    · split at h
      · simp at h
      · cases hl : tileLoop sz a fuel fuel (initVars a)
            { ImA := cl_mem.NULL, ImB := cl_mem.NULL, st := st } with
        | ok val =>
          obtain ⟨ts, v1, r1⟩ := val
          rw [hl] at h
          simp only [Outcome.ok.injEq] at h
          obtain ⟨gs, hgs⟩ := tileLoop_runTiles sz a fuel fuel _ _ _ _ _ hl
          refine ⟨gs, ?_, ?_⟩
          · rw [hgs, ← h]
          · rw [← h]
        | fatal msg => rw [hl] at h; simp at h
        | outOfFuel => rw [hl] at h; simp at h

/-- The events of the passes of a run: the calls produce consecutive fresh events, the
callbacks release exactly those, and nothing else is released inside the loop. -/
theorem runTiles_events (sz : Int) (a : GemmArgs Dtype) :
    ∀ (gs : List TileGeom) (r : Res),
      producedEvents ((runTiles sz a gs r).1.flatMap TileRecord.ops) =
        List.range' r.st.nextEvent ((runTiles sz a gs r).2.st.nextEvent - r.st.nextEvent) ∧
      r.st.nextEvent ≤ (runTiles sz a gs r).2.st.nextEvent ∧
      releasedEvents (callbackOps ((runTiles sz a gs r).1.flatMap TileRecord.ops)) =
        producedEvents ((runTiles sz a gs r).1.flatMap TileRecord.ops) ∧
      releasedEvents ((runTiles sz a gs r).1.flatMap TileRecord.ops) = [] ∧
      releasedMems ((runTiles sz a gs r).1.flatMap TileRecord.ops) = [] ∧
      producedEvents (callbackOps ((runTiles sz a gs r).1.flatMap TileRecord.ops)) = [] ∧
      releasedMems (callbackOps ((runTiles sz a gs r).1.flatMap TileRecord.ops)) = [] ∧
      createdImages (callbackOps ((runTiles sz a gs r).1.flatMap TileRecord.ops)) = [] := by
  intro gs
  induction gs with
  | nil =>
    intro r
    simp [runTiles, producedEvents, releasedEvents, releasedMems, createdImages, callbackOps]
  | cons g gs ih =>
    intro r
    obtain ⟨_, _, t3, t4, t5, t6, t7, t8, t9, t10, _⟩ := tileBody_effect sz a g r
    obtain ⟨i1, i2, i3, i4, i5, i6, i7, i8⟩ := ih (tileBody sz a g r).2
    obtain ⟨c1, c2, c3, c4⟩ :=
      @gemmCallback_effect Dtype (tileBody sz a g r).1.callback_arg
    simp only [runTiles, List.flatMap_cons, producedEvents_append, releasedEvents_append,
      releasedMems_append, callbackOps_append, createdImages_append, i3, i4, i5, i6, i7, i8,
      t8, t9, t10, c1, c2, c3, c4, t4, List.append_nil, true_and]
    refine ⟨?_, by omega, ?_⟩
    · rw [i1, t6]
      have e : (tileBody sz a g r).2.st.nextEvent
          = r.st.nextEvent + ((tileBody sz a g r).2.st.nextEvent - r.st.nextEvent) := by omega
      conv_lhs => rw [e]
      rw [← e, show (List.range' r.st.nextEvent
          ((tileBody sz a g r).2.st.nextEvent - r.st.nextEvent) ++
          List.range' (tileBody sz a g r).2.st.nextEvent
            ((runTiles sz a gs (tileBody sz a g r).2).2.st.nextEvent -
              (tileBody sz a g r).2.st.nextEvent)) =
          (List.range' r.st.nextEvent
          ((tileBody sz a g r).2.st.nextEvent - r.st.nextEvent) ++
          List.range' (r.st.nextEvent + ((tileBody sz a g r).2.st.nextEvent - r.st.nextEvent))
            ((runTiles sz a gs (tileBody sz a g r).2).2.st.nextEvent -
              (tileBody sz a g r).2.st.nextEvent)) by rw [← e], List.range'_append_1]
      congr 1
      omega
    · exact ⟨by rw [t3, t5], trivial⟩

/-- Once the operands that are staged have their textures, later passes create none
and leave `ImA` and `ImB` alone. -/
theorem runTiles_stable (sz : Int) (a : GemmArgs Dtype) :
    ∀ (gs : List TileGeom) (r : Res),
      (a.is_image_a = false → r.ImA ≠ cl_mem.NULL) →
      (stagesB a = true → r.ImB ≠ cl_mem.NULL) →
      createdImages ((runTiles sz a gs r).1.flatMap TileRecord.ops) = [] ∧
      (a.is_image_a = false → (runTiles sz a gs r).2.ImA = r.ImA) ∧
      (a.is_image_b = false → (runTiles sz a gs r).2.ImB = r.ImB) := by
  intro gs
  induction gs with
  | nil => intro r _ _; simp [runTiles, createdImages]
  | cons g gs ih =>
    intro r hA hB
    obtain ⟨_, _, _, _, _, _, _, _, _, _, t11, t12, t13, _⟩ := tileBody_effect sz a g r
    have hA2 : a.is_image_a = false → (tileBody sz a g r).2.ImA = r.ImA := by
      intro h; rw [t12]; simp [h, hA h]
    have hB2 : a.is_image_b = false → (tileBody sz a g r).2.ImB = r.ImB := by
      intro h; rw [t13]
      by_cases hs : stagesB a = true
      · simp [h, hB hs]
      · simp [h, hs]
    have hB3 : stagesB a = true → a.is_image_b = false := by
      intro h; simp [stagesB] at h; exact h.1
    obtain ⟨i1, i2, i3⟩ := ih (tileBody sz a g r).2
      (fun h => by rw [hA2 h]; exact hA h)
      (fun h => by rw [hB2 (hB3 h)]; exact hB h)
    have hc : createdImages (tileBody sz a g r).1.ops = [] := by
      rw [t11]
      by_cases hs : stagesB a = true
      · by_cases hsa : stagesA a = true
        · have : a.is_image_a = false := by simpa [stagesA] using hsa
          simp [hA this, hB hs]
        · simp [hsa, hB hs]
      · by_cases hsa : stagesA a = true
        · have : a.is_image_a = false := by simpa [stagesA] using hsa
          simp [hA this, hs]
        · simp [hsa, hs]
    refine ⟨?_, ?_, ?_⟩
    · simp only [runTiles, List.flatMap_cons, createdImages_append, hc, i1, List.append_nil]
    · intro h; simp only [runTiles]; rw [i2 h, hA2 h]
    · intro h; simp only [runTiles]; rw [i3 h, hB2 h]

/-- The textures of a run from null `ImA` and `ImB`: the releases after the loop release
exactly the images created in the loop, which are distinct handles returned by
`clCreateImage`. -/
theorem runTiles_textures (sz : Int) (a : GemmArgs Dtype) (gs : List TileGeom) (st : CLState) :
    releasedMems (@finalReleases Dtype a
        (runTiles sz a gs { ImA := cl_mem.NULL, ImB := cl_mem.NULL, st := st }).2) =
      createdImages
        ((runTiles sz a gs { ImA := cl_mem.NULL, ImB := cl_mem.NULL, st := st }).1.flatMap
          TileRecord.ops) ∧
    (createdImages
        ((runTiles sz a gs { ImA := cl_mem.NULL, ImB := cl_mem.NULL, st := st }).1.flatMap
          TileRecord.ops)).Nodup ∧
    (∀ m ∈ createdImages
        ((runTiles sz a gs { ImA := cl_mem.NULL, ImB := cl_mem.NULL, st := st }).1.flatMap
          TileRecord.ops), m.isCreated = true) ∧
    createdImages (@finalReleases Dtype a
        (runTiles sz a gs { ImA := cl_mem.NULL, ImB := cl_mem.NULL, st := st }).2) = [] ∧
    producedEvents (@finalReleases Dtype a
        (runTiles sz a gs { ImA := cl_mem.NULL, ImB := cl_mem.NULL, st := st }).2) = [] ∧
    releasedEvents (@finalReleases Dtype a
        (runTiles sz a gs { ImA := cl_mem.NULL, ImB := cl_mem.NULL, st := st }).2) = [] ∧
    callbackOps (@finalReleases Dtype a
        (runTiles sz a gs { ImA := cl_mem.NULL, ImB := cl_mem.NULL, st := st }).2) = [] := by
  have hfin : ∀ r : Res,
      createdImages (@finalReleases Dtype a r) = [] ∧
      producedEvents (@finalReleases Dtype a r) = [] ∧
      releasedEvents (@finalReleases Dtype a r) = [] ∧
      callbackOps (@finalReleases Dtype a r) = [] := by
    intro r
    unfold finalReleases
    by_cases h1 : r.ImA ≠ cl_mem.NULL ∧ a.is_image_a = false <;>
      by_cases h2 : r.ImB ≠ cl_mem.NULL ∧ a.is_image_b = false <;>
      simp [h1, h2, createdImages, producedEvents, releasedEvents, callbackOps,
        CLOp.createdImage, CLOp.producedEvent, CLOp.releasedEvent, CLOp.callback]
  refine ⟨?_, ?_, ?_, (hfin _).1, (hfin _).2.1, (hfin _).2.2.1, (hfin _).2.2.2⟩
  all_goals
    cases gs with
    | nil => simp [runTiles, finalReleases, releasedMems, createdImages]
    | cons g gs =>
      obtain ⟨_, _, _, _, _, _, _, _, _, _, t11, t12, t13, _⟩ := tileBody_effect sz a g
        { ImA := cl_mem.NULL, ImB := cl_mem.NULL, st := st }
      have hB3 : stagesB a = true → a.is_image_b = false := by
        intro h; simp [stagesB] at h; exact h.1
      obtain ⟨i1, i2, i3⟩ := runTiles_stable sz a gs
        (tileBody sz a g { ImA := cl_mem.NULL, ImB := cl_mem.NULL, st := st }).2
        (fun h => by rw [t12]; simp [h])
        (fun h => by rw [t13]; simp [h, hB3 h])
      simp only [runTiles, List.flatMap_cons, createdImages_append, i1, List.append_nil, t11]
      cases hia : a.is_image_a <;> cases hib : a.is_image_b <;>
        by_cases hs : stagesB a = true <;>
        simp_all [finalReleases, releasedMems, CLOp.releasedMem, stagesA, cl_mem.isCreated]

end res3

/-! ## The kernels a call launches -/

/-- A list of OpenCL calls none of which launches `name` has no launch of `name`. -/
theorem launchesOf_eq_nil {Dtype : Type} (name : String) (ops : List (CLOp Dtype))
    (h : ∀ n ∈ ops.filterMap CLOp.launchedKernel, n ≠ name) : launchesOf name ops = [] := by
  unfold launchesOf
  rw [List.filter_eq_nil_iff]
  intro op hop hd
  exact h name (List.mem_filterMap.mpr ⟨op, hop, of_decide_eq_true hd⟩) rfl

theorem launchesOf_append {Dtype : Type} (name : String) (l1 l2 : List (CLOp Dtype)) :
    launchesOf name (l1 ++ l2) = launchesOf name l1 ++ launchesOf name l2 := by
  simp [launchesOf]

/-- The compute kernel is neither of the two layout-conversion kernels. -/
theorem kernel_name_ne_copy {Dtype : Type} [DecidableEq Dtype] [Zero Dtype] [One Dtype]
    (a : GemmArgs Dtype) :
    kernel_name a ≠ "gemm_buffer_copy_image_transpose_float" ∧
    kernel_name a ≠ "gemm_buffer_copy_image_no_transpose_float" := by
  unfold kernel_name
  constructor <;> split_ifs <;> decide

/-- The only kernels the staging step launches are the two layout-conversion kernels. -/
theorem stage_launched {Dtype : Type} (sz : Int) (st : CLState) (im buf : cl_mem) (off : Int)
    (ima tr pad : Bool) (ph pw h w ld n : Int) (wl : Option (List cl_event)) (we : Bool) :
    ∀ name ∈ (@ocl4dnnGEMMCopyBufferToImage Dtype sz st im buf off ima tr pad ph pw h w ld n
        wl we).ops.filterMap CLOp.launchedKernel,
      name = "gemm_buffer_copy_image_transpose_float" ∨
      name = "gemm_buffer_copy_image_no_transpose_float" := by
  by_cases him : im = cl_mem.NULL <;> by_cases hld : ld = w <;>
    cases ima <;> cases tr <;> cases pad <;>
    simp [ocl4dnnGEMMCopyBufferToImage, him, hld, CLOp.launchedKernel]

/-- The staging step moves its buffer into the texture it returns, in one enqueue. -/
theorem stage_operand {Dtype : Type} (sz : Int) (st : CLState) (im buf : cl_mem) (off : Int)
    (ima tr pad : Bool) (ph pw h w ld n : Int) (wl : Option (List cl_event)) (we : Bool) :
    stagedOperands (@ocl4dnnGEMMCopyBufferToImage Dtype sz st im buf off ima tr pad ph pw h w
        ld n wl we).ops =
      [(buf, (@ocl4dnnGEMMCopyBufferToImage Dtype sz st im buf off ima tr pad ph pw h w ld n
        wl we).image)] := by
  by_cases him : im = cl_mem.NULL <;> by_cases hld : ld = w <;>
    cases ima <;> cases tr <;> cases pad <;>
    simp [ocl4dnnGEMMCopyBufferToImage, him, hld, stagedOperands, CLOp.stagedOperand]

/-- The one enqueue of a staging call, by kind. -/
theorem stage_kinds {Dtype : Type} (sz : Int) (st : CLState) (im buf : cl_mem) (off : Int)
    (ima tr pad : Bool) (ph pw h w ld n : Int) (wl : Option (List cl_event)) (we : Bool) :
    stagingKinds (@ocl4dnnGEMMCopyBufferToImage Dtype sz st im buf off ima tr pad ph pw h w
        ld n wl we).ops =
      [if ima = false ∧ tr = true then
        (if ld = w then StagingKind.directCopy
         else StagingKind.conversionKernel "gemm_buffer_copy_image_transpose_float")
       else if pad = true then
        StagingKind.conversionKernel "gemm_buffer_copy_image_no_transpose_float"
       else StagingKind.directCopy] := by
  by_cases him : im = cl_mem.NULL <;> by_cases hld : ld = w <;>
    cases ima <;> cases tr <;> cases pad <;>
    simp [ocl4dnnGEMMCopyBufferToImage, him, hld, stagingKinds, CLOp.stagingKind]

theorem stagedOperands_append {Dtype : Type} (l1 l2 : List (CLOp Dtype)) :
    stagedOperands (l1 ++ l2) = stagedOperands l1 ++ stagedOperands l2 := by
  simp [stagedOperands]

/-- The staging of one pass moves each staged operand's buffer into the texture the pass
goes on to use for it, A before B, and launches no kernel but the two
layout-conversion kernels. -/
theorem stageOperands_staged {Dtype : Type} (sz : Int) (a : GemmArgs Dtype) (g : TileGeom)
    (r : Res) :
    stagedOperands (stageOperands sz a g r).ops =
      (if stagesA a = true then [(a.A, (stageOperands sz a g r).res.ImA)] else []) ++
      (if stagesB a = true then [(a.B, (stageOperands sz a g r).res.ImB)] else []) ∧
    (∀ name ∈ (stageOperands sz a g r).ops.filterMap CLOp.launchedKernel,
      name = "gemm_buffer_copy_image_transpose_float" ∨
      name = "gemm_buffer_copy_image_no_transpose_float") := by
  have e0 : stagedOperands ([] : List (CLOp Dtype)) = [] := rfl
  constructor
  · cases hB : a.TransB <;> cases hia : a.is_image_a <;> cases hib : a.is_image_b <;>
      cases hkm : kNotMultiple a <;>
      simp [stageOperands, stagesA, stagesB, hB, hia, hib, hkm, stageA, stageB,
        stagedOperands_append, stage_operand, e0]
  · intro name hn
    have hA : ∀ (pad : Bool) (s : Staged Dtype),
        (∀ n ∈ s.ops.filterMap CLOp.launchedKernel,
          n = "gemm_buffer_copy_image_transpose_float" ∨
          n = "gemm_buffer_copy_image_no_transpose_float") →
        ∀ n ∈ (stageA sz a g pad s).ops.filterMap CLOp.launchedKernel,
          n = "gemm_buffer_copy_image_transpose_float" ∨
          n = "gemm_buffer_copy_image_no_transpose_float" := by
      intro pad s hs n hn
      simp only [stageA, List.filterMap_append, List.mem_append] at hn
      rcases hn with hn | hn
      · exact hs n hn
      · exact stage_launched sz _ _ _ _ _ _ _ _ _ _ _ _ _ _ _ n hn
    have hB : ∀ (tr pad : Bool) (s : Staged Dtype),
        (∀ n ∈ s.ops.filterMap CLOp.launchedKernel,
          n = "gemm_buffer_copy_image_transpose_float" ∨
          n = "gemm_buffer_copy_image_no_transpose_float") →
        ∀ n ∈ (stageB sz a g tr pad s).ops.filterMap CLOp.launchedKernel,
          n = "gemm_buffer_copy_image_transpose_float" ∨
          n = "gemm_buffer_copy_image_no_transpose_float" := by
      intro tr pad s hs n hn
      simp only [stageB, List.filterMap_append, List.mem_append] at hn
      rcases hn with hn | hn
      · exact hs n hn
      · exact stage_launched sz _ _ _ _ _ _ _ _ _ _ _ _ _ _ _ n hn
    have h0 : ∀ n ∈ ({ res := r, ops := [], ev := [], calls := [] } : Staged Dtype).ops.filterMap
        CLOp.launchedKernel,
          n = "gemm_buffer_copy_image_transpose_float" ∨
          n = "gemm_buffer_copy_image_no_transpose_float" := by
      intro n hn; simp at hn
    unfold stageOperands at hn
    cases hT : a.TransB <;> cases hia : a.is_image_a <;> cases hib : a.is_image_b <;>
      cases hkm : kNotMultiple a <;>
      simp only [hT, hia, hib, hkm, if_true, if_false, Bool.not_true, Bool.not_false,
        Bool.and_true, Bool.and_false, Bool.true_and, Bool.false_and, reduceCtorEq,
        Bool.false_eq_true] at hn <;>
      first
        | exact h0 name hn
        | exact hA _ _ h0 name hn
        | exact hB _ _ _ h0 name hn
        | exact hB _ _ _ (hA _ _ h0) name hn

/-- The staging enqueues of a pass: each staged operand's buffer goes into the texture
the compute kernel of the pass is given for it. -/
theorem tileBody_staged {Dtype : Type} [DecidableEq Dtype] [Zero Dtype] [One Dtype]
    (sz : Int) (a : GemmArgs Dtype) (g : TileGeom) (r : Res) :
    stagedOperands (tileBody sz a g r).1.stagingOps =
      (if stagesA a = true then [(a.A, (tileBody sz a g r).1.ImA)] else []) ++
      (if stagesB a = true then [(a.B, (tileBody sz a g r).1.ImB)] else []) := by
  have h := (stageOperands_staged sz a g r).1
  have hA : (tileBody sz a g r).1.ImA =
      (if a.is_image_a = true then a.A else (stageOperands sz a g r).res.ImA) := rfl
  have hB : (tileBody sz a g r).1.ImB =
      (if a.is_image_b = true then a.B else (stageOperands sz a g r).res.ImB) := rfl
  have hs : (tileBody sz a g r).1.stagingOps = (stageOperands sz a g r).ops := rfl
  rw [hs, h, hA, hB]
  cases hia : a.is_image_a <;> cases hib : a.is_image_b <;> simp [stagesA, stagesB, hia, hib]

/-- The launches of a pass: one of the compute kernel, after the staging, and otherwise
only layout-conversion kernels. -/
theorem tileBody_launches {Dtype : Type} [DecidableEq Dtype] [Zero Dtype] [One Dtype]
    (sz : Int) (a : GemmArgs Dtype) (g : TileGeom) (r : Res) :
    launchesOf (kernel_name a) (tileBody sz a g r).1.ops = [(tileBody sz a g r).1.launch] ∧
    (∀ name ∈ (tileBody sz a g r).1.ops.filterMap CLOp.launchedKernel,
      name = kernel_name a ∨ name = "gemm_buffer_copy_image_transpose_float" ∨
      name = "gemm_buffer_copy_image_no_transpose_float") := by
  have hops : (tileBody sz a g r).1.ops = (stageOperands sz a g r).ops ++
      [(tileBody sz a g r).1.launch,
       CLOp.clSetEventCallback (tileBody sz a g r).1.launchEvent
         (tileBody sz a g r).1.callback_arg] := rfl
  have hl : (tileBody sz a g r).1.launch =
      CLOp.clEnqueueNDRangeKernel (kernel_name a) (tileBody sz a g r).1.args
        (tileBody sz a g r).1.global (tileBody sz a g r).1.localSize
        (tileBody sz a g r).1.ev.length (tileBody sz a g r).1.wait_list
        (some (tileBody sz a g r).1.launchEvent) := rfl
  have hst := (stageOperands_staged sz a g r).2
  obtain ⟨n1, n2⟩ := kernel_name_ne_copy a
  constructor
  · rw [hops, launchesOf_append, launchesOf_eq_nil _ _ (fun n hn => by
      rcases hst n hn with h | h
      · rw [h]; exact fun e => n1 e.symm
      · rw [h]; exact fun e => n2 e.symm)]
    rw [hl]
    simp [launchesOf, CLOp.launchedKernel]
  · intro name hn
    rw [hops, List.filterMap_append, List.mem_append] at hn
    rcases hn with hn | hn
    · exact Or.inr (hst name hn)
    · rw [hl] at hn
      simp [CLOp.launchedKernel] at hn
      exact Or.inl hn

/-- The launches of a run of passes: the compute launches of the passes in order, and
otherwise only layout-conversion kernels. -/
theorem runTiles_launches {Dtype : Type} [DecidableEq Dtype] [Zero Dtype] [One Dtype]
    (sz : Int) (a : GemmArgs Dtype) :
    ∀ (gs : List TileGeom) (r : Res),
      launchesOf (kernel_name a) ((runTiles sz a gs r).1.flatMap TileRecord.ops) =
        (runTiles sz a gs r).1.map (fun t => t.launch) ∧
      (∀ name ∈ ((runTiles sz a gs r).1.flatMap TileRecord.ops).filterMap CLOp.launchedKernel,
        name = kernel_name a ∨ name = "gemm_buffer_copy_image_transpose_float" ∨
        name = "gemm_buffer_copy_image_no_transpose_float") := by
  intro gs
  induction gs with
  | nil => intro r; simp [runTiles, launchesOf]
  | cons g gs ih =>
    intro r
    obtain ⟨i1, i2⟩ := ih (tileBody sz a g r).2
    obtain ⟨t1, t2⟩ := tileBody_launches sz a g r
    simp only [runTiles, List.flatMap_cons, launchesOf_append, List.map_cons, t1, i1,
      List.singleton_append, List.filterMap_append, List.mem_append, true_and]
    intro name hn
    rcases hn with hn | hn
    · exact t2 name hn
    · exact i2 name hn

/-- The releases after the loop launch nothing. -/
theorem finalReleases_launched {Dtype : Type} (a : GemmArgs Dtype) (r : Res) :
    (finalReleases a r).filterMap CLOp.launchedKernel = [] := by
  unfold finalReleases
  by_cases h1 : r.ImA ≠ cl_mem.NULL ∧ a.is_image_a = false <;>
    by_cases h2 : r.ImB ≠ cl_mem.NULL ∧ a.is_image_b = false <;>
    simp [h1, h2, CLOp.launchedKernel]

/-- The launches of a returned call: the compute launches of its passes in order, and
otherwise only layout-conversion kernels. -/
theorem gemm_launches {Dtype : Type} [DecidableEq Dtype] [Zero Dtype] [One Dtype]
    (sz : Int) (fuel : Nat) (st : CLState) (a : GemmArgs Dtype) (run : GemmRun Dtype)
    (h : ocl4dnnFastImageGEMM sz fuel st a = Outcome.ok run) :
    launchesOf (kernel_name a) run.ops = run.tiles.map (fun t => t.launch) ∧
    (∀ name ∈ run.ops.filterMap CLOp.launchedKernel,
      name = kernel_name a ∨ name = "gemm_buffer_copy_image_transpose_float" ∨
      name = "gemm_buffer_copy_image_no_transpose_float") := by
  obtain ⟨gs, hgs, hfin⟩ := gemm_runTiles sz fuel st a run h
  have ht : run.tiles =
      (runTiles sz a gs { ImA := cl_mem.NULL, ImB := cl_mem.NULL, st := st }).1 := by rw [hgs]
  obtain ⟨r1, r2⟩ := runTiles_launches sz a gs { ImA := cl_mem.NULL, ImB := cl_mem.NULL, st := st }
  have hf := finalReleases_launched a run.res
  have hops : run.ops = run.tiles.flatMap TileRecord.ops ++ run.finalOps := rfl
  constructor
  · rw [hops, launchesOf_append, ht, r1, hfin,
      launchesOf_eq_nil _ (finalReleases a run.res) (by rw [hf]; simp)]
    simp
  · intro name hn
    rw [hops, List.filterMap_append, List.mem_append, hfin, hf, ht] at hn
    rcases hn with hn | hn
    · exact r2 name hn
    · simp at hn

/-- The texture a pass leaves in `ImB`, when B is staged: the one it found, or one it
created. -/
theorem tileBody_ImB_created {Dtype : Type} [DecidableEq Dtype] [Zero Dtype] [One Dtype]
    (sz : Int) (a : GemmArgs Dtype) (g : TileGeom) (r : Res) (hs : stagesB a = true) :
    ((tileBody sz a g r).2.ImB = r.ImB ∧ r.ImB ≠ cl_mem.NULL) ∨
    (tileBody sz a g r).2.ImB ∈ createdImages (tileBody sz a g r).1.ops := by
  obtain ⟨_, _, _, _, _, _, _, _, _, _, t11, _, t13, _⟩ := tileBody_effect sz a g r
  have hib : a.is_image_b = false := by simp [stagesB] at hs; exact hs.1
  rw [t13, t11]
  by_cases h0 : r.ImB = cl_mem.NULL
  · right; simp [hib, hs, h0]
  · left; simp [hib, hs, h0]

/-- In a run of passes that stage B, every pass uses for B the texture the run started
with or one created by the run. -/
theorem runTiles_ImB_created {Dtype : Type} [DecidableEq Dtype] [Zero Dtype] [One Dtype]
    (sz : Int) (a : GemmArgs Dtype) (hs : stagesB a = true) :
    ∀ (gs : List TileGeom) (r : Res), ∀ t ∈ (runTiles sz a gs r).1,
      (t.ImB = r.ImB ∧ r.ImB ≠ cl_mem.NULL) ∨
      t.ImB ∈ createdImages ((runTiles sz a gs r).1.flatMap TileRecord.ops) := by
  intro gs
  induction gs with
  | nil => intro r t ht; simp [runTiles] at ht
  | cons g gs ih =>
    intro r t ht
    have h15 := (tileBody_effect sz a g r).2.2.2.2.2.2.2.2.2.2.2.2.2.2
    have h0 := tileBody_ImB_created sz a g r hs
    simp only [runTiles, List.mem_cons] at ht
    simp only [runTiles, List.flatMap_cons, createdImages_append, List.mem_append]
    rcases ht with ht | ht
    · rw [ht, h15]
      rcases h0 with h0 | h0
      · exact Or.inl h0
      · exact Or.inr (Or.inl h0)
    · rcases ih _ t ht with ⟨e1, e2⟩ | h2
      · rw [e1]
        rcases h0 with h0 | h0
        · exact Or.inl h0
        · exact Or.inr (Or.inl h0)
      · exact Or.inr (Or.inr h2)

/-- In a returned call that stages B, the texture every pass uses for B was created by
the call. -/
theorem gemm_ImB_created {Dtype : Type} [DecidableEq Dtype] [Zero Dtype] [One Dtype]
    (sz : Int) (fuel : Nat) (st : CLState) (a : GemmArgs Dtype) (run : GemmRun Dtype)
    (h : ocl4dnnFastImageGEMM sz fuel st a = Outcome.ok run) (hs : stagesB a = true) :
    ∀ t ∈ run.tiles, t.ImB ∈ createdImages run.ops := by
  obtain ⟨gs, hgs, _⟩ := gemm_runTiles sz fuel st a run h
  have ht : run.tiles =
      (runTiles sz a gs { ImA := cl_mem.NULL, ImB := cl_mem.NULL, st := st }).1 := by rw [hgs]
  intro t htm
  have hops : run.ops = run.tiles.flatMap TileRecord.ops ++ run.finalOps := rfl
  rw [hops, createdImages_append, List.mem_append, ht]
  rw [ht] at htm
  rcases runTiles_ImB_created sz a hs gs _ t htm with ⟨_, e2⟩ | h2
  · exact absurd rfl e2
  · exact Or.inl h2

theorem countP_flatMap_indicator {α β : Type} (l : List α) (f : α → List β) (q : β → Bool)
    (p : α → Bool) (h : ∀ x ∈ l, (f x).countP q = if p x = true then 1 else 0) :
    (l.flatMap f).countP q = l.countP p := by
  induction l with
  | nil => simp
  | cons x l ih =>
    have hx := h x (by simp)
    have ih2 := ih (fun z hz => h z (by simp [hz]))
    rw [List.flatMap_cons, List.countP_append, ih2, hx, List.countP_cons]
    omega

theorem countP_map_indicator {α β : Type} (l : List α) (f : α → β) (q : β → Bool)
    (p : α → Bool) (h : ∀ x ∈ l, q (f x) = p x) :
    (l.map f).countP q = l.countP p := by
  induction l with
  | nil => simp
  | cons x l ih =>
    have hx := h x (by simp)
    have ih2 := ih (fun z hz => h z (by simp [hz]))
    simp only [List.map_cons, List.countP_cons, ih2, hx]

/-- No tile starting beyond `i` contains `i`. -/
theorem countP_tileStarts_zero (D b i : Int) (hb : 1 ≤ b) :
    ∀ (n : Nat) (s0 : Int), i < s0 →
      (tileStarts n s0 b).countP (fun s => decide (s ≤ i ∧ i < s + min (D - s) b)) = 0 := by
  intro n
  induction n with
  | zero => intro s0 _; rfl
  | succ n ih =>
    intro s0 h
    have h1 := ih (s0 + b) (by omega)
    have h2 : ¬ (s0 ≤ i ∧ i < s0 + min (D - s0) b) := by omega
    simp only [tileStarts, List.countP_cons, h1, h2, decide_False]
    simp

/-- Exactly one of the tiles along an axis contains a given index of the axis. -/
theorem countP_tileStarts_one (D b i : Int) (hb : 1 ≤ b) (hi : i < D) :
    ∀ (n : Nat) (s0 : Int), s0 ≤ i → D ≤ s0 + ((n : Int) + 1) * b →
      (tileStarts (n + 1) s0 b).countP (fun s => decide (s ≤ i ∧ i < s + min (D - s) b)) = 1 := by
  intro n
  induction n with
  | zero =>
    intro s0 h0 hD
    have h2 : s0 ≤ i ∧ i < s0 + min (D - s0) b := by
      simp at hD; omega
    simp [tileStarts, List.countP_cons, h2]
  | succ n ih =>
    intro s0 h0 hD
    have e : (((n + 1 : Nat) : Int) + 1) * b = ((n : Int) + 1) * b + b := by push_cast; ring
    rw [e] at hD
    by_cases hc : i < s0 + b
    · have h2 : s0 ≤ i ∧ i < s0 + min (D - s0) b := by omega
      have h1 := countP_tileStarts_zero D b i hb (n + 1) (s0 + b) hc
      have e2 : tileStarts (n + 1 + 1) s0 b = s0 :: tileStarts (n + 1) (s0 + b) b := rfl
      rw [e2, List.countP_cons, h1]
      simp [h2]
    · have h2 : ¬ (s0 ≤ i ∧ i < s0 + min (D - s0) b) := by omega
      have h1 := ih (s0 + b) (by omega) (by omega)
      have e2 : tileStarts (n + 1 + 1) s0 b = s0 :: tileStarts (n + 1) (s0 + b) b := rfl
      rw [e2, List.countP_cons, h1]
      simp [h2]

theorem countP_tileStarts_axis (D b i : Int) (hD : 1 ≤ D) (hb : 1 ≤ b) (h0 : 0 ≤ i)
    (hi : i < D) :
    (tileStarts (numTiles D b) 0 b).countP
      (fun s => decide (s ≤ i ∧ i < s + min (D - s) b)) = 1 := by
  obtain ⟨h1, h2, h3⟩ := numTiles_spec D b hD hb
  obtain ⟨n, hn⟩ : ∃ n, numTiles D b = n + 1 := ⟨numTiles D b - 1, by omega⟩
  rw [hn] at h3 ⊢
  exact countP_tileStarts_one D b i hb hi n 0 h0 (by push_cast at h3; omega)

/-- Exactly one K block of an output tile starts at 0. -/
theorem countP_tileStarts_first (b : Int) (hb : 1 ≤ b) (n : Nat) (hn : 1 ≤ n) :
    (tileStarts n 0 b).countP (fun s => decide (s = 0)) = 1 := by
  obtain ⟨m, rfl⟩ : ∃ m, n = m + 1 := ⟨n - 1, by omega⟩
  have hz : ∀ (k : Nat) (s0 : Int), 0 < s0 →
      (tileStarts k s0 b).countP (fun s => decide (s = 0)) = 0 := by
    intro k
    induction k with
    | zero => intro s0 _; rfl
    | succ k ih =>
      intro s0 h
      have h1 := ih (s0 + b) (by omega)
      have h2 : ¬ (s0 = 0) := by omega
      simp only [tileStarts, List.countP_cons, h1, h2, decide_False]
      simp
  have e2 : tileStarts (m + 1) 0 b = 0 :: tileStarts m (0 + b) b := rfl
  rw [e2, List.countP_cons, hz m (0 + b) (by omega)]
  simp

theorem numTiles_2500 : numTiles 2500 1024 = 3 := by decide

theorem numTiles_1000 : numTiles 1000 1024 = 1 := by decide

/-- The fields of the pass at `(y, x, k)` in terms of the three cursors. -/
theorem geomAt_fields {Dtype : Type} (a : GemmArgs Dtype) (y x k : Int) :
    (geomAt a y x k).v.C_start_y = y ∧ (geomAt a y x k).v.C_start_x = x ∧
    (geomAt a y x k).k = k ∧
    (geomAt a y x k).isFirstColBlock = (if k = 0 then 1 else 0) ∧
    (geomAt a y x k).v.blockC_height = min (a.M - y) (blocksize a) ∧
    (geomAt a y x k).v.blockC_width = min (a.N - x) (blocksize a) ∧
    (geomAt a y x k).block_Ksize = min (a.K - k) (blocksize a) ∧
    (geomAt a y x k).v.blockA_width =
      (if a.TransA = CBLAS_TRANSPOSE.CblasNoTrans then min (a.K - k) (blocksize a)
       else min (a.M - y) (blocksize a)) ∧
    (geomAt a y x k).v.blockA_height =
      (if a.TransA = CBLAS_TRANSPOSE.CblasNoTrans then min (a.M - y) (blocksize a)
       else min (a.K - k) (blocksize a)) ∧
    (geomAt a y x k).v.blockB_width =
      (if a.TransB = CBLAS_TRANSPOSE.CblasNoTrans then min (a.N - x) (blocksize a)
       else min (a.K - k) (blocksize a)) ∧
    (geomAt a y x k).v.blockB_height =
      (if a.TransB = CBLAS_TRANSPOSE.CblasNoTrans then min (a.K - k) (blocksize a)
       else min (a.N - x) (blocksize a)) ∧
    (geomAt a y x k).v.A_start_x =
      (if a.TransA = CBLAS_TRANSPOSE.CblasNoTrans then k else y) ∧
    (geomAt a y x k).v.A_start_y =
      (if a.TransA = CBLAS_TRANSPOSE.CblasNoTrans then y else k) ∧
    (geomAt a y x k).v.B_start_x =
      (if a.TransB = CBLAS_TRANSPOSE.CblasNoTrans then x else k) ∧
    (geomAt a y x k).v.B_start_y =
      (if a.TransB = CBLAS_TRANSPOSE.CblasNoTrans then k else x) := by
  cases hA : a.TransA <;> cases hB : a.TransB <;>
    simp [geomAt, tileGeom, cursorAt, blockSizes, widthA, heightA, widthB, heightB, hA, hB]

/-- C2: an accepted call with `M, N, K ≥ 1` and tile edge `b ≥ 1` returns having enqueued
exactly `⌈M/b⌉ * ⌈N/b⌉ * ⌈K/b⌉` launches of the compute kernel, whatever the
transpose flags: among its OpenCL calls the launches of `kernel_name` are the
compute launches of its passes, one per pass, and every other kernel it launches
is one of the two layout-conversion kernels of the staging step.  That is 1 launch
for `M = N = K = 1000`, `b = 1024`, and 27 for `M = N = K = 2500`, `b = 1024`. -/
theorem C2_launch_count {Dtype : Type} [DecidableEq Dtype] [Zero Dtype] [One Dtype]
    (sz : Int) (fuel : Nat) (st : CLState) (a : GemmArgs Dtype)
    (hacc : Accepted a) (hM : 1 ≤ a.M) (hN : 1 ≤ a.N) (hK : 1 ≤ a.K) (hb : 1 ≤ blocksize a)
    (hfuel : a.M * a.N + a.K < (fuel : Int)) :
    ∃ run, ocl4dnnFastImageGEMM sz fuel st a = Outcome.ok run ∧
      (((launchesOf (kernel_name a) run.ops).length : Nat) : Int) =
        ⌈(a.M : ℚ) / (blocksize a : ℚ)⌉ * ⌈(a.N : ℚ) / (blocksize a : ℚ)⌉ *
          ⌈(a.K : ℚ) / (blocksize a : ℚ)⌉ ∧
      (a.M = 1000 → a.N = 1000 → a.K = 1000 → blocksize a = 1024 →
        (launchesOf (kernel_name a) run.ops).length = 1) ∧
      (a.M = 2500 → a.N = 2500 → a.K = 2500 → blocksize a = 1024 →
        (launchesOf (kernel_name a) run.ops).length = 27) ∧
      launchesOf (kernel_name a) run.ops = run.tiles.map (fun t => t.launch) ∧
      (∀ t ∈ run.tiles,
        t.launch = CLOp.clEnqueueNDRangeKernel (kernel_name a) t.args t.global t.localSize
          t.ev.length t.wait_list (some t.launchEvent)) ∧
      (∀ name ∈ run.ops.filterMap CLOp.launchedKernel,
        name = kernel_name a ∨ name = "gemm_buffer_copy_image_transpose_float" ∨
        name = "gemm_buffer_copy_image_no_transpose_float") := by
  obtain ⟨run, hrun, ht, _, _⟩ := gemm_returns sz fuel st a hacc hM hN hK hb hfuel
  obtain ⟨hl, hother⟩ := gemm_launches sz fuel st a run hrun
  have hlen : (launchesOf (kernel_name a) run.ops).length =
      numTiles a.M (blocksize a) * numTiles a.N (blocksize a) * numTiles a.K (blocksize a) := by
    rw [hl, List.length_map, ht, runTiles_length, gridGeoms_length]
  refine ⟨run, hrun, ?_, ?_, ?_, hl, ?_, hother⟩
  · rw [hlen, ← numTiles_eq_ceil a.M _ hM hb, ← numTiles_eq_ceil a.N _ hN hb,
      ← numTiles_eq_ceil a.K _ hK hb]
    push_cast; rfl
  · intro h1 h2 h3 h4
    rw [hlen, h1, h2, h3, h4, numTiles_1000]
  · intro h1 h2 h3 h4
    rw [hlen, h1, h2, h3, h4, numTiles_2500]
  · intro t htm
    rw [ht] at htm
    obtain ⟨g, _, r1, rfl⟩ := mem_runTiles sz a _ _ t htm
    rfl

/-- Exactly one outer pass of the grid has an output tile containing `(i, j)`. -/
theorem gridGeoms_cover_once {Dtype : Type} (a : GemmArgs Dtype) (hM : 1 ≤ a.M) (hN : 1 ≤ a.N)
    (hK : 1 ≤ a.K) (hb : 1 ≤ blocksize a) (i j : Int) (hi0 : 0 ≤ i) (hi : i < a.M)
    (hj0 : 0 ≤ j) (hj : j < a.N) :
    (gridGeoms a).countP (fun g => decide (g.isFirstColBlock = 1) && g.covers i j) = 1 := by
  have hk1 := (numTiles_spec a.K (blocksize a) hK hb).1
  have hcov : ∀ y x k, (geomAt a y x k).covers i j =
      (decide (y ≤ i ∧ i < y + min (a.M - y) (blocksize a)) &&
        decide (x ≤ j ∧ j < x + min (a.N - x) (blocksize a))) := by
    intro y x k
    obtain ⟨h1, h2, _, _, h5, h6, _⟩ := geomAt_fields a y x k
    unfold TileGeom.covers
    rw [h1, h2, h5, h6, ← Bool.decide_and]
    congr 1
    apply propext
    constructor
    · rintro ⟨p1, p2, p3, p4⟩; exact ⟨⟨p1, p2⟩, p3, p4⟩
    · rintro ⟨⟨p1, p2⟩, p3, p4⟩; exact ⟨p1, p2, p3, p4⟩
  have htile : ∀ y x, (tileGeoms a y x).countP
      (fun g => decide (g.isFirstColBlock = 1) && g.covers i j) =
      if (decide (y ≤ i ∧ i < y + min (a.M - y) (blocksize a)) &&
        decide (x ≤ j ∧ j < x + min (a.N - x) (blocksize a))) = true then 1 else 0 := by
    intro y x
    unfold tileGeoms
    by_cases hc : (decide (y ≤ i ∧ i < y + min (a.M - y) (blocksize a)) &&
        decide (x ≤ j ∧ j < x + min (a.N - x) (blocksize a))) = true
    · rw [if_pos hc, countP_map_indicator _ _ _ (fun s => decide (s = 0)),
        countP_tileStarts_first _ hb _ hk1]
      intro k _
      rw [hcov, hc, (geomAt_fields a y x k).2.2.2.1]
      by_cases hk0 : k = 0 <;> simp [hk0]
    · rw [if_neg hc, countP_map_indicator _ _ _ (fun _ => false)]
      · simp
      · intro k _
        rw [hcov]
        simp only [Bool.not_eq_true] at hc
        rw [hc]; simp
  have hrow : ∀ y, ((tileStarts (numTiles a.N (blocksize a)) 0 (blocksize a)).flatMap
      (tileGeoms a y)).countP (fun g => decide (g.isFirstColBlock = 1) && g.covers i j) =
      if decide (y ≤ i ∧ i < y + min (a.M - y) (blocksize a)) = true then 1 else 0 := by
    intro y
    by_cases hy : (y ≤ i ∧ i < y + min (a.M - y) (blocksize a))
    · rw [countP_flatMap_indicator _ _ _
        (fun x => decide (x ≤ j ∧ j < x + min (a.N - x) (blocksize a)))]
      · rw [countP_tileStarts_axis a.N _ j hN hb hj0 hj]; simp [hy]
      · intro x _; rw [htile]; simp [hy]
    · rw [countP_flatMap_indicator _ _ _ (fun _ => false)]
      · simp [hy]
      · intro x _; rw [htile]; simp [hy]
  unfold gridGeoms
  rw [countP_flatMap_indicator _ _ _
    (fun y => decide (y ≤ i ∧ i < y + min (a.M - y) (blocksize a))) (fun y _ => hrow y)]
  exact countP_tileStarts_axis a.M _ i hM hb hi0 hi

/-- C3: for an accepted call with `M, N, K ≥ 1` and tile edge `b ≥ 1`, the output tiles
of the outer loop partition the `M x N` output: every tile lies inside the output,
and every output element is in the tile of exactly one outer pass (an outer pass is
counted at its first K block). -/
theorem C3_output_tiles_partition {Dtype : Type} [DecidableEq Dtype] [Zero Dtype] [One Dtype]
    (sz : Int) (fuel : Nat) (st : CLState) (a : GemmArgs Dtype)
    (hacc : Accepted a) (hM : 1 ≤ a.M) (hN : 1 ≤ a.N) (hK : 1 ≤ a.K) (hb : 1 ≤ blocksize a)
    (hfuel : a.M * a.N + a.K < (fuel : Int)) :
    ∃ run, ocl4dnnFastImageGEMM sz fuel st a = Outcome.ok run ∧
      (∀ t ∈ run.tiles,
        0 ≤ t.geom.v.C_start_y ∧ 1 ≤ t.geom.v.blockC_height ∧
        t.geom.v.C_start_y + t.geom.v.blockC_height ≤ a.M ∧
        0 ≤ t.geom.v.C_start_x ∧ 1 ≤ t.geom.v.blockC_width ∧
        t.geom.v.C_start_x + t.geom.v.blockC_width ≤ a.N) ∧
      (∀ i j : Int, 0 ≤ i → i < a.M → 0 ≤ j → j < a.N →
        run.tiles.countP
          (fun t => decide (t.geom.isFirstColBlock = 1) && t.geom.covers i j) = 1) := by
  obtain ⟨run, hrun, hg, hat⟩ := gemm_tile_at sz fuel st a hacc hM hN hK hb hfuel
  refine ⟨run, hrun, ?_, ?_⟩
  · intro t ht
    obtain ⟨y, hy, x, hx, k, _, r1, rfl⟩ := hat t ht
    obtain ⟨y1, y2, y3, y4, y5, _⟩ := tileStart_extent a.M _ y hM hb hy
    obtain ⟨x1, x2, x3, x4, x5, _⟩ := tileStart_extent a.N _ x hN hb hx
    obtain ⟨h1, h2, _, _, h5, h6, _⟩ := geomAt_fields a y x k
    rw [tileBody_geom, h1, h2, h5, h6]
    exact ⟨y1, y3, y5, x1, x3, x5⟩
  · intro i j hi0 hi hj0 hj
    have := gridGeoms_cover_once a hM hN hK hb i j hi0 hi hj0 hj
    rw [← hg, List.countP_map] at this
    exact this

/-- The tiles of an axis of extent 2500 with tile edge 1024. -/
theorem tileStart_2500 (s : Int) (h : s ∈ tileStarts (numTiles 2500 1024) 0 1024) :
    (s = 0 ∧ min (2500 - s) 1024 = 1024) ∨ (s = 1024 ∧ min (2500 - s) 1024 = 1024) ∨
    (s = 2048 ∧ min (2500 - s) 1024 = 452) := by
  rw [numTiles_2500] at h
  simp only [tileStarts, List.mem_cons, List.mem_nil_iff, or_false] at h
  rcases h with h | h | h <;> subst h <;> decide

/-- C4: for an accepted call with `M, N, K ≥ 1` and tile edge `b ≥ 1`, at every compute
launch each of the seven block extents is between 1 and `b`; the A and B extents are
the output and K extents placed by the transpose flags; and along each axis of extent
`D` the tile with index `i` has extent `b`, except the last (`i + 1 = ⌈D/b⌉`), whose
extent is `D - b * (⌈D/b⌉ - 1)`.  For `D = 2500`, `b = 1024` the extents are 1024,
1024, 452. -/
theorem C4_block_extents {Dtype : Type} [DecidableEq Dtype] [Zero Dtype] [One Dtype]
    (sz : Int) (fuel : Nat) (st : CLState) (a : GemmArgs Dtype)
    (hacc : Accepted a) (hM : 1 ≤ a.M) (hN : 1 ≤ a.N) (hK : 1 ≤ a.K) (hb : 1 ≤ blocksize a)
    (hfuel : a.M * a.N + a.K < (fuel : Int)) :
    ∃ run, ocl4dnnFastImageGEMM sz fuel st a = Outcome.ok run ∧
      ∀ t ∈ run.tiles,
        (1 ≤ t.geom.v.blockA_width ∧ t.geom.v.blockA_width ≤ blocksize a) ∧
        (1 ≤ t.geom.v.blockA_height ∧ t.geom.v.blockA_height ≤ blocksize a) ∧
        (1 ≤ t.geom.v.blockB_width ∧ t.geom.v.blockB_width ≤ blocksize a) ∧
        (1 ≤ t.geom.v.blockB_height ∧ t.geom.v.blockB_height ≤ blocksize a) ∧
        (1 ≤ t.geom.v.blockC_width ∧ t.geom.v.blockC_width ≤ blocksize a) ∧
        (1 ≤ t.geom.v.blockC_height ∧ t.geom.v.blockC_height ≤ blocksize a) ∧
        (1 ≤ t.geom.block_Ksize ∧ t.geom.block_Ksize ≤ blocksize a) ∧
        t.geom.v.blockA_width =
          (if a.TransA = CBLAS_TRANSPOSE.CblasNoTrans then t.geom.block_Ksize
           else t.geom.v.blockC_height) ∧
        t.geom.v.blockA_height =
          (if a.TransA = CBLAS_TRANSPOSE.CblasNoTrans then t.geom.v.blockC_height
           else t.geom.block_Ksize) ∧
        t.geom.v.blockB_width =
          (if a.TransB = CBLAS_TRANSPOSE.CblasNoTrans then t.geom.v.blockC_width
           else t.geom.block_Ksize) ∧
        t.geom.v.blockB_height =
          (if a.TransB = CBLAS_TRANSPOSE.CblasNoTrans then t.geom.block_Ksize
           else t.geom.v.blockC_width) ∧
        (∃ i : Nat, ((i : Int) < ⌈(a.M : ℚ) / (blocksize a : ℚ)⌉) ∧
          t.geom.v.C_start_y = (i : Int) * blocksize a ∧
          t.geom.v.blockC_height =
            if (i : Int) + 1 = ⌈(a.M : ℚ) / (blocksize a : ℚ)⌉ then
              a.M - blocksize a * (⌈(a.M : ℚ) / (blocksize a : ℚ)⌉ - 1)
            else blocksize a) ∧
        (∃ i : Nat, ((i : Int) < ⌈(a.N : ℚ) / (blocksize a : ℚ)⌉) ∧
          t.geom.v.C_start_x = (i : Int) * blocksize a ∧
          t.geom.v.blockC_width =
            if (i : Int) + 1 = ⌈(a.N : ℚ) / (blocksize a : ℚ)⌉ then
              a.N - blocksize a * (⌈(a.N : ℚ) / (blocksize a : ℚ)⌉ - 1)
            else blocksize a) ∧
        (∃ i : Nat, ((i : Int) < ⌈(a.K : ℚ) / (blocksize a : ℚ)⌉) ∧
          t.geom.k = (i : Int) * blocksize a ∧
          t.geom.block_Ksize =
            if (i : Int) + 1 = ⌈(a.K : ℚ) / (blocksize a : ℚ)⌉ then
              a.K - blocksize a * (⌈(a.K : ℚ) / (blocksize a : ℚ)⌉ - 1)
            else blocksize a) ∧
        (a.M = 2500 → blocksize a = 1024 →
          (t.geom.v.C_start_y = 0 ∧ t.geom.v.blockC_height = 1024) ∨
          (t.geom.v.C_start_y = 1024 ∧ t.geom.v.blockC_height = 1024) ∨
          (t.geom.v.C_start_y = 2048 ∧ t.geom.v.blockC_height = 452)) ∧
        (a.N = 2500 → blocksize a = 1024 →
          (t.geom.v.C_start_x = 0 ∧ t.geom.v.blockC_width = 1024) ∨
          (t.geom.v.C_start_x = 1024 ∧ t.geom.v.blockC_width = 1024) ∨
          (t.geom.v.C_start_x = 2048 ∧ t.geom.v.blockC_width = 452)) ∧
        (a.K = 2500 → blocksize a = 1024 →
          (t.geom.k = 0 ∧ t.geom.block_Ksize = 1024) ∨
          (t.geom.k = 1024 ∧ t.geom.block_Ksize = 1024) ∨
          (t.geom.k = 2048 ∧ t.geom.block_Ksize = 452)) := by
  obtain ⟨run, hrun, _, hat⟩ := gemm_tile_at sz fuel st a hacc hM hN hK hb hfuel
  refine ⟨run, hrun, ?_⟩
  intro t ht
  obtain ⟨y, hy, x, hx, k, hk, r1, rfl⟩ := hat t ht
  obtain ⟨y1, y2, y3, y4, y5, iy, hiy, hys, hye⟩ := tileStart_extent a.M _ y hM hb hy
  obtain ⟨x1, x2, x3, x4, x5, ix, hix, hxs, hxe⟩ := tileStart_extent a.N _ x hN hb hx
  obtain ⟨k1, k2, k3, k4, k5, ik, hik, hks, hke⟩ := tileStart_extent a.K _ k hK hb hk
  obtain ⟨h1, h2, h3, _, h5, h6, h7, h8, h9, h10, h11, _⟩ := geomAt_fields a y x k
  have cM := numTiles_eq_ceil a.M _ hM hb
  have cN := numTiles_eq_ceil a.N _ hN hb
  have cK := numTiles_eq_ceil a.K _ hK hb
  rw [tileBody_geom, h1, h2, h3, h5, h6, h7, h8, h9, h10, h11, ← cM, ← cN, ← cK]
  refine ⟨?_, ?_, ?_, ?_, ⟨x3, x4⟩, ⟨y3, y4⟩, ⟨k3, k4⟩, rfl, rfl, rfl, rfl, ?_, ?_, ?_, ?_, ?_, ?_⟩
  · split <;> constructor <;> assumption
  · split <;> constructor <;> assumption
  · split <;> constructor <;> assumption
  · split <;> constructor <;> assumption
  · refine ⟨iy, by exact_mod_cast hiy, hys, ?_⟩
    rw [hye]
    by_cases hl : iy + 1 = numTiles a.M (blocksize a)
    · rw [if_pos hl, if_pos (by exact_mod_cast hl)]
    · rw [if_neg hl, if_neg (by exact_mod_cast hl)]
  · refine ⟨ix, by exact_mod_cast hix, hxs, ?_⟩
    rw [hxe]
    by_cases hl : ix + 1 = numTiles a.N (blocksize a)
    · rw [if_pos hl, if_pos (by exact_mod_cast hl)]
    · rw [if_neg hl, if_neg (by exact_mod_cast hl)]
  · refine ⟨ik, by exact_mod_cast hik, hks, ?_⟩
    rw [hke]
    by_cases hl : ik + 1 = numTiles a.K (blocksize a)
    · rw [if_pos hl, if_pos (by exact_mod_cast hl)]
    · rw [if_neg hl, if_neg (by exact_mod_cast hl)]
  · intro e1 e2
    rw [e1, e2] at hy ⊢
    exact tileStart_2500 y hy
  · intro e1 e2
    rw [e1, e2] at hx ⊢
    exact tileStart_2500 x hx
  · intro e1 e2
    rw [e1, e2] at hk ⊢
    exact tileStart_2500 k hk

/-- C5: for an accepted call with `M, N, K ≥ 1` and tile edge `b ≥ 1`, at the pass whose
output tile starts at row `r = C_start_y`, column `c = C_start_x` and whose K block
starts at `k`, the offsets `base + start_row * leading_dimension + start_col` are
`offA + r*K + k` (A not transposed) or `offA + k*M + r` (A transposed),
`offB + k*N + c` (B not transposed) or `offB + c*K + k` (B transposed), and
`offC + r*N + c`; each staging call is passed the offset of its operand. -/
theorem C5_tile_offsets {Dtype : Type} [DecidableEq Dtype] [Zero Dtype] [One Dtype]
    (sz : Int) (fuel : Nat) (st : CLState) (a : GemmArgs Dtype)
    (hacc : Accepted a) (hM : 1 ≤ a.M) (hN : 1 ≤ a.N) (hK : 1 ≤ a.K) (hb : 1 ≤ blocksize a)
    (hfuel : a.M * a.N + a.K < (fuel : Int)) :
    ∃ run, ocl4dnnFastImageGEMM sz fuel st a = Outcome.ok run ∧
      ∀ t ∈ run.tiles,
        t.geom.blockA_offset = a.offA + t.geom.v.A_start_y * ldA a + t.geom.v.A_start_x ∧
        t.geom.blockB_offset = a.offB + t.geom.v.B_start_y * ldB a + t.geom.v.B_start_x ∧
        t.geom.blockC_offset = a.offC + t.geom.v.C_start_y * ldC a + t.geom.v.C_start_x ∧
        t.geom.blockA_offset =
          (if a.TransA = CBLAS_TRANSPOSE.CblasNoTrans then
            a.offA + t.geom.v.C_start_y * a.K + t.geom.k
           else a.offA + t.geom.k * a.M + t.geom.v.C_start_y) ∧
        t.geom.blockB_offset =
          (if a.TransB = CBLAS_TRANSPOSE.CblasNoTrans then
            a.offB + t.geom.k * a.N + t.geom.v.C_start_x
           else a.offB + t.geom.v.C_start_x * a.K + t.geom.k) ∧
        t.geom.blockC_offset = a.offC + t.geom.v.C_start_y * a.N + t.geom.v.C_start_x ∧
        (∀ c ∈ t.calls,
          c.offset = if c.is_matrix_a = true then t.geom.blockA_offset
            else t.geom.blockB_offset) := by
  obtain ⟨run, hrun, _, hat⟩ := gemm_tile_at sz fuel st a hacc hM hN hK hb hfuel
  refine ⟨run, hrun, ?_⟩
  intro t ht
  obtain ⟨y, _, x, _, k, _, r1, rfl⟩ := hat t ht
  refine ⟨rfl, rfl, rfl, ?_, ?_, ?_, ?_⟩
  · cases hA : a.TransA <;>
      simp [tileBody, geomAt, tileGeom, cursorAt, blockSizes, ldA, widthA, hA]
  · cases hB : a.TransB <;>
      simp [tileBody, geomAt, tileGeom, cursorAt, blockSizes, ldB, widthB, hB]
  · simp [tileBody, geomAt, tileGeom, cursorAt, blockSizes, ldC]
  · intro c hc
    cases hB : a.TransB <;> cases hia : a.is_image_a <;> cases hib : a.is_image_b <;>
      cases hkm : kNotMultiple a <;>
      simp [tileBody, stageOperands, stageA, stageB, hB, hia, hib, hkm] at hc ⊢ <;>
      (try rcases hc with hc | hc) <;> (try subst hc) <;> simp

/-- Witness of C2: the sample call with `M = N = K = 2500` and tile edge 1024 returns
having enqueued 27 launches of `gemm_32_1_NT_SCALAR_1_0_float` (2500 is not a
multiple of 8). -/
theorem C2_launch_count_witness :
    Accepted (sampleArgs CBLAS_TRANSPOSE.CblasNoTrans CBLAS_TRANSPOSE.CblasTrans 2500 2500 2500
      gemm_type_t.GEMM_TYPE_FAST_IMAGE_32_1 0) ∧
    ∃ run, ocl4dnnFastImageGEMM 4 6252501 { nextImage := 0, nextEvent := 0 }
        (sampleArgs CBLAS_TRANSPOSE.CblasNoTrans CBLAS_TRANSPOSE.CblasTrans 2500 2500 2500
          gemm_type_t.GEMM_TYPE_FAST_IMAGE_32_1 0) = Outcome.ok run ∧
      (launchesOf "gemm_32_1_NT_SCALAR_1_0_float" run.ops).length = 27 := by
  have hacc : Accepted (sampleArgs CBLAS_TRANSPOSE.CblasNoTrans CBLAS_TRANSPOSE.CblasTrans
      2500 2500 2500 gemm_type_t.GEMM_TYPE_FAST_IMAGE_32_1 0) := by
    simp [Accepted, sampleArgs]
  have hname : kernel_name (sampleArgs CBLAS_TRANSPOSE.CblasNoTrans CBLAS_TRANSPOSE.CblasTrans
      2500 2500 2500 gemm_type_t.GEMM_TYPE_FAST_IMAGE_32_1 0) =
      "gemm_32_1_NT_SCALAR_1_0_float" := by decide
  obtain ⟨run, h, _, _, h27, _⟩ := C2_launch_count 4 6252501 { nextImage := 0, nextEvent := 0 }
    (sampleArgs CBLAS_TRANSPOSE.CblasNoTrans CBLAS_TRANSPOSE.CblasTrans 2500 2500 2500
      gemm_type_t.GEMM_TYPE_FAST_IMAGE_32_1 0) hacc (by decide) (by decide) (by decide)
    (by decide) (by decide)
  rw [hname] at h27
  exact ⟨hacc, run, h, h27 rfl rfl rfl rfl⟩

/-- Witness of C3: in the sample call with `M = 5`, `N = 3`, `K = 7` and tile edge 2 the
output element `(4, 2)` lies in the tile of exactly one outer pass. -/
theorem C3_output_tiles_partition_witness :
    Accepted (sampleArgs CBLAS_TRANSPOSE.CblasTrans CBLAS_TRANSPOSE.CblasNoTrans 5 3 7
      gemm_type_t.GEMM_TYPE_FAST_IMAGE_B_IMAGE 2) ∧
    ∃ run, ocl4dnnFastImageGEMM 4 23 { nextImage := 0, nextEvent := 0 }
        (sampleArgs CBLAS_TRANSPOSE.CblasTrans CBLAS_TRANSPOSE.CblasNoTrans 5 3 7
          gemm_type_t.GEMM_TYPE_FAST_IMAGE_B_IMAGE 2) = Outcome.ok run ∧
      run.tiles.countP
        (fun t => decide (t.geom.isFirstColBlock = 1) && t.geom.covers 4 2) = 1 := by
  have hacc : Accepted (sampleArgs CBLAS_TRANSPOSE.CblasTrans CBLAS_TRANSPOSE.CblasNoTrans
      5 3 7 gemm_type_t.GEMM_TYPE_FAST_IMAGE_B_IMAGE 2) := by
    simp [Accepted, sampleArgs]
  obtain ⟨run, h, _, hc⟩ := C3_output_tiles_partition 4 23 { nextImage := 0, nextEvent := 0 }
    (sampleArgs CBLAS_TRANSPOSE.CblasTrans CBLAS_TRANSPOSE.CblasNoTrans 5 3 7
      gemm_type_t.GEMM_TYPE_FAST_IMAGE_B_IMAGE 2) hacc (by decide) (by decide) (by decide)
    (by decide) (by decide)
  exact ⟨hacc, run, h, hc 4 2 (by decide) (by decide) (by decide) (by decide)⟩

/-- Witness of C4: in the sample call with `M = N = K = 2500` and tile edge 1024 every
pass has an output height of 1024 or, in the last tile row, 452. -/
theorem C4_block_extents_witness :
    Accepted (sampleArgs CBLAS_TRANSPOSE.CblasTrans CBLAS_TRANSPOSE.CblasTrans 2500 2500 2500
      gemm_type_t.GEMM_TYPE_FAST_IMAGE_32_2 0) ∧
    ∃ run, ocl4dnnFastImageGEMM 4 6252501 { nextImage := 0, nextEvent := 0 }
        (sampleArgs CBLAS_TRANSPOSE.CblasTrans CBLAS_TRANSPOSE.CblasTrans 2500 2500 2500
          gemm_type_t.GEMM_TYPE_FAST_IMAGE_32_2 0) = Outcome.ok run ∧
      ∀ t ∈ run.tiles,
        (t.geom.v.C_start_y = 0 ∧ t.geom.v.blockC_height = 1024) ∨
        (t.geom.v.C_start_y = 1024 ∧ t.geom.v.blockC_height = 1024) ∨
        (t.geom.v.C_start_y = 2048 ∧ t.geom.v.blockC_height = 452) := by
  have hacc : Accepted (sampleArgs CBLAS_TRANSPOSE.CblasTrans CBLAS_TRANSPOSE.CblasTrans
      2500 2500 2500 gemm_type_t.GEMM_TYPE_FAST_IMAGE_32_2 0) := by
    simp [Accepted, sampleArgs]
  obtain ⟨run, h, ht⟩ := C4_block_extents 4 6252501 { nextImage := 0, nextEvent := 0 }
    (sampleArgs CBLAS_TRANSPOSE.CblasTrans CBLAS_TRANSPOSE.CblasTrans 2500 2500 2500
      gemm_type_t.GEMM_TYPE_FAST_IMAGE_32_2 0) hacc (by decide) (by decide) (by decide)
    (by decide) (by decide)
  exact ⟨hacc, run, h, fun t htm => (ht t htm).2.2.2.2.2.2.2.2.2.2.2.2.2.2.1 rfl rfl⟩

/-- Witness of C5: in the sample call with `M = 5`, `N = 3`, `K = 7`, tile edge 2, A
transposed and B not, every pass has `blockC_offset = C_start_y * 3 + C_start_x`. -/
theorem C5_tile_offsets_witness :
    Accepted (sampleArgs CBLAS_TRANSPOSE.CblasTrans CBLAS_TRANSPOSE.CblasNoTrans 5 3 7
      gemm_type_t.GEMM_TYPE_FAST_IMAGE_B_IMAGE 2) ∧
    ∃ run, ocl4dnnFastImageGEMM 4 23 { nextImage := 0, nextEvent := 0 }
        (sampleArgs CBLAS_TRANSPOSE.CblasTrans CBLAS_TRANSPOSE.CblasNoTrans 5 3 7
          gemm_type_t.GEMM_TYPE_FAST_IMAGE_B_IMAGE 2) = Outcome.ok run ∧
      ∀ t ∈ run.tiles,
        t.geom.blockC_offset = 0 + t.geom.v.C_start_y * 3 + t.geom.v.C_start_x ∧
        t.geom.blockA_offset = 0 + t.geom.k * 5 + t.geom.v.C_start_y ∧
        t.geom.blockB_offset = 0 + t.geom.k * 3 + t.geom.v.C_start_x := by
  have hacc : Accepted (sampleArgs CBLAS_TRANSPOSE.CblasTrans CBLAS_TRANSPOSE.CblasNoTrans
      5 3 7 gemm_type_t.GEMM_TYPE_FAST_IMAGE_B_IMAGE 2) := by
    simp [Accepted, sampleArgs]
  obtain ⟨run, h, ht⟩ := C5_tile_offsets 4 23 { nextImage := 0, nextEvent := 0 }
    (sampleArgs CBLAS_TRANSPOSE.CblasTrans CBLAS_TRANSPOSE.CblasNoTrans 5 3 7
      gemm_type_t.GEMM_TYPE_FAST_IMAGE_B_IMAGE 2) hacc (by decide) (by decide) (by decide)
    (by decide) (by decide)
  exact ⟨hacc, run, h, fun t htm =>
    ⟨(ht t htm).2.2.2.2.2.1, (ht t htm).2.2.2.1, (ht t htm).2.2.2.2.1⟩⟩

theorem kNotMultiple_iff {Dtype : Type} (a : GemmArgs Dtype) :
    kNotMultiple a = true ↔ ¬ ((8 : Int) ∣ a.K) := by
  unfold kNotMultiple use_buffer_indicator
  rw [decide_eq_true_iff, Int.dvd_iff_tmod_eq_zero]

/-- C6 fails as stated: two sample calls with the same transpose flags, alpha and beta
(and the same `gemm_type`, `M` and `N`) select different kernels when `K` is 8 and
when `K` is 7, and two that differ only in `gemm_type` do so as well. -/
theorem C6_kernel_name_counterexample :
    (sampleArgs CBLAS_TRANSPOSE.CblasNoTrans CBLAS_TRANSPOSE.CblasTrans 4 4 8
        gemm_type_t.GEMM_TYPE_FAST_IMAGE_32_1 0).alpha =
      (sampleArgs CBLAS_TRANSPOSE.CblasNoTrans CBLAS_TRANSPOSE.CblasTrans 4 4 7
        gemm_type_t.GEMM_TYPE_FAST_IMAGE_32_1 0).alpha ∧
    (sampleArgs CBLAS_TRANSPOSE.CblasNoTrans CBLAS_TRANSPOSE.CblasTrans 4 4 8
        gemm_type_t.GEMM_TYPE_FAST_IMAGE_32_1 0).beta =
      (sampleArgs CBLAS_TRANSPOSE.CblasNoTrans CBLAS_TRANSPOSE.CblasTrans 4 4 7
        gemm_type_t.GEMM_TYPE_FAST_IMAGE_32_1 0).beta ∧
    kernel_name (sampleArgs CBLAS_TRANSPOSE.CblasNoTrans CBLAS_TRANSPOSE.CblasTrans 4 4 8
        gemm_type_t.GEMM_TYPE_FAST_IMAGE_32_1 0) = "gemm_32_1_NT_BUFFER_1_0_float" ∧
    kernel_name (sampleArgs CBLAS_TRANSPOSE.CblasNoTrans CBLAS_TRANSPOSE.CblasTrans 4 4 7
        gemm_type_t.GEMM_TYPE_FAST_IMAGE_32_1 0) = "gemm_32_1_NT_SCALAR_1_0_float" ∧
    kernel_name (sampleArgs CBLAS_TRANSPOSE.CblasNoTrans CBLAS_TRANSPOSE.CblasTrans 4 4 8
        gemm_type_t.GEMM_TYPE_FAST_IMAGE_32_1 0) ≠
      kernel_name (sampleArgs CBLAS_TRANSPOSE.CblasNoTrans CBLAS_TRANSPOSE.CblasTrans 4 4 7
        gemm_type_t.GEMM_TYPE_FAST_IMAGE_32_1 0) ∧
    kernel_name (sampleArgs CBLAS_TRANSPOSE.CblasNoTrans CBLAS_TRANSPOSE.CblasNoTrans 4 4 8
        gemm_type_t.GEMM_TYPE_FAST_IMAGE_32_2 0) = "gemm_32_2_NN_1_0_float" ∧
    kernel_name (sampleArgs CBLAS_TRANSPOSE.CblasNoTrans CBLAS_TRANSPOSE.CblasNoTrans 4 4 8
        gemm_type_t.GEMM_TYPE_FAST_IMAGE_32_1 0) = "gemm_32_1_NN_1_0_float" := by
  decide

/-- C6, amended: the kernel name is a function of the micro-tile shape (`gemm_type` is
32_2 or not), transpose-A, transpose-B, B's representation when B is transposed
(`is_image_b` or `K` not a multiple of 8), `alpha == 1` and `beta == 0`: two calls
that agree on these select the same name, whatever their other arguments. -/
theorem C6_kernel_name_function {Dtype : Type} [DecidableEq Dtype] [Zero Dtype] [One Dtype]
    (a1 a2 : GemmArgs Dtype)
    (hshape : (a1.gemm_type = gemm_type_t.GEMM_TYPE_FAST_IMAGE_32_1 ∨
        a1.gemm_type = gemm_type_t.GEMM_TYPE_FAST_IMAGE_B_IMAGE) ↔
      (a2.gemm_type = gemm_type_t.GEMM_TYPE_FAST_IMAGE_32_1 ∨
        a2.gemm_type = gemm_type_t.GEMM_TYPE_FAST_IMAGE_B_IMAGE))
    (hA : a1.TransA = a2.TransA) (hB : a1.TransB = a2.TransB)
    (hrep : a1.TransB ≠ CBLAS_TRANSPOSE.CblasNoTrans →
      ((a1.is_image_b = true ∨ ¬ ((8 : Int) ∣ a1.K)) ↔
        (a2.is_image_b = true ∨ ¬ ((8 : Int) ∣ a2.K))))
    (halpha : a1.alpha = 1 ↔ a2.alpha = 1) (hbeta : a1.beta = 0 ↔ a2.beta = 0) :
    kernel_name a1 = kernel_name a2 := by
  have hrep2 : a1.TransB ≠ CBLAS_TRANSPOSE.CblasNoTrans →
      (a1.is_image_b || kNotMultiple a1) = (a2.is_image_b || kNotMultiple a2) := by
    intro h
    have := hrep h
    rw [← kNotMultiple_iff, ← kNotMultiple_iff, ← Bool.or_eq_true, ← Bool.or_eq_true] at this
    exact Bool.eq_iff_iff.mpr this
  unfold kernel_name
  rw [← hA, ← hB, if_congr hshape rfl rfl, if_congr halpha rfl rfl, if_congr hbeta rfl rfl]
  by_cases hT : a1.TransB = CBLAS_TRANSPOSE.CblasNoTrans
  · simp only [hT, if_true]
  · simp only [hT, if_false, hrep2 hT]

/-- Witness of C6: two sample calls that differ in `M`, `N`, `K` (7 and 15, neither a
multiple of 8) and in `gemm_type` (32_1 and B_IMAGE, the same shape) select the
same kernel. -/
theorem C6_kernel_name_function_witness :
    kernel_name (sampleArgs CBLAS_TRANSPOSE.CblasNoTrans CBLAS_TRANSPOSE.CblasTrans 4 4 7
        gemm_type_t.GEMM_TYPE_FAST_IMAGE_32_1 0) =
      kernel_name (sampleArgs CBLAS_TRANSPOSE.CblasNoTrans CBLAS_TRANSPOSE.CblasTrans 9 2 15
        gemm_type_t.GEMM_TYPE_FAST_IMAGE_B_IMAGE 64) :=
  C6_kernel_name_function
    (sampleArgs CBLAS_TRANSPOSE.CblasNoTrans CBLAS_TRANSPOSE.CblasTrans 4 4 7
      gemm_type_t.GEMM_TYPE_FAST_IMAGE_32_1 0)
    (sampleArgs CBLAS_TRANSPOSE.CblasNoTrans CBLAS_TRANSPOSE.CblasTrans 9 2 15
      gemm_type_t.GEMM_TYPE_FAST_IMAGE_B_IMAGE 64)
    (by simp [sampleArgs]) rfl rfl (by intro _; simp [sampleArgs]; decide) (by simp [sampleArgs])
    (by simp [sampleArgs])

/-- Every pass of a run started in a state satisfying an invariant of the loop body is
the loop body at a state satisfying it. -/
theorem mem_runTiles_inv {Dtype : Type} [DecidableEq Dtype] [Zero Dtype] [One Dtype]
    (sz : Int) (a : GemmArgs Dtype) (P : Res → Prop)
    (hP : ∀ g r, P r → P (tileBody sz a g r).2) :
    ∀ (gs : List TileGeom) (r : Res) (t : TileRecord Dtype), P r →
      t ∈ (runTiles sz a gs r).1 → ∃ g ∈ gs, ∃ r1, P r1 ∧ t = (tileBody sz a g r1).1 := by
  intro gs
  induction gs with
  | nil => intro r t _ h; simp [runTiles] at h
  | cons g gs ih =>
    intro r t hr h
    simp only [runTiles, List.mem_cons] at h
    rcases h with h | h
    · exact ⟨g, by simp, r, hr, h⟩
    · obtain ⟨g1, hg1, r1, hr1, ht⟩ := ih _ t (hP g r hr) h
      exact ⟨g1, by simp [hg1], r1, hr1, ht⟩

/-- In a returned call every pass is the loop body at a state whose `ImB`, when B is not
supplied as a texture, is null or an image created by the call. -/
theorem gemm_tile_ImB {Dtype : Type} [DecidableEq Dtype] [Zero Dtype] [One Dtype]
    (sz : Int) (fuel : Nat) (st : CLState) (a : GemmArgs Dtype) (run : GemmRun Dtype)
    (h : ocl4dnnFastImageGEMM sz fuel st a = Outcome.ok run) (hib : a.is_image_b = false) :
    ∀ t ∈ run.tiles, ∃ g r1, (r1.ImB = cl_mem.NULL ∨ r1.ImB.isCreated = true) ∧
      t = (tileBody sz a g r1).1 := by
  obtain ⟨gs, hgs, _⟩ := gemm_runTiles sz fuel st a run h
  intro t ht
  have ht2 : t ∈ (runTiles sz a gs { ImA := cl_mem.NULL, ImB := cl_mem.NULL, st := st }).1 := by
    rw [hgs]; exact ht
  obtain ⟨g, _, r1, hr1, rfl⟩ := mem_runTiles_inv sz a
    (fun r => r.ImB = cl_mem.NULL ∨ r.ImB.isCreated = true)
    (by
      intro g r hr
      have := (tileBody_effect sz a g r).2.2.2.2.2.2.2.2.2.2.2.2.1
      rw [this]
      simp only [hib, Bool.false_eq_true, if_false]
      split
      · right; rfl
      · exact hr)
    gs _ t (Or.inl rfl) ht2
  exact ⟨g, r1, hr1, rfl⟩

/-- C7: in a call with B transposed and not supplied as a texture, if `K` is not a
multiple of 8 the kernel name is the SCALAR variant and every pass stages B to a
texture: one staging call for B, transposed, from buffer `B` at the pass's B
offset, whose enqueue (the last staging enqueue of the pass, after that of A if A
is staged) moves buffer `B` into the texture `ImB`; that texture was created by a
`clCreateImage` of the call and is the kernel's second argument, directly
followed by `C`.  If `K` is a multiple of 8 the kernel name is the BUFFER variant
and no pass stages B: the only staging enqueue of a pass is that of A (if A is
staged), no texture but that of A is created, and the kernel's arguments after
`ImA` are the buffer `B`, the pass's B offset and `ldB`. -/
theorem C7_transposed_B_representation {Dtype : Type} [DecidableEq Dtype] [Zero Dtype]
    [One Dtype] (sz : Int) (fuel : Nat) (st : CLState) (a : GemmArgs Dtype)
    (run : GemmRun Dtype) (h : ocl4dnnFastImageGEMM sz fuel st a = Outcome.ok run)
    (hT : a.TransB = CBLAS_TRANSPOSE.CblasTrans) (hib : a.is_image_b = false) :
    (¬ ((8 : Int) ∣ a.K) →
      kernel_name a =
        "gemm_" ++ (if a.gemm_type = gemm_type_t.GEMM_TYPE_FAST_IMAGE_32_1 ∨
            a.gemm_type = gemm_type_t.GEMM_TYPE_FAST_IMAGE_B_IMAGE then "32_1_" else "32_2_")
          ++ (if a.TransA = CBLAS_TRANSPOSE.CblasNoTrans then "N" else "T") ++ "T_SCALAR_"
          ++ (if a.alpha = 1 then "1_" else "0_") ++ (if a.beta = 0 then "0" else "1")
          ++ "_float" ∧
      ∀ t ∈ run.tiles,
        (∃ im, (t.calls.filter fun c => !c.is_matrix_a) =
          [{ image := im, buffer := a.B, offset := t.geom.blockB_offset, is_matrix_a := false
             transpose := true, padding := false, padded_height := t.geom.imageB_h
             padded_width := t.geom.imageB_w, height := t.geom.v.blockB_height
             width := t.geom.v.blockB_width, ld := ldB a, result := t.ImB }]) ∧
        t.ImB.isCreated = true ∧
        (∃ rest, t.args = KArg.mem t.ImA :: KArg.mem t.ImB :: KArg.mem a.C :: rest) ∧
        (∃ ev, t.launch = CLOp.clEnqueueNDRangeKernel (kernel_name a) t.args t.global
          t.localSize t.ev.length t.wait_list ev) ∧
        stagedOperands t.stagingOps =
          (if a.is_image_a = false then [(a.A, t.ImA)] else []) ++ [(a.B, t.ImB)] ∧
        stagingKinds t.stagingOps =
          (if a.is_image_a = false then
            [StagingKind.conversionKernel "gemm_buffer_copy_image_no_transpose_float"]
           else []) ++
          [if ldB a = t.geom.v.blockB_width then StagingKind.directCopy
           else StagingKind.conversionKernel "gemm_buffer_copy_image_transpose_float"] ∧
        t.ImB ∈ createdImages run.ops ∧
        t.ops = t.stagingOps ++ [t.launch, CLOp.clSetEventCallback t.launchEvent t.callback_arg]) ∧
    ((8 : Int) ∣ a.K →
      kernel_name a =
        "gemm_" ++ (if a.gemm_type = gemm_type_t.GEMM_TYPE_FAST_IMAGE_32_1 ∨
            a.gemm_type = gemm_type_t.GEMM_TYPE_FAST_IMAGE_B_IMAGE then "32_1_" else "32_2_")
          ++ (if a.TransA = CBLAS_TRANSPOSE.CblasNoTrans then "N" else "T") ++ "T_BUFFER_"
          ++ (if a.alpha = 1 then "1_" else "0_") ++ (if a.beta = 0 then "0" else "1")
          ++ "_float" ∧
      ∀ t ∈ run.tiles,
        (t.calls.filter fun c => !c.is_matrix_a) = [] ∧
        (∃ rest, t.args = KArg.mem t.ImA :: KArg.mem a.B :: KArg.int t.geom.blockB_offset ::
          KArg.int (ldB a) :: KArg.mem a.C :: rest) ∧
        (∃ ev, t.launch = CLOp.clEnqueueNDRangeKernel (kernel_name a) t.args t.global
          t.localSize t.ev.length t.wait_list ev) ∧
        stagedOperands t.stagingOps = (if a.is_image_a = false then [(a.A, t.ImA)] else []) ∧
        stagingKinds t.stagingOps =
          (if a.is_image_a = false then
            [StagingKind.conversionKernel "gemm_buffer_copy_image_no_transpose_float"]
           else []) ∧
        (∀ m ∈ createdImages t.stagingOps, a.is_image_a = false ∧ m = t.ImA) ∧
        t.ops = t.stagingOps ++ [t.launch, CLOp.clSetEventCallback t.launchEvent t.callback_arg]) := by
  have hsc : ("T_" ++ "SCALAR_" : String) = "T_SCALAR_" := by decide
  have hbu : ("T_" ++ "BUFFER_" : String) = "T_BUFFER_" := by decide
  have k0 : stagingKinds ([] : List (CLOp Dtype)) = [] := rfl
  have kapp : ∀ l1 l2 : List (CLOp Dtype),
      stagingKinds (l1 ++ l2) = stagingKinds l1 ++ stagingKinds l2 := by
    intro l1 l2; simp [stagingKinds]
  constructor
  · intro hK
    have hkm : kNotMultiple a = true := (kNotMultiple_iff a).mpr hK
    have hsB : stagesB a = true := by simp [stagesB, hib, hkm]
    have hcr := gemm_ImB_created sz fuel st a run h hsB
    refine ⟨?_, ?_⟩
    · simp [kernel_name, hT, hib, hkm, hsc, String.append_assoc]
    · intro t ht
      have hcrt := hcr t ht
      obtain ⟨g, r1, hr1, rfl⟩ := gemm_tile_ImB sz fuel st a run h hib t ht
      have hImB := (tileBody_effect sz a g r1).2.2.2.2.2.2.2.2.2.2.2.2.1
      have hImB1 := (tileBody_effect sz a g r1).2.2.2.2.2.2.2.2.2.2.2.2.2.2
      have hst := tileBody_staged sz a g r1
      refine ⟨⟨r1.ImB, ?_⟩, ?_, ?_, ⟨_, rfl⟩, ?_, ?_, hcrt, rfl⟩
      · cases hia : a.is_image_a <;>
          simp [tileBody, stageOperands, stageA, stageB, hT, hib, hkm, hia]
      · rw [hImB1, hImB]
        simp only [hib, Bool.false_eq_true, if_false, hsB, true_and]
        rcases hr1 with h0 | h1
        · simp [h0, cl_mem.isCreated]
        · have hne : r1.ImB ≠ cl_mem.NULL := by
            intro e; rw [e] at h1; simp [cl_mem.isCreated] at h1
          simp [hne, h1]
      · simp [tileBody, kernelArgs, hT, hib, hkm]
      · rw [hst]
        cases hia : a.is_image_a <;> simp [stagesA, hia, hsB]
      · show stagingKinds (stageOperands sz a g r1).ops = _
        cases hia : a.is_image_a <;>
          simp [stageOperands, stageA, stageB, hT, hib, hkm, hia, kapp, k0, stage_kinds,
            tileBody_geom]
  · intro hK
    have hkm : kNotMultiple a = false := by
      cases hk : kNotMultiple a
      · rfl
      · exact absurd hK ((kNotMultiple_iff a).mp hk)
    have hsB : stagesB a = false := by simp [stagesB, hib, hkm, hT]
    refine ⟨?_, ?_⟩
    · simp [kernel_name, hT, hib, hkm, hbu, String.append_assoc]
    · intro t ht
      obtain ⟨g, r1, _, rfl⟩ := gemm_tile_ImB sz fuel st a run h hib t ht
      have hst := tileBody_staged sz a g r1
      have hcre : createdImages (tileBody sz a g r1).1.stagingOps =
          (if stagesA a = true ∧ r1.ImA = cl_mem.NULL then [cl_mem.created r1.st.nextImage]
           else []) ++
          (if stagesB a = true ∧ r1.ImB = cl_mem.NULL then
            [cl_mem.created (r1.st.nextImage +
              (if stagesA a = true ∧ r1.ImA = cl_mem.NULL then 1 else 0))]
           else []) := (stageOperands_effect sz a g r1).2.2.2.2.2.1
      have hImA := (tileBody_effect sz a g r1).2.2.2.2.2.2.2.2.2.2.2.1
      have hImA1 := (tileBody_effect sz a g r1).2.2.2.2.2.2.2.2.2.2.2.2.2.1
      refine ⟨?_, ?_, ⟨_, rfl⟩, ?_, ?_, ?_, rfl⟩
      · cases hia : a.is_image_a <;>
          simp [tileBody, stageOperands, stageA, stageB, hT, hib, hkm, hia]
      · simp [tileBody, kernelArgs, hT, hib, hkm]
      · rw [hst]
        cases hia : a.is_image_a <;> simp [stagesA, hia, hsB]
      · show stagingKinds (stageOperands sz a g r1).ops = _
        cases hia : a.is_image_a <;>
          simp [stageOperands, stageA, stageB, hT, hib, hkm, hia, kapp, k0, stage_kinds]
      · intro m hm
        rw [hcre] at hm
        rw [hImA1, hImA]
        cases hia : a.is_image_a <;> by_cases h0 : r1.ImA = cl_mem.NULL <;>
          simp [stagesA, hia, hsB, h0] at hm ⊢
        exact hm

/-- Witness of C7: the sample call with B transposed, `K = 7` returns after one pass,
which stages B into a texture the call created and binds the kernel to it. -/
theorem C7_transposed_B_representation_witness :
    ¬ ((8 : Int) ∣ (sampleArgs CBLAS_TRANSPOSE.CblasNoTrans CBLAS_TRANSPOSE.CblasTrans 4 4 7
      gemm_type_t.GEMM_TYPE_FAST_IMAGE_32_1 0).K) ∧
    ∃ run, ocl4dnnFastImageGEMM 4 24 { nextImage := 0, nextEvent := 0 }
        (sampleArgs CBLAS_TRANSPOSE.CblasNoTrans CBLAS_TRANSPOSE.CblasTrans 4 4 7
          gemm_type_t.GEMM_TYPE_FAST_IMAGE_32_1 0) = Outcome.ok run ∧
      run.tiles.length = 1 ∧
      kernel_name (sampleArgs CBLAS_TRANSPOSE.CblasNoTrans CBLAS_TRANSPOSE.CblasTrans 4 4 7
          gemm_type_t.GEMM_TYPE_FAST_IMAGE_32_1 0) = "gemm_32_1_NT_SCALAR_1_0_float" ∧
      (∀ t ∈ run.tiles, t.ImB.isCreated = true ∧
        (∃ rest, t.args = KArg.mem t.ImA :: KArg.mem t.ImB :: KArg.mem (cl_mem.supplied 2) ::
          rest) ∧
        stagedOperands t.stagingOps = [(cl_mem.supplied 0, t.ImA), (cl_mem.supplied 1, t.ImB)] ∧
        t.ImB ∈ createdImages run.ops) ∧
      (tilesOf (ocl4dnnFastImageGEMM 4 24 { nextImage := 0, nextEvent := 0 }
        (sampleArgs CBLAS_TRANSPOSE.CblasNoTrans CBLAS_TRANSPOSE.CblasTrans 4 4 7
          gemm_type_t.GEMM_TYPE_FAST_IMAGE_32_1 0))).map
        (fun t => (stagedOperands t.stagingOps, createdImages t.stagingOps,
          stagingKinds t.stagingOps)) =
        [([(cl_mem.supplied 0, cl_mem.created 0), (cl_mem.supplied 1, cl_mem.created 1)],
          [cl_mem.created 0, cl_mem.created 1],
          [StagingKind.conversionKernel "gemm_buffer_copy_image_no_transpose_float",
           StagingKind.directCopy])] := by
  have hK : ¬ ((8 : Int) ∣ (sampleArgs CBLAS_TRANSPOSE.CblasNoTrans CBLAS_TRANSPOSE.CblasTrans
      4 4 7 gemm_type_t.GEMM_TYPE_FAST_IMAGE_32_1 0).K) := by decide
  obtain ⟨run, hrun, ht, _, _⟩ := gemm_returns 4 24 { nextImage := 0, nextEvent := 0 }
    (sampleArgs CBLAS_TRANSPOSE.CblasNoTrans CBLAS_TRANSPOSE.CblasTrans 4 4 7
      gemm_type_t.GEMM_TYPE_FAST_IMAGE_32_1 0) (by simp [Accepted, sampleArgs]) (by decide)
    (by decide) (by decide) (by decide) (by decide)
  have hc := (C7_transposed_B_representation 4 24 { nextImage := 0, nextEvent := 0 }
    (sampleArgs CBLAS_TRANSPOSE.CblasNoTrans CBLAS_TRANSPOSE.CblasTrans 4 4 7
      gemm_type_t.GEMM_TYPE_FAST_IMAGE_32_1 0) run hrun rfl rfl).1 hK
  refine ⟨hK, run, hrun, ?_, by decide, fun t htm =>
    ⟨(hc.2 t htm).2.1, (hc.2 t htm).2.2.1, (hc.2 t htm).2.2.2.2.1, (hc.2 t htm).2.2.2.2.2.2.1⟩,
    by decide⟩
  rw [ht, runTiles_length]
  decide

/-- The resources of a returned call whose callbacks have each run once: the images
released are the images created, the events released are the events produced,
neither list repeats a handle, and every image is one returned by
`clCreateImage`. -/
theorem completed_resources {Dtype : Type} [DecidableEq Dtype] [Zero Dtype] [One Dtype]
    (sz : Int) (fuel : Nat) (st : CLState) (a : GemmArgs Dtype) (run : GemmRun Dtype)
    (h : ocl4dnnFastImageGEMM sz fuel st a = Outcome.ok run) :
    releasedMems run.completed = createdImages run.completed ∧
    (createdImages run.completed).Nodup ∧
    (∀ m ∈ createdImages run.completed, m.isCreated = true) ∧
    releasedEvents run.completed = producedEvents run.completed ∧
    (producedEvents run.completed).Nodup ∧
    releasedMems run.finalOps = createdImages run.ops ∧
    releasedMems (callbackOps run.ops) = [] := by
  obtain ⟨gs, hgs, hfin⟩ := gemm_runTiles sz fuel st a run h
  have ht : run.tiles = (runTiles sz a gs { ImA := cl_mem.NULL, ImB := cl_mem.NULL, st := st }).1 := by
    rw [hgs]
  have hr : run.res = (runTiles sz a gs { ImA := cl_mem.NULL, ImB := cl_mem.NULL, st := st }).2 := by
    rw [hgs]
  obtain ⟨e1, _, e3, e4, e5, e6, e7, e8⟩ := runTiles_events sz a gs
    { ImA := cl_mem.NULL, ImB := cl_mem.NULL, st := st }
  obtain ⟨x1, x2, x3, x4, x5, x6, x7⟩ := runTiles_textures sz a gs st
  rw [← ht] at e1 e3 e4 e5 e6 e7 e8 x1 x2 x3
  rw [← hr, ← hfin] at x1 x4 x5 x6 x7
  have hops : run.ops = run.tiles.flatMap TileRecord.ops ++ run.finalOps := rfl
  have hcomp : run.completed = (run.tiles.flatMap TileRecord.ops ++ run.finalOps) ++
      callbackOps (run.tiles.flatMap TileRecord.ops ++ run.finalOps) := rfl
  have hc1 : createdImages run.completed = createdImages (run.tiles.flatMap TileRecord.ops) := by
    rw [hcomp]
    simp only [createdImages_append, callbackOps_append, x4, x7, e8, List.append_nil]
  have hc2 : releasedMems run.completed = releasedMems run.finalOps := by
    rw [hcomp]
    simp only [releasedMems_append, callbackOps_append, x7, e5, e7, List.append_nil,
      List.nil_append]
  have hc3 : producedEvents run.completed = producedEvents (run.tiles.flatMap TileRecord.ops) := by
    rw [hcomp]
    simp only [producedEvents_append, callbackOps_append, x5, x7, e6, List.append_nil]
  have hc4 : releasedEvents run.completed =
      releasedEvents (callbackOps (run.tiles.flatMap TileRecord.ops)) := by
    rw [hcomp]
    simp only [releasedEvents_append, callbackOps_append, x6, x7, e4, List.append_nil,
      List.nil_append]
  refine ⟨by rw [hc1, hc2, x1], by rw [hc1]; exact x2, by rw [hc1]; exact x3,
    by rw [hc3, hc4, e3], ?_, ?_, ?_⟩
  · rw [hc3, e1]
    exact List.nodup_range' _ _
  · rw [hops, createdImages_append, x4, List.append_nil, x1]
  · rw [hops, callbackOps_append, x7, List.append_nil, e7]

/-- C8: when a call of `ocl4dnnFastImageGEMM` has returned and the completion callback of
every pass has run once, in whatever order the calls were made: every image the call
created has been released exactly once, every event produced has been released
exactly once, a handle that was not created by the call (a texture supplied by the
caller as A or B in particular) has been released zero times, and as many images
and events have been released as were created. -/
theorem C8_resources_released_once {Dtype : Type} [DecidableEq Dtype] [Zero Dtype]
    [One Dtype] (sz : Int) (fuel : Nat) (st : CLState) (a : GemmArgs Dtype)
    (run : GemmRun Dtype) (h : ocl4dnnFastImageGEMM sz fuel st a = Outcome.ok run)
    (all : List (CLOp Dtype)) (hall : all.Perm run.completed) :
    (∀ m ∈ createdImages all,
      (createdImages all).count m = 1 ∧ (releasedMems all).count m = 1) ∧
    (∀ e ∈ producedEvents all,
      (producedEvents all).count e = 1 ∧ (releasedEvents all).count e = 1) ∧
    (∀ m, m.isCreated = false → (releasedMems all).count m = 0) ∧
    (a.is_image_a = true → a.A.isCreated = false → (releasedMems all).count a.A = 0) ∧
    (a.is_image_b = true → a.B.isCreated = false → (releasedMems all).count a.B = 0) ∧
    (createdImages all).length = (releasedMems all).length ∧
    (producedEvents all).length = (releasedEvents all).length := by
  obtain ⟨c1, c2, c3, c4, c5, _, _⟩ := completed_resources sz fuel st a run h
  have p1 : (createdImages all).Perm (createdImages run.completed) := hall.filterMap _
  have p2 : (releasedMems all).Perm (releasedMems run.completed) := hall.filterMap _
  have p3 : (producedEvents all).Perm (producedEvents run.completed) := hall.filterMap _
  have p4 : (releasedEvents all).Perm (releasedEvents run.completed) := hall.filterMap _
  have hz : ∀ m, m.isCreated = false → (releasedMems all).count m = 0 := by
    intro m hm
    rw [p2.count_eq, c1]
    apply List.count_eq_zero_of_not_mem
    intro hmem
    rw [c3 m hmem] at hm
    exact absurd hm (by decide)
  refine ⟨?_, ?_, hz, fun _ hA => hz _ hA, fun _ hB => hz _ hB, ?_, ?_⟩
  · intro m hm
    have hm2 : m ∈ createdImages run.completed := p1.mem_iff.mp hm
    exact ⟨by rw [p1.count_eq]; exact List.count_eq_one_of_mem c2 hm2,
      by rw [p2.count_eq, c1]; exact List.count_eq_one_of_mem c2 hm2⟩
  · intro e he
    have he2 : e ∈ producedEvents run.completed := p3.mem_iff.mp he
    exact ⟨by rw [p3.count_eq]; exact List.count_eq_one_of_mem c5 he2,
      by rw [p4.count_eq, c4]; exact List.count_eq_one_of_mem c5 he2⟩
  · rw [p1.length_eq, p2.length_eq, c1]
  · rw [p3.length_eq, p4.length_eq, c4]

/-- Witness of C8: the sample call with `M = 3`, `N = 2`, `K = 3` and tile edge 2 returns
after four passes; it created two images and released those two, produced twelve
events and released each once, and released no buffer of the caller. -/
theorem C8_resources_released_once_witness :
    (∃ run, ocl4dnnFastImageGEMM 4 10 { nextImage := 0, nextEvent := 0 }
        (sampleArgs CBLAS_TRANSPOSE.CblasNoTrans CBLAS_TRANSPOSE.CblasNoTrans 3 2 3
          gemm_type_t.GEMM_TYPE_FAST_IMAGE_B_IMAGE 2) = Outcome.ok run ∧
      (∀ m ∈ createdImages run.completed, (releasedMems run.completed).count m = 1) ∧
      (∀ e ∈ producedEvents run.completed, (releasedEvents run.completed).count e = 1) ∧
      (releasedMems run.completed).count (cl_mem.supplied 0) = 0) ∧
    (tilesOf (ocl4dnnFastImageGEMM 4 10 { nextImage := 0, nextEvent := 0 }
        (sampleArgs CBLAS_TRANSPOSE.CblasNoTrans CBLAS_TRANSPOSE.CblasNoTrans 3 2 3
          gemm_type_t.GEMM_TYPE_FAST_IMAGE_B_IMAGE 2))).length = 4 ∧
    createdImages (completedOf (ocl4dnnFastImageGEMM 4 10 { nextImage := 0, nextEvent := 0 }
        (sampleArgs CBLAS_TRANSPOSE.CblasNoTrans CBLAS_TRANSPOSE.CblasNoTrans 3 2 3
          gemm_type_t.GEMM_TYPE_FAST_IMAGE_B_IMAGE 2))) = [cl_mem.created 0, cl_mem.created 1] ∧
    releasedMems (completedOf (ocl4dnnFastImageGEMM 4 10 { nextImage := 0, nextEvent := 0 }
        (sampleArgs CBLAS_TRANSPOSE.CblasNoTrans CBLAS_TRANSPOSE.CblasNoTrans 3 2 3
          gemm_type_t.GEMM_TYPE_FAST_IMAGE_B_IMAGE 2))) = [cl_mem.created 0, cl_mem.created 1] ∧
    producedEvents (completedOf (ocl4dnnFastImageGEMM 4 10 { nextImage := 0, nextEvent := 0 }
        (sampleArgs CBLAS_TRANSPOSE.CblasNoTrans CBLAS_TRANSPOSE.CblasNoTrans 3 2 3
          gemm_type_t.GEMM_TYPE_FAST_IMAGE_B_IMAGE 2))) = List.range 12 ∧
    releasedEvents (completedOf (ocl4dnnFastImageGEMM 4 10 { nextImage := 0, nextEvent := 0 }
        (sampleArgs CBLAS_TRANSPOSE.CblasNoTrans CBLAS_TRANSPOSE.CblasNoTrans 3 2 3
          gemm_type_t.GEMM_TYPE_FAST_IMAGE_B_IMAGE 2))) = List.range 12 := by
  refine ⟨?_, by decide, by decide, by decide, by decide, by decide⟩
  obtain ⟨run, hrun, _⟩ := gemm_returns 4 10 { nextImage := 0, nextEvent := 0 }
    (sampleArgs CBLAS_TRANSPOSE.CblasNoTrans CBLAS_TRANSPOSE.CblasNoTrans 3 2 3
      gemm_type_t.GEMM_TYPE_FAST_IMAGE_B_IMAGE 2) (by simp [Accepted, sampleArgs]) (by decide)
    (by decide) (by decide) (by decide) (by decide)
  have hc := C8_resources_released_once 4 10 { nextImage := 0, nextEvent := 0 }
    (sampleArgs CBLAS_TRANSPOSE.CblasNoTrans CBLAS_TRANSPOSE.CblasNoTrans 3 2 3
      gemm_type_t.GEMM_TYPE_FAST_IMAGE_B_IMAGE 2) run hrun run.completed (List.Perm.refl _)
  exact ⟨run, hrun, fun m hm => (hc.1 m hm).2, fun e he => (hc.2.1 e he).2,
    hc.2.2.1 _ rfl⟩

/-- C9 fails as stated: the single pass of the sample call with `M = N = K = 2` creates
two images while staging, yet its callback record lists no image and its callback
releases none. -/
theorem C9_callback_record_counterexample :
    (tilesOf (ocl4dnnFastImageGEMM 4 10 { nextImage := 0, nextEvent := 0 }
        (sampleArgs CBLAS_TRANSPOSE.CblasNoTrans CBLAS_TRANSPOSE.CblasNoTrans 2 2 2
          gemm_type_t.GEMM_TYPE_FAST_IMAGE_32_1 0))).map
      (fun t => (createdImages t.stagingOps, t.callback_arg.imgs,
        releasedMems (gemmCallback Int t.callback_arg))) =
      [([cl_mem.created 0, cl_mem.created 1], [], [])] := by
  decide

/-- C9, amended: for every pass of a returned call, the record attached to the event of
the pass's compute launch lists every event of that pass (its staging events, then
the compute event) and no image, so that `gemmCallback` releases all events of the
pass and no image; the images created by the call are released by the call itself
after the tile loop. -/
theorem C9_callback_record_events {Dtype : Type} [DecidableEq Dtype] [Zero Dtype] [One Dtype]
    (sz : Int) (fuel : Nat) (st : CLState) (a : GemmArgs Dtype) (run : GemmRun Dtype)
    (h : ocl4dnnFastImageGEMM sz fuel st a = Outcome.ok run) :
    (∀ t ∈ run.tiles,
      t.ops = t.stagingOps ++ [t.launch, CLOp.clSetEventCallback t.launchEvent t.callback_arg] ∧
      CLOp.producedEvent t.launch = some t.launchEvent ∧
      producedEvents t.stagingOps = t.ev ∧
      t.callback_arg.evs = t.ev ++ [t.launchEvent] ∧
      t.callback_arg.evs = producedEvents t.ops ∧
      t.callback_arg.imgs = [] ∧
      releasedEvents (gemmCallback Dtype t.callback_arg) = producedEvents t.ops ∧
      releasedMems (gemmCallback Dtype t.callback_arg) = []) ∧
    releasedMems (callbackOps run.ops) = [] ∧
    releasedMems run.finalOps = createdImages run.ops := by
  obtain ⟨_, _, _, _, _, c6, c7⟩ := completed_resources sz fuel st a run h
  obtain ⟨gs, hgs, _⟩ := gemm_runTiles sz fuel st a run h
  refine ⟨?_, c7, c6⟩
  intro t ht
  have ht2 : t ∈ (runTiles sz a gs { ImA := cl_mem.NULL, ImB := cl_mem.NULL, st := st }).1 := by
    rw [hgs]; exact ht
  obtain ⟨g, _, r1, rfl⟩ := mem_runTiles sz a gs _ t ht2
  obtain ⟨_, _, t3, t4, t5, _⟩ := tileBody_effect sz a g r1
  obtain ⟨c1, c2, _, _⟩ := @gemmCallback_effect Dtype (tileBody sz a g r1).1.callback_arg
  refine ⟨rfl, rfl, (stageOperands_effect sz a g r1).2.2.2.2.2.2.1, t3, by rw [t3, t5], t4,
    by rw [c1, t3, t5], by rw [c2, t4]⟩

/-- Witness of C9 as amended: the single pass of the sample call with `M = N = K = 2`
has a record listing its three events and no image. -/
theorem C9_callback_record_events_witness :
    (∃ run, ocl4dnnFastImageGEMM 4 10 { nextImage := 0, nextEvent := 0 }
        (sampleArgs CBLAS_TRANSPOSE.CblasNoTrans CBLAS_TRANSPOSE.CblasNoTrans 2 2 2
          gemm_type_t.GEMM_TYPE_FAST_IMAGE_32_1 0) = Outcome.ok run ∧
      ∀ t ∈ run.tiles, t.callback_arg.evs = producedEvents t.ops ∧ t.callback_arg.imgs = []) ∧
    (tilesOf (ocl4dnnFastImageGEMM 4 10 { nextImage := 0, nextEvent := 0 }
        (sampleArgs CBLAS_TRANSPOSE.CblasNoTrans CBLAS_TRANSPOSE.CblasNoTrans 2 2 2
          gemm_type_t.GEMM_TYPE_FAST_IMAGE_32_1 0))).map
      (fun t => (t.callback_arg.evs, producedEvents t.ops)) = [([0, 1, 2], [0, 1, 2])] := by
  refine ⟨?_, by decide⟩
  obtain ⟨run, hrun, _⟩ := gemm_returns 4 10 { nextImage := 0, nextEvent := 0 }
    (sampleArgs CBLAS_TRANSPOSE.CblasNoTrans CBLAS_TRANSPOSE.CblasNoTrans 2 2 2
      gemm_type_t.GEMM_TYPE_FAST_IMAGE_32_1 0) (by simp [Accepted, sampleArgs]) (by decide)
    (by decide) (by decide) (by decide) (by decide)
  have hc := C9_callback_record_events 4 10 { nextImage := 0, nextEvent := 0 }
    (sampleArgs CBLAS_TRANSPOSE.CblasNoTrans CBLAS_TRANSPOSE.CblasNoTrans 2 2 2
      gemm_type_t.GEMM_TYPE_FAST_IMAGE_32_1 0) run hrun
  exact ⟨run, hrun, fun t ht => ⟨(hc.1 t ht).2.2.2.2.1, (hc.1 t ht).2.2.2.2.2.1⟩⟩

/-- C10 fails as stated for `ocl4dnnSet`: on a CPU device the call returns and has
enqueued its fill kernel. -/
theorem C10_set_on_cpu_counterexample :
    ocl4dnnSet (fun s => s ++ "_float") true 16 (1 : Int) (cl_mem.supplied 0) 0 =
      Outcome.ok
        [CLOp.clEnqueueNDRangeKernel "fill_float"
          [KArg.int 16, KArg.scalar 1, KArg.mem (cl_mem.supplied 0), KArg.int 0]
          [16384] [128] 0 none none] := by
  decide

/-- C10, amended: when the default device is of CPU type, `ocl4dnnGEMV` and `ocl4dnnAXPY`
fail and enqueue no kernel; `ocl4dnnSet` does not test the device type and enqueues
its fill kernel on a CPU device as on any other. -/
theorem C10_vector_primitives_on_cpu {Dtype : Type} (CL_KERNEL_SELECT : String → String)
    (dtypeIsFloat : Bool) (TransA : CBLAS_TRANSPOSE) (M N : Int) (alpha beta : Dtype)
    (A x y : cl_mem) (offA offx offy : Int) (deviceIsCPU : Bool) :
    ocl4dnnGEMV CL_KERNEL_SELECT true dtypeIsFloat TransA M N alpha A offA x offx beta y offy =
      Outcome.fatal "Not Support CPU device" ∧
    enqueuedBy (ocl4dnnGEMV CL_KERNEL_SELECT true dtypeIsFloat TransA M N alpha A offA x offx
      beta y offy) = [] ∧
    ocl4dnnAXPY CL_KERNEL_SELECT true N alpha x offx y offy =
      Outcome.fatal "Not Support CPU device" ∧
    enqueuedBy (ocl4dnnAXPY CL_KERNEL_SELECT true N alpha x offx y offy) = [] ∧
    ocl4dnnSet CL_KERNEL_SELECT deviceIsCPU N alpha y offy =
      Outcome.ok
        [CLOp.clEnqueueNDRangeKernel (CL_KERNEL_SELECT "fill")
          [KArg.int N, KArg.scalar alpha, KArg.mem y, KArg.int offy] [128 * 128] [128] 0
          none none] := by
  refine ⟨rfl, rfl, rfl, rfl, rfl⟩

/-- C11 fails as stated: for a transposed B whose leading dimension equals its width the
staging step issues a direct region copy (the claim: the transposed-copy kernel), and
for operand A with padding requested and leading dimension equal to the width it
issues the copy-with-padding kernel (the claim: a direct copy). -/
theorem C11_staging_kind_counterexample :
    stagingKinds (@ocl4dnnGEMMCopyBufferToImage Int 4 { nextImage := 0, nextEvent := 0 }
        cl_mem.NULL (cl_mem.supplied 1) 0 false true false 4 8 4 4 4 0 none true).ops =
      [StagingKind.directCopy] ∧
    stagingKinds (@ocl4dnnGEMMCopyBufferToImage Int 4 { nextImage := 0, nextEvent := 0 }
        cl_mem.NULL (cl_mem.supplied 0) 0 true false true 4 8 4 4 4 0 none true).ops =
      [StagingKind.conversionKernel "gemm_buffer_copy_image_no_transpose_float"] := by
  decide

/-- C11, amended: every call of the staging step enqueues exactly one operation, which
moves the buffer into the texture the call returns.  For a transposed B it is a
direct region copy when `ld == width` and the transposed-copy kernel otherwise; for
any other operand it is the copy-with-padding kernel when padding is requested,
and a direct region copy when padding is not requested and `ld == width`. -/
theorem C11_staging_kind {Dtype : Type} (sizeofDtype : Int) (st : CLState)
    (image buffer : cl_mem) (offset : Int) (is_matrix_a transpose padding : Bool)
    (padded_height padded_width height width ld wait_list_size : Int)
    (wait_list : Option (List cl_event)) (wantEvent : Bool) :
    ((is_matrix_a = false ∧ transpose = true) →
      stagingKinds (@ocl4dnnGEMMCopyBufferToImage Dtype sizeofDtype st image buffer offset
          is_matrix_a transpose padding padded_height padded_width height width ld
          wait_list_size wait_list wantEvent).ops =
        [if ld = width then StagingKind.directCopy
         else StagingKind.conversionKernel "gemm_buffer_copy_image_transpose_float"]) ∧
    (¬ (is_matrix_a = false ∧ transpose = true) → padding = true →
      stagingKinds (@ocl4dnnGEMMCopyBufferToImage Dtype sizeofDtype st image buffer offset
          is_matrix_a transpose padding padded_height padded_width height width ld
          wait_list_size wait_list wantEvent).ops =
        [StagingKind.conversionKernel "gemm_buffer_copy_image_no_transpose_float"]) ∧
    (¬ (is_matrix_a = false ∧ transpose = true) → padding = false → ld = width →
      stagingKinds (@ocl4dnnGEMMCopyBufferToImage Dtype sizeofDtype st image buffer offset
          is_matrix_a transpose padding padded_height padded_width height width ld
          wait_list_size wait_list wantEvent).ops = [StagingKind.directCopy]) ∧
    (stagingKinds (@ocl4dnnGEMMCopyBufferToImage Dtype sizeofDtype st image buffer offset
        is_matrix_a transpose padding padded_height padded_width height width ld
        wait_list_size wait_list wantEvent).ops).length = 1 ∧
    stagedOperands (@ocl4dnnGEMMCopyBufferToImage Dtype sizeofDtype st image buffer offset
        is_matrix_a transpose padding padded_height padded_width height width ld
        wait_list_size wait_list wantEvent).ops =
      [(buffer, (@ocl4dnnGEMMCopyBufferToImage Dtype sizeofDtype st image buffer offset
        is_matrix_a transpose padding padded_height padded_width height width ld
        wait_list_size wait_list wantEvent).image)] := by
  refine ⟨?_, ?_, ?_, by rw [stage_kinds]; rfl, stage_operand _ _ _ _ _ _ _ _ _ _ _ _ _ _ _ _⟩
  · rintro ⟨rfl, rfl⟩
    by_cases him : image = cl_mem.NULL <;> by_cases hld : ld = width <;>
      simp [ocl4dnnGEMMCopyBufferToImage, stagingKinds, CLOp.stagingKind, him, hld]
  · intro hn hp
    subst hp
    by_cases him : image = cl_mem.NULL <;> cases is_matrix_a <;> cases transpose <;>
      simp_all [ocl4dnnGEMMCopyBufferToImage, stagingKinds, CLOp.stagingKind]
  · intro hn hp hld
    subst hp
    by_cases him : image = cl_mem.NULL <;> cases is_matrix_a <;> cases transpose <;>
      simp_all [ocl4dnnGEMMCopyBufferToImage, stagingKinds, CLOp.stagingKind]

/-- Witness of C11 as amended: a transposed B with `ld = 12`, `width = 4` is staged by the
transposed-copy kernel, and operand A without padding and with `ld = width = 4` by a
direct copy. -/
theorem C11_staging_kind_witness :
    stagingKinds (@ocl4dnnGEMMCopyBufferToImage Int 4 { nextImage := 0, nextEvent := 0 }
        cl_mem.NULL (cl_mem.supplied 1) 0 false true false 4 8 4 4 12 0 none true).ops =
      [StagingKind.conversionKernel "gemm_buffer_copy_image_transpose_float"] ∧
    stagingKinds (@ocl4dnnGEMMCopyBufferToImage Int 4 { nextImage := 0, nextEvent := 0 }
        cl_mem.NULL (cl_mem.supplied 0) 0 true false false 4 8 4 4 4 0 none true).ops =
      [StagingKind.directCopy] :=
  ⟨(C11_staging_kind 4 { nextImage := 0, nextEvent := 0 } cl_mem.NULL (cl_mem.supplied 1) 0
      false true false 4 8 4 4 12 0 none true).1 ⟨rfl, rfl⟩,
   (C11_staging_kind 4 { nextImage := 0, nextEvent := 0 } cl_mem.NULL (cl_mem.supplied 0) 0
      true false false 4 8 4 4 4 0 none true).2.2.1 (by decide) rfl rfl⟩

/-- On a non-negative `int`, `x & 7` is the remainder of `x` by 8. -/
theorem land_seven (x : Int) (hx : 0 ≤ x) : Int.land x 7 = x % 8 := by
  obtain ⟨n, rfl⟩ := Int.eq_ofNat_of_zero_le hx
  have h : Int.land (n : Int) 7 = ((n &&& 7 : Nat) : Int) := rfl
  rw [h]
  have := Nat.and_pow_two_sub_one_eq_mod n 3
  norm_num at this
  rw [this]
  omega

/-- C13: for every K-block extent `block_Ksize ≥ 0` the padded extent
`block_Ksize + ((block_Ksize & 7) ? 8 - (block_Ksize & 7) : 0)` is the least multiple
of 8 that is at least `block_Ksize`: it is divisible by 8, at least `block_Ksize`,
less than `block_Ksize + 8`, below every other such multiple, and equal to
`block_Ksize` when that is a multiple of 8.  It is the `padded_k` of every pass. -/
theorem C13_padded_k_least_multiple (block_Ksize : Int) (h0 : 0 ≤ block_Ksize) :
    (8 : Int) ∣ paddedK block_Ksize ∧ block_Ksize ≤ paddedK block_Ksize ∧
    paddedK block_Ksize < block_Ksize + 8 ∧
    (∀ m : Int, (8 : Int) ∣ m → block_Ksize ≤ m → paddedK block_Ksize ≤ m) ∧
    ((8 : Int) ∣ block_Ksize → paddedK block_Ksize = block_Ksize) ∧
    (∀ (Dtype : Type) (a : GemmArgs Dtype) (v : LoopVars) (k f : Int),
      (tileGeom a v k f).padded_k = paddedK (tileGeom a v k f).block_Ksize) := by
  have hl := land_seven block_Ksize h0
  have hp : paddedK block_Ksize =
      block_Ksize + (if block_Ksize % 8 ≠ 0 then 8 - block_Ksize % 8 else 0) := by
    unfold paddedK; rw [hl]
  refine ⟨?_, ?_, ?_, ?_, ?_, fun _ _ _ _ _ => rfl⟩
  · rw [hp]; split <;> omega
  · rw [hp]; split <;> omega
  · rw [hp]; split <;> omega
  · intro m hm hle
    rw [hp]; split <;> omega
  · intro hd
    rw [hp]; split <;> omega

/-- Witness of C13: a K block of extent 452 is padded to 456. -/
theorem C13_padded_k_least_multiple_witness :
    (0 : Int) ≤ 452 ∧ paddedK 452 = 456 ∧ (8 : Int) ∣ paddedK 452 ∧ paddedK 452 < 452 + 8 :=
  ⟨by decide, by decide, (C13_padded_k_least_multiple 452 (by decide)).1,
    (C13_padded_k_least_multiple 452 (by decide)).2.2.1⟩

/-- C12 at the failing input: for the 32_2 shape and an output tile of width 4 (and
height 4) the call computes `global[0] = (4/2 + 7) ^ ~7 = 18446744073709551601`, which
is not a multiple of 8 (the claim: 8); the 32_1 shape on the same tile gives 8.  In
both, `global[1]` is 1 and the local size is (8, 1). -/
theorem C12_global_size_at_width_4 :
    (tilesOf (ocl4dnnFastImageGEMM 4 24 { nextImage := 0, nextEvent := 0 }
        (sampleArgs CBLAS_TRANSPOSE.CblasNoTrans CBLAS_TRANSPOSE.CblasNoTrans 4 4 4
          gemm_type_t.GEMM_TYPE_FAST_IMAGE_32_2 0))).map
      (fun t => (t.geom.v.blockC_width, t.geom.v.blockC_height, t.global, t.localSize)) =
      [(4, 4, [18446744073709551601, 1], [8, 1])] ∧
    18446744073709551601 % 8 = 1 ∧
    (tilesOf (ocl4dnnFastImageGEMM 4 24 { nextImage := 0, nextEvent := 0 }
        (sampleArgs CBLAS_TRANSPOSE.CblasNoTrans CBLAS_TRANSPOSE.CblasNoTrans 4 4 4
          gemm_type_t.GEMM_TYPE_FAST_IMAGE_32_1 0))).map
      (fun t => (t.geom.v.blockC_width, t.geom.v.blockC_height, t.global, t.localSize)) =
      [(4, 4, [8, 1], [8, 1])] := by
  decide

/-- Conversion to `uint` leaves a value below `2^32` unchanged. -/
theorem toUInt_natCast (M : Nat) (hM : M < 2 ^ 32) : toUInt (M : Int) = M := by
  unfold toUInt
  have h : ((M : Int)) % (2 ^ 32 : Int) = (M : Int) := by
    apply Int.emod_eq_of_lt (by omega)
    have : ((2 : Int) ^ 32) = ((2 ^ 32 : Nat) : Int) := by norm_num
    rw [this]; exact_mod_cast hM
  rw [h]; simp

/-- The remainder by 4 of an `int` converted to `uint`. -/
theorem toUInt_mod_four (N : Int) : toUInt N % 4 = (N % 4).toNat := by
  unfold toUInt
  omega

/-- C17: for every row count `0 ≤ M < 2^32`, float data, no transpose and a device that
is not a CPU, `ocl4dnnGEMV` enqueues `matvec_mul4` with global size `⌊M/4⌋ * 128` and
local size 128, and then `matvec_mul1` exactly when `M mod 4 ≠ 0`, with global size
`(M mod 4) * 128`, local size 128 and row offset `M - M mod 4`; the two row ranges
`[0, 4⌊M/4⌋)` and `[M - M mod 4, M)` meet at `4⌊M/4⌋` and together have `M` rows; the
column remainder passed to both kernels is `N mod 4`. -/
theorem C17_gemv_launches {Dtype : Type} (CL_KERNEL_SELECT : String → String) (M : Nat)
    (hM : M < 2 ^ 32) (N : Int) (alpha beta : Dtype) (A x y : cl_mem) (offA offx offy : Int) :
    ocl4dnnGEMV CL_KERNEL_SELECT false true CBLAS_TRANSPOSE.CblasNoTrans (M : Int) N alpha A
        offA x offx beta y offy =
      Outcome.ok
        (CLOp.clEnqueueNDRangeKernel (CL_KERNEL_SELECT "matvec_mul4")
          [KArg.mem A, KArg.int offA, KArg.uint (toUInt N), KArg.uint ((N % 4).toNat),
           KArg.mem x, KArg.int offx, KArg.scalar alpha, KArg.scalar beta, KArg.mem y,
           KArg.int offy, KArg.localMem 2048]
          [M / 4 * 128] [128] 0 none none ::
         (if M % 4 ≠ 0 then
           [CLOp.clEnqueueNDRangeKernel (CL_KERNEL_SELECT "matvec_mul1")
             [KArg.mem A, KArg.int offA, KArg.uint (toUInt N), KArg.uint (M - M % 4),
              KArg.uint ((N % 4).toNat), KArg.mem x, KArg.int offx, KArg.scalar alpha,
              KArg.scalar beta, KArg.mem y, KArg.int offy, KArg.localMem 512]
             [M % 4 * 128] [128] 0 none none]
          else [])) ∧
    M - M % 4 = 4 * (M / 4) ∧ 4 * (M / 4) + M % 4 = M ∧ M % 4 < 4 := by
  refine ⟨?_, by omega, by omega, by omega⟩
  unfold ocl4dnnGEMV
  simp only [toUInt_natCast M hM, toUInt_mod_four]
  by_cases h : M % 4 = 0 <;> simp [h]

/-- Witness of C17: 10 rows are handled by `matvec_mul4` with global size 256 and by
`matvec_mul1` with global size 256 and row offset 8. -/
theorem C17_gemv_launches_witness :
    (10 : Nat) < 2 ^ 32 ∧
    ocl4dnnGEMV (fun s => s ++ "_float") false true CBLAS_TRANSPOSE.CblasNoTrans 10 7 (1 : Int)
        (cl_mem.supplied 0) 0 (cl_mem.supplied 1) 0 (0 : Int) (cl_mem.supplied 2) 0 =
      Outcome.ok
        [CLOp.clEnqueueNDRangeKernel "matvec_mul4_float"
          [KArg.mem (cl_mem.supplied 0), KArg.int 0, KArg.uint 7, KArg.uint 3,
           KArg.mem (cl_mem.supplied 1), KArg.int 0, KArg.scalar 1, KArg.scalar 0,
           KArg.mem (cl_mem.supplied 2), KArg.int 0, KArg.localMem 2048]
          [256] [128] 0 none none,
         CLOp.clEnqueueNDRangeKernel "matvec_mul1_float"
          [KArg.mem (cl_mem.supplied 0), KArg.int 0, KArg.uint 7, KArg.uint 8, KArg.uint 3,
           KArg.mem (cl_mem.supplied 1), KArg.int 0, KArg.scalar 1, KArg.scalar 0,
           KArg.mem (cl_mem.supplied 2), KArg.int 0, KArg.localMem 512]
          [256] [128] 0 none none] := by
  refine ⟨by decide, ?_⟩
  have h := (C17_gemv_launches (fun s => s ++ "_float") 10 (by decide) 7 (1 : Int) (0 : Int)
    (cl_mem.supplied 0) (cl_mem.supplied 1) (cl_mem.supplied 2) 0 0 0).1
  rw [show ((10 : Nat) : Int) = 10 from rfl] at h
  rw [h]
  decide

/-- The staging calls of a pass: one per staged operand. -/
theorem tileBody_calls {Dtype : Type} [DecidableEq Dtype] [Zero Dtype] [One Dtype]
    (sz : Int) (a : GemmArgs Dtype) (g : TileGeom) (r : Res) :
    (tileBody sz a g r).1.calls.length =
      (if stagesA a = true then 1 else 0) + (if stagesB a = true then 1 else 0) := by
  cases hB : a.TransB <;> cases hia : a.is_image_a <;> cases hib : a.is_image_b <;>
    cases hkm : kNotMultiple a <;>
    simp [tileBody, stageOperands, stageA, stageB, stagesA, stagesB, hB, hia, hib, hkm]

/-- C14: for every pass of a returned call (each staging operation emitting an event), the
wait-list of the compute launch is the list of the events of the staging operations of
that pass, one per staging call; its length is [A not a texture] + [B not a texture
and (B not transposed or `K mod 8 ≠ 0`)], so at most 2; the launch is passed that
length and that list, and the list is null exactly when the length is 0. -/
theorem C14_wait_list {Dtype : Type} [DecidableEq Dtype] [Zero Dtype] [One Dtype]
    (sz : Int) (fuel : Nat) (st : CLState) (a : GemmArgs Dtype) (run : GemmRun Dtype)
    (h : ocl4dnnFastImageGEMM sz fuel st a = Outcome.ok run) :
    ∀ t ∈ run.tiles,
      t.ev = producedEvents t.stagingOps ∧
      t.calls.length = t.ev.length ∧
      t.ev.length =
        (if a.is_image_a = false then 1 else 0) +
        (if a.is_image_b = false ∧
            (a.TransB = CBLAS_TRANSPOSE.CblasNoTrans ∨ ¬ ((8 : Int) ∣ a.K)) then 1 else 0) ∧
      t.ev.length ≤ 2 ∧
      t.wait_list = (if t.ev.length = 0 then none else some t.ev) ∧
      (t.wait_list = none ↔ t.ev.length = 0) ∧
      t.launch = CLOp.clEnqueueNDRangeKernel (kernel_name a) t.args t.global t.localSize
        t.ev.length t.wait_list (some t.launchEvent) := by
  obtain ⟨gs, hgs, _⟩ := gemm_runTiles sz fuel st a run h
  intro t ht
  have ht2 : t ∈ (runTiles sz a gs { ImA := cl_mem.NULL, ImB := cl_mem.NULL, st := st }).1 := by
    rw [hgs]; exact ht
  obtain ⟨g, _, r1, rfl⟩ := mem_runTiles sz a gs _ t ht2
  have hev := (tileBody_effect sz a g r1).1
  have hpe := (stageOperands_effect sz a g r1).2.2.2.2.2.2.1
  have hcalls := tileBody_calls sz a g r1
  have hlen : (tileBody sz a g r1).1.ev.length =
      (if stagesA a = true then 1 else 0) + (if stagesB a = true then 1 else 0) := by
    rw [hev, List.length_range']
  have hcount : (if stagesA a = true then 1 else 0) + (if stagesB a = true then 1 else 0) =
      (if a.is_image_a = false then 1 else 0) +
      (if a.is_image_b = false ∧
          (a.TransB = CBLAS_TRANSPOSE.CblasNoTrans ∨ ¬ ((8 : Int) ∣ a.K)) then 1 else 0) := by
    have hA : (stagesA a = true) ↔ a.is_image_a = false := by simp [stagesA]
    have hB : (stagesB a = true) ↔ (a.is_image_b = false ∧
        (a.TransB = CBLAS_TRANSPOSE.CblasNoTrans ∨ ¬ ((8 : Int) ∣ a.K))) := by
      simp [stagesB, kNotMultiple_iff]
    rw [if_congr hA rfl rfl, if_congr hB rfl rfl]
  have hwl : (tileBody sz a g r1).1.wait_list =
      (if (tileBody sz a g r1).1.ev.length = 0 then none else some (tileBody sz a g r1).1.ev) := by
    show (if (stageOperands sz a g r1).ev.length ≠ 0 then some (stageOperands sz a g r1).ev
      else none) = (if (stageOperands sz a g r1).ev.length = 0 then none
      else some (stageOperands sz a g r1).ev)
    by_cases hz : (stageOperands sz a g r1).ev.length = 0 <;> simp [hz]
  refine ⟨hpe.symm, by rw [hcalls, hlen], by rw [hlen, hcount], ?_, hwl, ?_, rfl⟩
  · rw [hlen]; split <;> split <;> omega
  · rw [hwl]
    by_cases hz : (tileBody sz a g r1).1.ev.length = 0 <;> simp [hz]

/-- Witness of C14: in the sample call with B transposed and `K = 8` only A is staged, so
the single pass waits on one event. -/
theorem C14_wait_list_witness :
    ∃ run, ocl4dnnFastImageGEMM 4 25 { nextImage := 0, nextEvent := 0 }
        (sampleArgs CBLAS_TRANSPOSE.CblasNoTrans CBLAS_TRANSPOSE.CblasTrans 4 4 8
          gemm_type_t.GEMM_TYPE_FAST_IMAGE_32_1 0) = Outcome.ok run ∧
      run.tiles.length = 1 ∧
      (∀ t ∈ run.tiles, t.ev.length = 1 ∧ t.wait_list = some t.ev) ∧
      (tilesOf (ocl4dnnFastImageGEMM 4 25 { nextImage := 0, nextEvent := 0 }
        (sampleArgs CBLAS_TRANSPOSE.CblasNoTrans CBLAS_TRANSPOSE.CblasTrans 4 4 8
          gemm_type_t.GEMM_TYPE_FAST_IMAGE_32_1 0))).map (fun t => (t.wait_list, t.launchEvent))
        = [(some [0], 1)] := by
  obtain ⟨run, hrun, ht, _, _⟩ := gemm_returns 4 25 { nextImage := 0, nextEvent := 0 }
    (sampleArgs CBLAS_TRANSPOSE.CblasNoTrans CBLAS_TRANSPOSE.CblasTrans 4 4 8
      gemm_type_t.GEMM_TYPE_FAST_IMAGE_32_1 0) (by simp [Accepted, sampleArgs]) (by decide)
    (by decide) (by decide) (by decide) (by decide)
  have hc := C14_wait_list 4 25 { nextImage := 0, nextEvent := 0 }
    (sampleArgs CBLAS_TRANSPOSE.CblasNoTrans CBLAS_TRANSPOSE.CblasTrans 4 4 8
      gemm_type_t.GEMM_TYPE_FAST_IMAGE_32_1 0) run hrun
  refine ⟨run, hrun, ?_, ?_, by decide⟩
  · rw [ht, runTiles_length]; decide
  · intro t htm
    obtain ⟨_, _, h3, _, h5, _, _⟩ := hc t htm
    have h1 : t.ev.length = 1 := by rw [h3]; decide
    exact ⟨h1, by rw [h5, h1]; rfl⟩

/-- C16 fails as stated: a call with both operands textures and `gemm_type` 32_1 is
accepted and tiles with edge 1024, not `max_image_size = 4096` (its output tiles for
`M = N = 2000` have widths 1024 and 976), and a call with neither operand a texture
and `gemm_type` B_IMAGE is accepted and uses the edge `max_image_size = 4096`. -/
theorem C16_tile_edge_counterexample :
    (sampleImageArgs CBLAS_TRANSPOSE.CblasNoTrans CBLAS_TRANSPOSE.CblasNoTrans 2000 2000 8
      gemm_type_t.GEMM_TYPE_FAST_IMAGE_32_1 4096).is_image_a = true ∧
    (sampleImageArgs CBLAS_TRANSPOSE.CblasNoTrans CBLAS_TRANSPOSE.CblasNoTrans 2000 2000 8
      gemm_type_t.GEMM_TYPE_FAST_IMAGE_32_1 4096).is_image_b = true ∧
    blocksize (sampleImageArgs CBLAS_TRANSPOSE.CblasNoTrans CBLAS_TRANSPOSE.CblasNoTrans
      2000 2000 8 gemm_type_t.GEMM_TYPE_FAST_IMAGE_32_1 4096) = 1024 ∧
    (tilesOf (ocl4dnnFastImageGEMM 4 8 { nextImage := 0, nextEvent := 0 }
        (sampleImageArgs CBLAS_TRANSPOSE.CblasNoTrans CBLAS_TRANSPOSE.CblasNoTrans 2000 2000 8
          gemm_type_t.GEMM_TYPE_FAST_IMAGE_32_1 4096))).map
      (fun t => (t.geom.v.C_start_y, t.geom.v.C_start_x, t.geom.v.blockC_width)) =
      [(0, 0, 1024), (0, 1024, 976), (1024, 0, 1024), (1024, 1024, 976)] ∧
    (sampleArgs CBLAS_TRANSPOSE.CblasNoTrans CBLAS_TRANSPOSE.CblasNoTrans 2000 2000 8
      gemm_type_t.GEMM_TYPE_FAST_IMAGE_B_IMAGE 4096).is_image_a = false ∧
    (sampleArgs CBLAS_TRANSPOSE.CblasNoTrans CBLAS_TRANSPOSE.CblasNoTrans 2000 2000 8
      gemm_type_t.GEMM_TYPE_FAST_IMAGE_B_IMAGE 4096).is_image_b = false ∧
    blocksize (sampleArgs CBLAS_TRANSPOSE.CblasNoTrans CBLAS_TRANSPOSE.CblasNoTrans
      2000 2000 8 gemm_type_t.GEMM_TYPE_FAST_IMAGE_B_IMAGE 4096) = 4096 ∧
    (tilesOf (ocl4dnnFastImageGEMM 4 8 { nextImage := 0, nextEvent := 0 }
        (sampleArgs CBLAS_TRANSPOSE.CblasNoTrans CBLAS_TRANSPOSE.CblasNoTrans 2000 2000 8
          gemm_type_t.GEMM_TYPE_FAST_IMAGE_B_IMAGE 4096))).map
      (fun t => (t.geom.v.C_start_y, t.geom.v.C_start_x, t.geom.v.blockC_width)) =
      [(0, 0, 2000)] := by
  decide

/-- Conversion of a `size_t` below `2^31` to `int` leaves it unchanged. -/
theorem toInt32_small (n : Nat) (h : n < 2 ^ 31) : toInt32 n = (n : Int) := by
  unfold toInt32
  have h1 : n % 2 ^ 32 = n := Nat.mod_eq_of_lt (by omega)
  rw [h1, if_pos h]

/-- C16, amended: the tile edge is 1024 unless `gemm_type` is
`GEMM_TYPE_FAST_IMAGE_B_IMAGE`, when it is `max_image_size` (converted to `int`),
whatever `is_image_a` and `is_image_b` are; in an accepted call with `M, N, K ≥ 1`
every block is clipped to that edge and every cursor is a multiple of it; and the
call made by `ocl4dnnGEMMCommon` has `gemm_type` 32_1 and neither operand a
texture, hence the edge 1024. -/
theorem C16_tile_edge {Dtype : Type} [DecidableEq Dtype] [Zero Dtype] [One Dtype]
    (sz : Int) (fuel : Nat) (st : CLState) (a : GemmArgs Dtype)
    (hacc : Accepted a) (hM : 1 ≤ a.M) (hN : 1 ≤ a.N) (hK : 1 ≤ a.K) (hb : 1 ≤ blocksize a)
    (hfuel : a.M * a.N + a.K < (fuel : Int)) :
    (a.gemm_type = gemm_type_t.GEMM_TYPE_FAST_IMAGE_B_IMAGE →
      blocksize a = toInt32 a.max_image_size ∧
      (a.max_image_size < 2 ^ 31 → blocksize a = (a.max_image_size : Int))) ∧
    (a.gemm_type ≠ gemm_type_t.GEMM_TYPE_FAST_IMAGE_B_IMAGE → blocksize a = 1024) ∧
    (∃ run, ocl4dnnFastImageGEMM sz fuel st a = Outcome.ok run ∧
      ∀ t ∈ run.tiles,
        t.geom.v.blockC_width = min (a.N - t.geom.v.C_start_x) (blocksize a) ∧
        t.geom.v.blockC_height = min (a.M - t.geom.v.C_start_y) (blocksize a) ∧
        t.geom.block_Ksize = min (a.K - t.geom.k) (blocksize a) ∧
        (∃ i j l : Nat, t.geom.v.C_start_y = (i : Int) * blocksize a ∧
          t.geom.v.C_start_x = (j : Int) * blocksize a ∧
          t.geom.k = (l : Int) * blocksize a)) ∧
    (∀ (fuel1 : Nat) (st1 : CLState) (TransB : CBLAS_TRANSPOSE) (M N K : Int)
        (A B B_image C : cl_mem) (max_image_size : Nat),
      @ocl4dnnGEMMCommon Dtype _ _ _ sz fuel1 st1 TransB M N K A B B_image C max_image_size =
        (match ocl4dnnFastImageGEMM sz fuel1 st1
            { TransA := CBLAS_TRANSPOSE.CblasNoTrans, TransB := TransB, M := M, N := N
              K := K, alpha := (1 : Dtype), A := A, offA := 0, B := B, offB := 0
              beta := (0 : Dtype), C := C, offC := 0, is_image_a := false
              is_image_b := false, gemm_type := gemm_type_t.GEMM_TYPE_FAST_IMAGE_32_1
              max_image_size := max_image_size } with
          | Outcome.ok run => Outcome.ok (some run)
          | Outcome.fatal msg => Outcome.fatal msg
          | Outcome.outOfFuel => Outcome.outOfFuel) ∧
      blocksize
        ({ TransA := CBLAS_TRANSPOSE.CblasNoTrans, TransB := TransB, M := M, N := N
           K := K, alpha := (1 : Dtype), A := A, offA := 0, B := B, offB := 0
           beta := (0 : Dtype), C := C, offC := 0, is_image_a := false
           is_image_b := false, gemm_type := gemm_type_t.GEMM_TYPE_FAST_IMAGE_32_1
           max_image_size := max_image_size } : GemmArgs Dtype) = 1024) := by
  refine ⟨?_, ?_, ?_, ?_⟩
  · intro hg
    have e : blocksize a = toInt32 a.max_image_size := by simp [blocksize, hg]
    exact ⟨e, fun hs => by rw [e, toInt32_small _ hs]⟩
  · intro hg
    simp [blocksize, hg]
  · obtain ⟨run, hrun, _, hat⟩ := gemm_tile_at sz fuel st a hacc hM hN hK hb hfuel
    refine ⟨run, hrun, ?_⟩
    intro t ht
    obtain ⟨y, hy, x, hx, k, hk, r1, rfl⟩ := hat t ht
    obtain ⟨h1, h2, h3, _, h5, h6, h7, _⟩ := geomAt_fields a y x k
    obtain ⟨i, _, hi⟩ := mem_tileStarts _ _ _ _ hy
    obtain ⟨j, _, hj⟩ := mem_tileStarts _ _ _ _ hx
    obtain ⟨l, _, hl⟩ := mem_tileStarts _ _ _ _ hk
    rw [tileBody_geom, h1, h2, h3, h5, h6, h7]
    exact ⟨rfl, rfl, rfl, i, j, l, by simpa using hi, by simpa using hj, by simpa using hl⟩
  · intro fuel1 st1 TransB M N K A B B_image C max_image_size
    exact ⟨by simp [ocl4dnnGEMMCommon], by simp [blocksize]⟩

/-- Witness of C16 as amended: the sample call with both operands textures, `gemm_type`
B_IMAGE and `max_image_size = 2` tiles `M = 5`, `N = 3`, `K = 7` with edge 2. -/
theorem C16_tile_edge_witness :
    Accepted (sampleImageArgs CBLAS_TRANSPOSE.CblasNoTrans CBLAS_TRANSPOSE.CblasNoTrans 5 3 7
      gemm_type_t.GEMM_TYPE_FAST_IMAGE_B_IMAGE 2) ∧
    blocksize (sampleImageArgs CBLAS_TRANSPOSE.CblasNoTrans CBLAS_TRANSPOSE.CblasNoTrans 5 3 7
      gemm_type_t.GEMM_TYPE_FAST_IMAGE_B_IMAGE 2) = 2 ∧
    ∃ run, ocl4dnnFastImageGEMM 4 23 { nextImage := 0, nextEvent := 0 }
        (sampleImageArgs CBLAS_TRANSPOSE.CblasNoTrans CBLAS_TRANSPOSE.CblasNoTrans 5 3 7
          gemm_type_t.GEMM_TYPE_FAST_IMAGE_B_IMAGE 2) = Outcome.ok run ∧
      ∀ t ∈ run.tiles, t.geom.v.blockC_width = min (3 - t.geom.v.C_start_x) 2 := by
  have hacc : Accepted (sampleImageArgs CBLAS_TRANSPOSE.CblasNoTrans
      CBLAS_TRANSPOSE.CblasNoTrans 5 3 7 gemm_type_t.GEMM_TYPE_FAST_IMAGE_B_IMAGE 2) := by
    simp [Accepted, sampleImageArgs, sampleArgs]
  obtain ⟨hb, _, ⟨run, hrun, ht⟩, _⟩ := C16_tile_edge 4 23 { nextImage := 0, nextEvent := 0 }
    (sampleImageArgs CBLAS_TRANSPOSE.CblasNoTrans CBLAS_TRANSPOSE.CblasNoTrans 5 3 7
      gemm_type_t.GEMM_TYPE_FAST_IMAGE_B_IMAGE 2) hacc (by decide) (by decide) (by decide)
    (by decide) (by decide)
  exact ⟨hacc, by decide, run, hrun, fun t htm => (ht t htm).1⟩

/-- The block extents of A and B do not touch the output cursor or the output extents. -/
theorem blockSizes_C {Dtype : Type} (a : GemmArgs Dtype) (v : LoopVars) :
    (blockSizes a v).C_start_x = v.C_start_x ∧ (blockSizes a v).C_start_y = v.C_start_y ∧
    (blockSizes a v).blockC_width = v.blockC_width ∧
    (blockSizes a v).blockC_height = v.blockC_height :=
  ⟨rfl, rfl, rfl, rfl⟩

/-- The cursor updates of the K loop do not touch the output cursor or the output extents. -/
theorem advanceK_C {Dtype : Type} (a : GemmArgs Dtype) (v : LoopVars) :
    (advanceK a v).C_start_x = v.C_start_x ∧ (advanceK a v).C_start_y = v.C_start_y ∧
    (advanceK a v).blockC_width = v.blockC_width ∧
    (advanceK a v).blockC_height = v.blockC_height := by
  unfold advanceK
  cases a.TransA <;> cases a.TransB <;> exact ⟨rfl, rfl, rfl, rfl⟩

/-- The output cursor after the updates at the end of an outer pass. -/
theorem advanceC_C {Dtype : Type} (a : GemmArgs Dtype) (v : LoopVars) :
    (advanceC a v).C_start_x =
      (if v.C_start_x + v.blockC_width ≥ a.N then 0 else v.C_start_x + v.blockC_width) ∧
    (advanceC a v).C_start_y =
      (if v.C_start_x + v.blockC_width ≥ a.N then v.C_start_y + v.blockC_height
       else v.C_start_y) := by
  unfold advanceC
  cases a.TransA <;> cases a.TransB <;> simp <;> split_ifs <;> exact ⟨rfl, rfl⟩

/-- One pass of the K loop: the next pass is entered at `k + blocksize`. -/
theorem kLoop_step {Dtype : Type} [DecidableEq Dtype] [Zero Dtype] [One Dtype]
    (sz : Int) (a : GemmArgs Dtype) (fuel : Nat) (k flag : Int) (v : LoopVars) (r : Res)
    (hk : k < a.K) :
    kLoop sz a (fuel + 1) k flag v r =
      prependTiles [(tileBody sz a (tileGeom a v k flag) r).1]
        (kLoop sz a fuel (k + blocksize a) 0 (advanceK a (tileGeom a v k flag).v)
          (tileBody sz a (tileGeom a v k flag) r).2) := by
  rw [kLoop, if_pos hk]

/-- The K loop returns once its fuel exceeds the number of blocks left, and leaves the
output cursor and the output extents as it found them. -/
theorem kLoop_terminates {Dtype : Type} [DecidableEq Dtype] [Zero Dtype] [One Dtype]
    (sz : Int) (a : GemmArgs Dtype) :
    ∀ (n fuel : Nat) (k flag : Int) (v : LoopVars) (r : Res),
      a.K - k ≤ (n : Int) * blocksize a → n < fuel →
      ∃ ts v1 r1, kLoop sz a fuel k flag v r = Outcome.ok (ts, v1, r1) ∧
        ts.length ≤ n ∧
        v1.C_start_x = v.C_start_x ∧ v1.C_start_y = v.C_start_y ∧
        v1.blockC_width = v.blockC_width ∧ v1.blockC_height = v.blockC_height := by
  intro n
  induction n with
  | zero =>
    intro fuel k flag v r h hf
    obtain ⟨f, rfl⟩ : ∃ f, fuel = f + 1 := ⟨fuel - 1, by omega⟩
    refine ⟨[], v, r, ?_, by simp, rfl, rfl, rfl, rfl⟩
    rw [kLoop, if_neg (by simp at h; omega)]
  | succ n ih =>
    intro fuel k flag v r h hf
    obtain ⟨f, rfl⟩ : ∃ f, fuel = f + 1 := ⟨fuel - 1, by omega⟩
    by_cases hk : k < a.K
    · have e : ((n + 1 : Nat) : Int) * blocksize a = (n : Int) * blocksize a + blocksize a := by
        push_cast; ring
      obtain ⟨ts, v1, r1, h1, h2, h3, h4, h5, h6⟩ :=
        ih f (k + blocksize a) 0 (advanceK a (tileGeom a v k flag).v)
          (tileBody sz a (tileGeom a v k flag) r).2 (by omega) (by omega)
      refine ⟨(tileBody sz a (tileGeom a v k flag) r).1 :: ts, v1, r1, ?_, by simp; omega, ?_, ?_, ?_, ?_⟩
      · rw [kLoop_step sz a f k flag v r hk, h1]; rfl
      · rw [h3, (advanceK_C a _).1, tileGeom_v, (blockSizes_C a v).1]
      · rw [h4, (advanceK_C a _).2.1, tileGeom_v, (blockSizes_C a v).2.1]
      · rw [h5, (advanceK_C a _).2.2.1, tileGeom_v, (blockSizes_C a v).2.2.1]
      · rw [h6, (advanceK_C a _).2.2.2, tileGeom_v, (blockSizes_C a v).2.2.2]
    · refine ⟨[], v, r, ?_, by simp, rfl, rfl, rfl, rfl⟩
      rw [kLoop, if_neg hk]

/-- One pass of the outer loop: the K loop returns, and the cursor updates either move
the column cursor up, keeping it below `N` and the row cursor in place, or put it
back to 0 and move the row cursor up. -/
theorem outer_pass_progress {Dtype : Type} [DecidableEq Dtype] [Zero Dtype] [One Dtype]
    (sz : Int) (a : GemmArgs Dtype) (hK : 0 ≤ a.K) (hb : 1 ≤ blocksize a)
    (kFuel : Nat) (hf : a.K < (kFuel : Int)) (v : LoopVars) (r : Res)
    (hy : v.C_start_y < a.M) :
    ∃ ts v1 r1, kLoop sz a kFuel 0 1 (blockCSizes a v) r = Outcome.ok (ts, v1, r1) ∧
      (((advanceC a v1).C_start_y = v.C_start_y ∧ v.C_start_x < (advanceC a v1).C_start_x ∧
          (advanceC a v1).C_start_x < a.N) ∨
        ((advanceC a v1).C_start_x = 0 ∧ v.C_start_y < (advanceC a v1).C_start_y)) := by
  have hn : a.K - 0 ≤ ((a.K.toNat : Nat) : Int) * blocksize a := by
    rw [Int.toNat_of_nonneg hK]
    have := mul_le_mul_of_nonneg_left hb hK
    omega
  obtain ⟨ts, v1, r1, h1, _, h3, h4, h5, h6⟩ :=
    kLoop_terminates sz a a.K.toNat kFuel 0 1 (blockCSizes a v) r hn (by omega)
  refine ⟨ts, v1, r1, h1, ?_⟩
  have c1 : v1.C_start_x = v.C_start_x := h3
  have c2 : v1.C_start_y = v.C_start_y := h4
  have c3 : v1.blockC_width = min (a.N - v.C_start_x) (blocksize a) := h5
  have c4 : v1.blockC_height = min (a.M - v.C_start_y) (blocksize a) := h6
  obtain ⟨e1, e2⟩ := advanceC_C a v1
  rw [e1, e2, c1, c2, c3, c4]
  split_ifs with h
  · right; exact ⟨rfl, by omega⟩
  · left; exact ⟨rfl, by omega, by omega⟩

/-- The outer loop returns once its fuel exceeds `(M - C_start_y) * (N + 1) - C_start_x`. -/
theorem tileLoop_terminates {Dtype : Type} [DecidableEq Dtype] [Zero Dtype] [One Dtype]
    (sz : Int) (a : GemmArgs Dtype) (hN : 0 ≤ a.N) (hK : 0 ≤ a.K) (hb : 1 ≤ blocksize a)
    (kFuel : Nat) (hf : a.K < (kFuel : Int)) :
    ∀ (fuel : Nat) (v : LoopVars) (r : Res), 0 ≤ v.C_start_x →
      (v.C_start_x < a.N ∨ v.C_start_x = 0) → 0 < fuel →
      (a.M - v.C_start_y) * (a.N + 1) - v.C_start_x < (fuel : Int) →
      ∃ ts v2 r2, tileLoop sz a kFuel fuel v r = Outcome.ok (ts, v2, r2) := by
  intro fuel
  induction fuel with
  | zero => intro v r _ _ h; omega
  | succ f ih =>
    intro v r hx0 hx _ hm
    by_cases hy : v.C_start_y < a.M
    · obtain ⟨ts, v1, r1, h1, hp⟩ := outer_pass_progress sz a hK hb kFuel hf v r hy
      have hM1 : a.N + 1 ≤ (a.M - v.C_start_y) * (a.N + 1) := by
        have := mul_le_mul_of_nonneg_right (show (1 : Int) ≤ a.M - v.C_start_y by omega)
          (show (0 : Int) ≤ a.N + 1 by omega)
        omega
      have hnext : ∃ ts2 v2 r2, tileLoop sz a kFuel f (advanceC a v1) r1 =
          Outcome.ok (ts2, v2, r2) := by
        rcases hp with ⟨p1, p2, p3⟩ | ⟨p1, p2⟩
        · apply ih _ _ (by omega) (Or.inl p3) (by push_cast at hm; omega)
          rw [p1]; push_cast at hm; omega
        · apply ih _ _ (by omega) (Or.inr p1) (by push_cast at hm; omega)
          have := mul_le_mul_of_nonneg_right
            (show a.M - (advanceC a v1).C_start_y ≤ a.M - v.C_start_y - 1 by omega)
            (show (0 : Int) ≤ a.N + 1 by omega)
          have e : (a.M - v.C_start_y - 1) * (a.N + 1) =
              (a.M - v.C_start_y) * (a.N + 1) - (a.N + 1) := by ring
          push_cast at hm
          omega
      obtain ⟨ts2, v2, r2, h2⟩ := hnext
      refine ⟨ts ++ ts2, v2, r2, ?_⟩
      rw [tileLoop, if_pos hy, h1]
      show prependTiles ts (tileLoop sz a kFuel f (advanceC a v1) r1) = _
      rw [h2]; rfl
    · exact ⟨[], v, r, by rw [tileLoop, if_neg hy]⟩

/-- C18: for `M, N, K ≥ 0`, either transpose flag on either operand and tile edge
`b ≥ 1`, an accepted call of `ocl4dnnFastImageGEMM` returns (with fuel above
`M * (N + 1) + K`), having made the finitely many launches of its record.  Every
pass of the outer loop either moves `C_start_x` strictly up to a value below `N`
and leaves `C_start_y`, or resets `C_start_x` to 0 and moves `C_start_y` strictly
up; and a pass of the K loop is followed by the pass at `k + b > k`. -/
theorem C18_tile_loop_terminates {Dtype : Type} [DecidableEq Dtype] [Zero Dtype] [One Dtype]
    (sz : Int) (fuel : Nat) (st : CLState) (a : GemmArgs Dtype)
    (hacc : Accepted a) (hM : 0 ≤ a.M) (hN : 0 ≤ a.N) (hK : 0 ≤ a.K) (hb : 1 ≤ blocksize a)
    (hfuel : a.M * (a.N + 1) + a.K < (fuel : Int)) :
    (∃ run, ocl4dnnFastImageGEMM sz fuel st a = Outcome.ok run) ∧
    (∀ (v : LoopVars) (r : Res), v.C_start_y < a.M →
      ∃ ts v1 r1, kLoop sz a fuel 0 1 (blockCSizes a v) r = Outcome.ok (ts, v1, r1) ∧
        (((advanceC a v1).C_start_y = v.C_start_y ∧
            v.C_start_x < (advanceC a v1).C_start_x ∧ (advanceC a v1).C_start_x < a.N) ∨
          ((advanceC a v1).C_start_x = 0 ∧ v.C_start_y < (advanceC a v1).C_start_y))) ∧
    (∀ (f : Nat) (k flag : Int) (v : LoopVars) (r : Res), k < a.K →
      k < k + blocksize a ∧
      kLoop sz a (f + 1) k flag v r =
        prependTiles [(tileBody sz a (tileGeom a v k flag) r).1]
          (kLoop sz a f (k + blocksize a) 0 (advanceK a (tileGeom a v k flag).v)
            (tileBody sz a (tileGeom a v k flag) r).2)) := by
  have hMN : 0 ≤ a.M * (a.N + 1) := mul_nonneg hM (by omega)
  have hf : a.K < (fuel : Int) := by omega
  refine ⟨?_, ?_, ?_⟩
  · obtain ⟨ts, v2, r2, h⟩ := tileLoop_terminates sz a hN hK hb fuel hf fuel (initVars a)
      { ImA := cl_mem.NULL, ImB := cl_mem.NULL, st := st } (le_refl _) (Or.inr rfl)
      (by omega) (by show (a.M - 0) * (a.N + 1) - 0 < (fuel : Int); simp only [sub_zero]; omega)
    obtain ⟨h1, h2, h3⟩ := hacc
    refine ⟨{ tiles := ts, finalOps := finalReleases a r2, res := r2 }, ?_⟩
    unfold ocl4dnnFastImageGEMM
    rw [if_neg (not_not.mpr h1), if_neg (by rintro ⟨p, q⟩; exact q (h2 p)),
      if_neg (by rintro ⟨p, q⟩; exact q (h3 p)), h]
  · intro v r hy
    exact outer_pass_progress sz a hK hb fuel hf v r hy
  · intro f k flag v r hk
    exact ⟨by omega, kLoop_step sz a f k flag v r hk⟩

/-- Witness of C18: the sample call with `M = 3`, `N = 0`, `K = 5` and tile edge 2
returns with fuel 9. -/
theorem C18_tile_loop_terminates_witness :
    Accepted (sampleArgs CBLAS_TRANSPOSE.CblasNoTrans CBLAS_TRANSPOSE.CblasTrans 3 0 5
      gemm_type_t.GEMM_TYPE_FAST_IMAGE_B_IMAGE 2) ∧
    ∃ run, ocl4dnnFastImageGEMM 4 9 { nextImage := 0, nextEvent := 0 }
      (sampleArgs CBLAS_TRANSPOSE.CblasNoTrans CBLAS_TRANSPOSE.CblasTrans 3 0 5
        gemm_type_t.GEMM_TYPE_FAST_IMAGE_B_IMAGE 2) = Outcome.ok run :=
  ⟨by simp [Accepted, sampleArgs],
   (C18_tile_loop_terminates 4 9 { nextImage := 0, nextEvent := 0 }
    (sampleArgs CBLAS_TRANSPOSE.CblasNoTrans CBLAS_TRANSPOSE.CblasTrans 3 0 5
      gemm_type_t.GEMM_TYPE_FAST_IMAGE_B_IMAGE 2) (by simp [Accepted, sampleArgs])
    (by decide) (by decide) (by decide) (by decide) (by decide)).1⟩

end ocl4dnn
